import Mathlib

/-!
# Fluxnode registry: undo records and the `rebuildzelnodedb` rescan

A shallow embedding of `src/undo.h` (the per-block undo record of the node
registry and its stream encoding) and of `src/rpc/zelnode.cpp`
(`rebuildzelnodedb`, `startzelnode`, `startdeterministiczelnode`,
`getdoslist`, `listzelnodeconf`), together with the properties proved about
them.

Conventions of the embedding.

* A data stream is the list of bytes still to be read; writing appends.
* `std::map<K, V>` is an association list kept in ascending key order,
  `std::set<K>` an ascending list; `insert` never overwrites a present key.
* C++ `int` values are `Int`; no claim below depends on wrap-around.
* Functions and classes that the two source files only call (the element
  serializers of `serialize.h`, the methods of `ZelnodeCache`, the chain and
  database helpers) are parameters of the model, bundled in `Serializers`
  and `Env`. The general theorems hold for every value of these parameters.
* One concrete `Env` is built from the specification (`specEnv`); it is used
  to run the model on concrete chains, and where a property depends on what
  a missing helper does.
* The model keeps a log of the calls `rebuildzelnodedb` makes (`State.calls`),
  so that statements about what is called, with which arguments and in which
  order, can be made. The start RPCs keep a log of their wallet calls alike.
* A `UniValue` object is the list of its key/value pairs in `pushKV` order;
  the collaborators of the RPCs are bundled in `StartEnv` and `QueryEnv`.
-/

namespace Fluxd

/-! ## Streams and element codecs -/

/-- One byte of a data stream. -/
abbrev Byte := Fin 256

/-- The unread bytes of a `CDataStream`. -/
abbrev Stream := List Byte

/-- An element serializer: `ser` is `Serialize`, `unser` is `Unserialize`
(`none` when it throws); `unser` returns the value and the bytes left. -/
structure Codec (α : Type) where
  ser : α → Stream
  unser : Stream → Option (α × Stream)

/-- The codec reads back what it wrote and leaves the following bytes alone. -/
def Codec.RoundTrips {α : Type} (c : Codec α) : Prop :=
  ∀ (a : α) (rest : Stream), c.unser (c.ser a ++ rest) = some (a, rest)

/-! ## Data model -/

/-- The class `COutPoint`: transaction hash (`uint256`) and output index (`uint32_t`). -/
structure COutPoint where
  hash : Nat := 0
  n : Nat := 0
  deriving DecidableEq, Repr, Inhabited

/-- The `operator<` of `COutPoint`: by hash, then by index. -/
def COutPoint.lt (a b : COutPoint) : Bool :=
  decide (a.hash < b.hash) || (decide (a.hash = b.hash) && decide (a.n < b.n))

/-- The class `ZelnodeCacheData`, with the members the two source files read.
`isNull` is what `IsNull()` reports; public keys are their raw bytes. -/
structure ZelnodeCacheData where
  isNull : Bool := true
  collateralIn : COutPoint := {}
  collateralPubkey : List Nat := []
  pubKey : List Nat := []
  ip : String := ""
  nTier : Int := 0
  nCollateral : Int := 0
  nAddedBlockHeight : Int := 0
  nConfirmedBlockHeight : Int := 0
  nLastConfirmedBlockHeight : Int := 0
  nLastPaidHeight : Int := 0
  deriving DecidableEq, Repr, Inhabited

/-- The method `ZelnodeCacheData::IsNull`. -/
def ZelnodeCacheData.IsNull (d : ZelnodeCacheData) : Bool := d.isNull

/-- The container `std::map<K, V>` as an association list. -/
abbrev StdMap (K V : Type) := List (K × V)

/-- The lookup `std::map::find`: the value stored under `k`, if any. -/
def StdMap.find {V : Type} (k : COutPoint) : StdMap COutPoint V → Option V
  | [] => none
  | (k1, v1) :: rest => if k = k1 then some v1 else StdMap.find k rest

/-- Position-preserving insertion of a new key in ascending key order. -/
def StdMap.place {V : Type} (k : COutPoint) (v : V) : StdMap COutPoint V → StdMap COutPoint V
  | [] => [(k, v)]
  | (k1, v1) :: rest =>
    if k.lt k1 then (k, v) :: (k1, v1) :: rest else (k1, v1) :: StdMap.place k v rest

/-- The call `std::map::insert(std::make_pair(k, v))`: nothing happens when `k` is
already a key, otherwise the pair is added at its place in key order. -/
def StdMap.insert {V : Type} (k : COutPoint) (v : V) (m : StdMap COutPoint V) :
    StdMap COutPoint V :=
  match StdMap.find k m with
  | some _ => m
  | none => StdMap.place k v m

/-- The container `std::set<COutPoint>` as a list. -/
abbrev StdSet := List COutPoint

/-- Ordered insertion of a new element of a set. -/
def StdSet.place (k : COutPoint) : StdSet → StdSet
  | [] => [k]
  | k1 :: rest => if k.lt k1 then k :: k1 :: rest else k1 :: StdSet.place k rest

/-- The call `std::set::insert`: a present element is not added again. -/
def StdSet.insert (k : COutPoint) (s : StdSet) : StdSet :=
  if k ∈ s then s else StdSet.place k s

/-- The class `CZelnodeTxBlockUndo` (undo.h): the five members in declaration order. -/
structure CZelnodeTxBlockUndo where
  vecExpiredDosData : List ZelnodeCacheData := []
  vecExpiredConfirmedData : List ZelnodeCacheData := []
  mapUpdateLastConfirmHeight : StdMap COutPoint Int := []
  mapLastPaidHeights : StdMap COutPoint Int := []
  mapLastIpAddress : StdMap COutPoint String := []
  deriving DecidableEq, Repr, Inhabited

/-- The method `CZelnodeTxBlockUndo::SetNull`: clears all five members. -/
def CZelnodeTxBlockUndo.SetNull (_u : CZelnodeTxBlockUndo) : CZelnodeTxBlockUndo :=
  { vecExpiredDosData := [], vecExpiredConfirmedData := [],
    mapUpdateLastConfirmHeight := [], mapLastPaidHeights := [], mapLastIpAddress := [] }

/-- The default constructor of `CZelnodeTxBlockUndo`, which calls `SetNull`. -/
def CZelnodeTxBlockUndo.new : CZelnodeTxBlockUndo :=
  CZelnodeTxBlockUndo.SetNull {}

/-! ## Serialization of the undo record (undo.h) -/

/-- The `serialize.h` codecs of the three member types of the undo record. -/
structure Serializers where
  vecData : Codec (List ZelnodeCacheData)
  mapInt : Codec (StdMap COutPoint Int)
  mapString : Codec (StdMap COutPoint String)

/-- The function `ReadWriteExtraZelnodeUndoBlockData` with a writing `ser_action`:
the map is always written. -/
def ReadWriteExtraZelnodeUndoBlockData_write (c : Serializers) (s : Stream)
    (mapLastIpAddress : StdMap COutPoint String) : Stream :=
  s ++ c.mapString.ser mapLastIpAddress

/-- The function `ReadWriteExtraZelnodeUndoBlockData` with a reading `ser_action`: the map
is read only when the stream is not empty, otherwise it is left as it is. -/
def ReadWriteExtraZelnodeUndoBlockData_read (c : Serializers) (s : Stream)
    (mapLastIpAddress : StdMap COutPoint String) :
    Option (StdMap COutPoint String × Stream) :=
  if !s.isEmpty then c.mapString.unser s else some (mapLastIpAddress, s)

/-- The method `CZelnodeTxBlockUndo::SerializationOp` when writing: the bytes appended to `s`. -/
def CZelnodeTxBlockUndo.Serialize (c : Serializers) (s : Stream) (u : CZelnodeTxBlockUndo) :
    Stream :=
  let s1 := s ++ c.vecData.ser u.vecExpiredDosData
  let s2 := s1 ++ c.vecData.ser u.vecExpiredConfirmedData
  let s3 := s2 ++ c.mapInt.ser u.mapUpdateLastConfirmHeight
  let s4 := s3 ++ c.mapInt.ser u.mapLastPaidHeights
  ReadWriteExtraZelnodeUndoBlockData_write c s4 u.mapLastIpAddress

/-- The method `CZelnodeTxBlockUndo::SerializationOp` when reading into the object `u`:
the object after the read and the bytes left, `none` when a read throws. -/
def CZelnodeTxBlockUndo.Unserialize (c : Serializers) (s : Stream) (u : CZelnodeTxBlockUndo) :
    Option (CZelnodeTxBlockUndo × Stream) :=
  match c.vecData.unser s with
  | none => none
  | some (dos, s1) =>
    match c.vecData.unser s1 with
    | none => none
    | some (confirmed, s2) =>
      match c.mapInt.unser s2 with
      | none => none
      | some (heights, s3) =>
        match c.mapInt.unser s3 with
        | none => none
        | some (paid, s4) =>
          match ReadWriteExtraZelnodeUndoBlockData_read c s4 u.mapLastIpAddress with
          | none => none
          | some (ips, s5) =>
            some ({ vecExpiredDosData := dos, vecExpiredConfirmedData := confirmed,
                    mapUpdateLastConfirmHeight := heights, mapLastPaidHeights := paid,
                    mapLastIpAddress := ips }, s5)

/-- The encoding of an undo record written before `mapLastIpAddress` existed:
the encodings of the four original members and nothing after them. -/
def legacyEncoding (c : Serializers) (u : CZelnodeTxBlockUndo) : Stream :=
  c.vecData.ser u.vecExpiredDosData ++ c.vecData.ser u.vecExpiredConfirmedData ++
    c.mapInt.ser u.mapUpdateLastConfirmHeight ++ c.mapInt.ser u.mapLastPaidHeights

/-! ## Reference codecs

`serialize.h` is not among the sources, so the theorems about the undo
encoding take the element codecs as parameters. The codecs below are one
concrete choice (length-prefixed sequences, base-128 integers) showing that
the assumptions made of the parameters can be met. -/

/-- Base-128 digits of a number, low digit first; the top bit of a byte says
that another digit follows. -/
def varintSer (n : Nat) : Stream :=
  if h : n < 128 then [⟨n, by omega⟩]
  else ⟨128 + n % 128, by omega⟩ :: varintSer (n / 128)
termination_by n
decreasing_by omega

/-- Reads back a number written by `varintSer`. -/
def varintUnser : Stream → Option (Nat × Stream)
  | [] => none
  | b :: rest =>
    if b.val < 128 then some (b.val, rest)
    else
      match varintUnser rest with
      | some (m, r) => some (b.val - 128 + 128 * m, r)
      | none => none

/-- Codec of natural numbers. -/
def Codec.nat : Codec Nat := ⟨varintSer, varintUnser⟩

/-- Transport of a codec along an embedding `f` with left inverse `g`. -/
def Codec.via {α β : Type} (c : Codec α) (f : β → α) (g : α → β) : Codec β :=
  ⟨fun b => c.ser (f b), fun s => (c.unser s).map (fun p => (g p.1, p.2))⟩

/-- Codec of a pair: first component, then second. -/
def Codec.pair {α β : Type} (ca : Codec α) (cb : Codec β) : Codec (α × β) :=
  ⟨fun p => ca.ser p.1 ++ cb.ser p.2,
   fun s =>
     match ca.unser s with
     | none => none
     | some (a, s1) =>
       match cb.unser s1 with
       | none => none
       | some (b, s2) => some ((a, b), s2)⟩

/-- Reads `k` elements one after the other. -/
def unserMany {α : Type} (c : Codec α) : Nat → Stream → Option (List α × Stream)
  | 0, s => some ([], s)
  | k + 1, s =>
    match c.unser s with
    | none => none
    | some (a, s1) =>
      match unserMany c k s1 with
      | none => none
      | some (l, s2) => some (a :: l, s2)

/-- Writes the elements one after the other. -/
def serMany {α : Type} (c : Codec α) : List α → Stream
  | [] => []
  | a :: l => c.ser a ++ serMany c l

/-- Codec of a sequence: element count, then the elements. -/
def Codec.list {α : Type} (c : Codec α) : Codec (List α) :=
  ⟨fun l => varintSer l.length ++ serMany c l,
   fun s =>
     match varintUnser s with
     | none => none
     | some (k, s1) => unserMany c k s1⟩

/-- Codec of integers. -/
def Codec.int : Codec Int :=
  Codec.nat.via (fun i => Equiv.intEquivNat i) (fun k => Equiv.intEquivNat.symm k)

/-- Codec of booleans. -/
def Codec.bool : Codec Bool :=
  Codec.nat.via (fun b => b.toNat) (fun k => decide (k ≠ 0))

/-- Codec of strings: length-prefixed characters. -/
def Codec.string : Codec String :=
  (Codec.list Codec.nat).via (fun s => s.data.map Char.toNat)
    (fun l => String.mk (l.map Char.ofNat))

/-- Codec of outpoints: hash, then index. -/
def Codec.outPoint : Codec COutPoint :=
  (Codec.nat.pair Codec.nat).via (fun o => (o.hash, o.n)) (fun p => ⟨p.1, p.2⟩)

/-- A node record as a nested tuple of its members. -/
def ZelnodeCacheData.toTuple (d : ZelnodeCacheData) :
    Bool × COutPoint × List Nat × List Nat × String × Int × Int × Int × Int × Int × Int :=
  (d.isNull, d.collateralIn, d.collateralPubkey, d.pubKey, d.ip, d.nTier, d.nCollateral,
    d.nAddedBlockHeight, d.nConfirmedBlockHeight, d.nLastConfirmedBlockHeight, d.nLastPaidHeight)

/-- The node record with the given members. -/
def ZelnodeCacheData.ofTuple
    (t : Bool × COutPoint × List Nat × List Nat × String × Int × Int × Int × Int × Int × Int) :
    ZelnodeCacheData :=
  { isNull := t.1, collateralIn := t.2.1, collateralPubkey := t.2.2.1, pubKey := t.2.2.2.1,
    ip := t.2.2.2.2.1, nTier := t.2.2.2.2.2.1, nCollateral := t.2.2.2.2.2.2.1,
    nAddedBlockHeight := t.2.2.2.2.2.2.2.1, nConfirmedBlockHeight := t.2.2.2.2.2.2.2.2.1,
    nLastConfirmedBlockHeight := t.2.2.2.2.2.2.2.2.2.1,
    nLastPaidHeight := t.2.2.2.2.2.2.2.2.2.2 }

/-- Codec of node records: the members in order. -/
def Codec.cacheData : Codec ZelnodeCacheData :=
  (Codec.bool.pair (Codec.outPoint.pair ((Codec.list Codec.nat).pair
    ((Codec.list Codec.nat).pair (Codec.string.pair (Codec.int.pair (Codec.int.pair
      (Codec.int.pair (Codec.int.pair (Codec.int.pair Codec.int)))))))))).via
    ZelnodeCacheData.toTuple ZelnodeCacheData.ofTuple

/-- One concrete set of element codecs for the undo record. -/
def referenceSerializers : Serializers :=
  { vecData := Codec.list Codec.cacheData
    mapInt := Codec.list (Codec.outPoint.pair Codec.int)
    mapString := Codec.list (Codec.outPoint.pair Codec.string) }

/-! ## Transactions, blocks and the chain (zelnode.cpp) -/

/-- The class `CTxIn`: the outpoint an input spends. -/
structure CTxIn where
  prevout : COutPoint := {}
  deriving DecidableEq, Repr, Inhabited

/-- The class `CTxOut`: the amount of an output. -/
structure CTxOut where
  nValue : Int := 0
  deriving DecidableEq, Repr, Inhabited

/-- The values `tx.nType` is compared with: `ZELNODE_START_TX_TYPE`,
`ZELNODE_CONFIRM_TX_TYPE`, or anything else. -/
inductive NodeTxType where
  | ZELNODE_START_TX_TYPE
  | ZELNODE_CONFIRM_TX_TYPE
  | other
  deriving DecidableEq, Repr, Inhabited

/-- The values `tx.nUpdateType` is compared with. -/
inductive ZelnodeUpdateType where
  | INITIAL_CONFIRM
  | UPDATE_CONFIRM
  | other
  deriving DecidableEq, Repr, Inhabited

/-- The class `CTransaction`, with the members `rebuildzelnodedb` reads. `isCoinBase`
and `isZelnodeTx` are what `IsCoinBase()` and `IsZelnodeTx()` report. -/
structure CTransaction where
  hash : Nat := 0
  isCoinBase : Bool := false
  isZelnodeTx : Bool := false
  vin : List CTxIn := []
  vout : List CTxOut := []
  nType : NodeTxType := NodeTxType.other
  nUpdateType : ZelnodeUpdateType := ZelnodeUpdateType.other
  collateralOut : COutPoint := {}
  ip : String := ""
  deriving DecidableEq, Repr, Inhabited

/-- The class `CBlock`: its hash and its transactions in block order. -/
structure CBlock where
  hash : Nat := 0
  vtx : List CTransaction := []
  deriving DecidableEq, Repr, Inhabited

/-- The class `CBlockIndex`: the height and the hash of a block of the chain. -/
structure CBlockIndex where
  nHeight : Int := 0
  hashBlock : Nat := 0
  deriving DecidableEq, Repr, Inhabited

/-- The calls `rebuildzelnodedb` makes to code outside the file, with the
arguments that matter; the model keeps them in a log, in call order. -/
inductive Call where
  | ReadBlockFromDisk (rescanIndex : CBlockIndex)
  | GetNextPayment (currentTier : Int)
  | AddPaidNode (currentTier : Int) (t_out : COutPoint) (nHeight : Int)
  | GetTransaction (hash : Nat)
  | GetCoinTierFromAmount (nHeight : Int) (nValue : Int)
  | AddNewStart (tx : CTransaction) (nHeight : Int) (nTier : Int) (nValue : Int)
  | AddNewConfirm (tx : CTransaction) (nHeight : Int)
  | AddUpdateConfirm (tx : CTransaction) (nHeight : Int)
  | GetZelnodeData (out : COutPoint)
  | GetUndoDataForExpiredZelnodeDosScores (nHeight : Int)
  | AddExpiredDosTx (undo : CZelnodeTxBlockUndo) (nHeight : Int)
  | GetUndoDataForExpiredConfirmZelnodes (nHeight : Int) (setSpentOutPoints : StdSet)
  | AddExpiredConfirmTx (undo : CZelnodeTxBlockUndo)
  | GetUndoDataForPaidZelnodes
  | CheckForExpiredStartTx (nHeight : Int)
  | WriteBlockUndoZelnodeData (hash : Nat) (undo : CZelnodeTxBlockUndo)
  | Flush
  | DumpZelnodeCache
  deriving DecidableEq, Repr

/-- The places where `rebuildzelnodedb` returns `error(...)`. -/
inductive RebuildError where
  | failedToGetTier (collateralOut : COutPoint)
  | failedToFindTx (collateralOut : COutPoint)
  | failedToFindGlobalData (txHash : Nat)
  | failedToWriteUndo
  deriving DecidableEq, Repr

/-- Why the function stopped before the end of the scan: an `error(...)`
return, the failed `assert` on `Flush`, or a fault of the C++ program
(division by zero in the progress line, a vector read past its end, a null
block index). -/
inductive Stop where
  | error (e : RebuildError)
  | assertFailed
  | divisionByZero
  | outOfRange
  | nullIndex
  deriving DecidableEq, Repr

/-- What the code outside `zelnode.cpp` does, as far as `rebuildzelnodedb`
uses it. `Cache` is the class `ZelnodeCache`, `DB` the class
`CDeterministicZelnodeDB`. Every helper gets the global cache to read; the
`Get...` helpers return the undo record they fill, the methods called on the
per-block cache return that cache. -/
structure Env (Cache DB : Type) where
  /-- The value of `Params().StartZelnodePayments()`. -/
  StartZelnodePayments : Int
  /-- The first tier of `enum Tier`. -/
  CUMULUS : Int
  /-- The end marker of `enum Tier`. -/
  LAST : Int
  /-- The activation height of `UPGRADE_KAMATA`. -/
  kamataActivationHeight : Int
  /-- A default-constructed `ZelnodeCache`. -/
  newZelnodeCache : Cache
  /-- The database made by `new CDeterministicZelnodeDB(0, false, true)`. -/
  newZelnodeDB : DB
  SetNull : Cache → Cache
  InitMapZelnodeList : Cache → Cache
  ReadBlockFromDisk : CBlockIndex → CBlock
  /-- The call `g_zelnodeCache.GetNextPayment(t_dest, tier, t_out)`: `some t_out` when it
  returns true. The method is not under `src/`; it is taken as a query that leaves the cache
  as it is, as §4.6 of the specification has it ("peek", "do not yet mutate queues");
  `addPaidNodeVia` is the tier loop without this assumption. -/
  GetNextPayment : Cache → Int → Option COutPoint
  AddPaidNode : Cache → Cache → Int → COutPoint → Int → Cache
  /-- The call `GetTransaction(hash, get_tx, ...)`: `some get_tx` when it returns true. -/
  GetTransaction : Nat → Option CTransaction
  /-- The call `GetCoinTierFromAmount(height, amount, nTier)`: `some nTier` when it returns true. -/
  GetCoinTierFromAmount : Int → Int → Option Int
  AddNewStart : Cache → Cache → CTransaction → Int → Int → Int → Cache
  AddNewConfirm : Cache → Cache → CTransaction → Int → Cache
  AddUpdateConfirm : Cache → Cache → CTransaction → Int → Cache
  GetZelnodeData : Cache → COutPoint → ZelnodeCacheData
  GetUndoDataForExpiredZelnodeDosScores : Cache → CZelnodeTxBlockUndo → Int → CZelnodeTxBlockUndo
  AddExpiredDosTx : Cache → Cache → CZelnodeTxBlockUndo → Int → Cache
  GetUndoDataForExpiredConfirmZelnodes :
    Cache → CZelnodeTxBlockUndo → Int → StdSet → CZelnodeTxBlockUndo
  AddExpiredConfirmTx : Cache → Cache → CZelnodeTxBlockUndo → Cache
  GetUndoDataForPaidZelnodes : Cache → CZelnodeTxBlockUndo → Cache → CZelnodeTxBlockUndo
  CheckForExpiredStartTx : Cache → Cache → Int → Cache
  /-- The call `pZelnodeDB->WriteBlockUndoZelnodeData(hash, undo)`: its result and the database after. -/
  WriteBlockUndoZelnodeData : DB → Nat → CZelnodeTxBlockUndo → Bool × DB
  /-- The call `zelnodeCache.Flush()`: its result and the global cache after. -/
  Flush : Cache → Cache → Bool × Cache
  DumpZelnodeCache : Cache → DB → DB

/-- The variables of `rebuildzelnodedb` that change while it runs, and the
log of its calls. -/
structure State (Cache DB : Type) where
  g_zelnodeCache : Cache
  pZelnodeDB : DB
  nPrintTrigger : Int := 0
  setSpentOutPoints : StdSet := []
  zelnodeTxBlockUndo : CZelnodeTxBlockUndo := {}
  zelnodeCache : Cache
  calls : List Call := []

/-- The result of a stretch of code that may leave the function early. -/
inductive Step (σ : Type) where
  | ok (st : σ)
  | stop (why : Stop) (st : σ)

/-- The state a step ends in, whether it went through or stopped. -/
def Step.state {σ : Type} : Step σ → σ
  | Step.ok st => st
  | Step.stop _ st => st

/-- Whether the step stopped with an `error(...)` return. -/
def Step.isError {σ : Type} : Step σ → Bool
  | Step.stop (Stop.error _) _ => true
  | _ => false

/-- Whether the step went through. -/
def Step.isOk {σ : Type} : Step σ → Bool
  | Step.ok _ => true
  | _ => false

section Rebuild

variable {Cache DB : Type}

/-- Adds a call to the log. -/
def State.call (st : State Cache DB) (c : Call) : State Cache DB :=
  { st with calls := st.calls ++ [c] }

/-- The progress line at the top of the loop body (lines 81-101). The
percentage divides by `nTotalBlocks`. -/
def printProgress (nTotalBlocks : Int) (st : State Cache DB) : Step (State Cache DB) :=
  if st.nPrintTrigger ≤ 0 then
    if nTotalBlocks = 0 then Step.stop Stop.divisionByZero st
    else Step.ok { st with nPrintTrigger := 10000 - 1 }
  else Step.ok { st with nPrintTrigger := st.nPrintTrigger - 1 }

/-- The body of the tier loop (lines 120-122). -/
def addPaidNode (env : Env Cache DB) (nHeight : Int) (st : State Cache DB)
    (currentTier : Int) : State Cache DB :=
  let st1 := st.call (Call.GetNextPayment currentTier)
  match env.GetNextPayment st1.g_zelnodeCache currentTier with
  | some t_out =>
    { st1 with
      zelnodeCache := env.AddPaidNode st1.g_zelnodeCache st1.zelnodeCache currentTier t_out nHeight
      calls := st1.calls ++ [Call.AddPaidNode currentTier t_out nHeight] }
  | none => st1

/-- The values `currentTier` takes in
`for (int currentTier = CUMULUS; currentTier != LAST; currentTier++)`, for
`CUMULUS ≤ LAST` as in `enum Tier`: `CUMULUS`, `CUMULUS + 1`, ..., `LAST - 1`. -/
def tierRange (env : Env Cache DB) : List Int :=
  (List.range (env.LAST - env.CUMULUS).toNat).map (fun (i : Nat) => env.CUMULUS + (i : Int))

/-- The step "Add paidnode info" (lines 115-124). -/
def addPaidNodes (env : Env Cache DB) (nHeight : Int) (st : State Cache DB) : State Cache DB :=
  if nHeight ≥ env.StartZelnodePayments then
    (tierRange env).foldl (addPaidNode env nHeight) st
  else st

/-- The body of the tier loop (lines 120-122) for a `GetNextPayment` that may
change the cache it is called on: `next g tier` is the outpoint handed back,
when the call returns true, and the global cache after the call. -/
def addPaidNodeVia (next : Cache → Int → Option COutPoint × Cache) (env : Env Cache DB)
    (nHeight : Int) (st : State Cache DB) (currentTier : Int) : State Cache DB :=
  let st1 := st.call (Call.GetNextPayment currentTier)
  let r := next st1.g_zelnodeCache currentTier
  match r.1 with
  | some t_out =>
    { st1 with
      g_zelnodeCache := r.2
      zelnodeCache := env.AddPaidNode r.2 st1.zelnodeCache currentTier t_out nHeight
      calls := st1.calls ++ [Call.AddPaidNode currentTier t_out nHeight] }
  | none => { st1 with g_zelnodeCache := r.2 }

/-- The step "Add paidnode info" (lines 115-124) for such a `GetNextPayment`. -/
def addPaidNodesVia (next : Cache → Int → Option COutPoint × Cache) (env : Env Cache DB)
    (nHeight : Int) (st : State Cache DB) : State Cache DB :=
  if nHeight ≥ env.StartZelnodePayments then
    (tierRange env).foldl (addPaidNodeVia next env nHeight) st
  else st

/-- The loop over `tx.vin` (lines 133-135). -/
def insertPrevouts (vin : List CTxIn) (s : StdSet) : StdSet :=
  vin.foldl (fun acc input => StdSet.insert input.prevout acc) s

/-- The body of the loop over `block.vtx` (lines 128-183). -/
def scanTx (env : Env Cache DB) (nHeight : Int) (st : State Cache DB) (tx : CTransaction) :
    Step (State Cache DB) :=
  let st1 :=
    if !tx.isCoinBase && !tx.isZelnodeTx then
      { st with setSpentOutPoints := insertPrevouts tx.vin st.setSpentOutPoints }
    else st
  if tx.isZelnodeTx then
    let st2 := st1.call (Call.GetTransaction tx.collateralOut.hash)
    match env.GetTransaction tx.collateralOut.hash with
    | none => Step.stop (Stop.error (RebuildError.failedToFindTx tx.collateralOut)) st2
    | some get_tx =>
      match get_tx.vout.get? tx.collateralOut.n with
      | none => Step.stop Stop.outOfRange st2
      | some txout =>
        let st3 := st2.call (Call.GetCoinTierFromAmount nHeight txout.nValue)
        match env.GetCoinTierFromAmount nHeight txout.nValue with
        | none => Step.stop (Stop.error (RebuildError.failedToGetTier tx.collateralOut)) st3
        | some nTier =>
          match tx.nType with
          | NodeTxType.ZELNODE_START_TX_TYPE =>
            Step.ok
              { st3 with
                zelnodeCache :=
                  env.AddNewStart st3.g_zelnodeCache st3.zelnodeCache tx nHeight nTier txout.nValue
                calls := st3.calls ++ [Call.AddNewStart tx nHeight nTier txout.nValue] }
          | NodeTxType.ZELNODE_CONFIRM_TX_TYPE =>
            match tx.nUpdateType with
            | ZelnodeUpdateType.INITIAL_CONFIRM =>
              Step.ok
                { st3 with
                  zelnodeCache := env.AddNewConfirm st3.g_zelnodeCache st3.zelnodeCache tx nHeight
                  calls := st3.calls ++ [Call.AddNewConfirm tx nHeight] }
            | ZelnodeUpdateType.UPDATE_CONFIRM =>
              let st4 : State Cache DB :=
                { st3 with
                  zelnodeCache :=
                    env.AddUpdateConfirm st3.g_zelnodeCache st3.zelnodeCache tx nHeight
                  calls := st3.calls ++
                    [Call.AddUpdateConfirm tx nHeight, Call.GetZelnodeData tx.collateralOut] }
              let global_data := env.GetZelnodeData st4.g_zelnodeCache tx.collateralOut
              if global_data.IsNull then
                Step.stop (Stop.error (RebuildError.failedToFindGlobalData tx.hash)) st4
              else
                Step.ok
                  { st4 with
                    zelnodeTxBlockUndo :=
                      { st4.zelnodeTxBlockUndo with
                        mapUpdateLastConfirmHeight :=
                          StdMap.insert tx.collateralOut global_data.nLastConfirmedBlockHeight
                            st4.zelnodeTxBlockUndo.mapUpdateLastConfirmHeight
                        mapLastIpAddress :=
                          StdMap.insert tx.collateralOut global_data.ip
                            st4.zelnodeTxBlockUndo.mapLastIpAddress } }
            | ZelnodeUpdateType.other => Step.ok st3
          | NodeTxType.other => Step.ok st3
  else Step.ok st1

/-- The loop over `block.vtx`: transactions in block order, leaving at the
first `return error(...)`. -/
def scanTxs (env : Env Cache DB) (nHeight : Int) :
    State Cache DB → List CTransaction → Step (State Cache DB)
  | st, [] => Step.ok st
  | st, tx :: rest =>
    match scanTx env nHeight st tx with
    | Step.ok st1 => scanTxs env nHeight st1 rest
    | Step.stop why st1 => Step.stop why st1

/-- Lines 187-199: the undo data of the expirations and of the paid nodes,
then `CheckForExpiredStartTx`. -/
def collectUndoData (env : Env Cache DB) (nHeight : Int) (st : State Cache DB) :
    State Cache DB :=
  let g := st.g_zelnodeCache
  let undo1 := env.GetUndoDataForExpiredZelnodeDosScores g st.zelnodeTxBlockUndo nHeight
  let cache1 := env.AddExpiredDosTx g st.zelnodeCache undo1 nHeight
  let undo2 := env.GetUndoDataForExpiredConfirmZelnodes g undo1 nHeight st.setSpentOutPoints
  let cache2 := env.AddExpiredConfirmTx g cache1 undo2
  let undo3 := env.GetUndoDataForPaidZelnodes g undo2 cache2
  let cache3 := env.CheckForExpiredStartTx g cache2 nHeight
  { st with
    zelnodeTxBlockUndo := undo3
    zelnodeCache := cache3
    calls := st.calls ++
      [Call.GetUndoDataForExpiredZelnodeDosScores nHeight,
       Call.AddExpiredDosTx undo1 nHeight,
       Call.GetUndoDataForExpiredConfirmZelnodes nHeight st.setSpentOutPoints,
       Call.AddExpiredConfirmTx undo2,
       Call.GetUndoDataForPaidZelnodes,
       Call.CheckForExpiredStartTx nHeight] }

/-- The condition of line 203-206: one of the four tested members is not empty. -/
def hasUndoData (u : CZelnodeTxBlockUndo) : Bool :=
  u.vecExpiredDosData.length != 0 || u.vecExpiredConfirmedData.length != 0 ||
    u.mapUpdateLastConfirmHeight.length != 0 || u.mapLastPaidHeights.length != 0

/-- Lines 203-209: the undo record is written when `hasUndoData` holds. -/
def writeUndo (env : Env Cache DB) (blockHash : Nat) (st : State Cache DB) :
    Step (State Cache DB) :=
  if hasUndoData st.zelnodeTxBlockUndo then
    let r := env.WriteBlockUndoZelnodeData st.pZelnodeDB blockHash st.zelnodeTxBlockUndo
    let st1 : State Cache DB :=
      { st with
        pZelnodeDB := r.2
        calls := st.calls ++ [Call.WriteBlockUndoZelnodeData blockHash st.zelnodeTxBlockUndo] }
    if !r.1 then Step.stop (Stop.error RebuildError.failedToWriteUndo) st1 else Step.ok st1
  else Step.ok st

/-- Line 213: `assert(zelnodeCache.Flush())`. -/
def flushBlock (env : Env Cache DB) (st : State Cache DB) : Step (State Cache DB) :=
  let r := env.Flush st.g_zelnodeCache st.zelnodeCache
  let st1 : State Cache DB := { st with g_zelnodeCache := r.2, calls := st.calls ++ [Call.Flush] }
  if r.1 then Step.ok st1 else Step.stop Stop.assertFailed st1

/-- The state at line 115: undo record and spent set cleared, a new per-block
cache. -/
def beginBlock (env : Env Cache DB) (st : State Cache DB) : State Cache DB :=
  { st with
    zelnodeTxBlockUndo := st.zelnodeTxBlockUndo.SetNull
    setSpentOutPoints := []
    zelnodeCache := env.newZelnodeCache }

/-- Lines 103-217 for a block that has been read: one block of the rescan. -/
def processBlock (env : Env Cache DB) (st : State Cache DB) (nHeight : Int) (block : CBlock) :
    Step (State Cache DB) :=
  let st1 := addPaidNodes env nHeight (beginBlock env st)
  match scanTxs env nHeight st1 block.vtx with
  | Step.stop why st2 => Step.stop why st2
  | Step.ok st2 =>
    match writeUndo env block.hash (collectUndoData env nHeight st2) with
    | Step.stop why st3 => Step.stop why st3
    | Step.ok st3 => flushBlock env st3

/-- One pass of the `while (rescanIndex)` loop body. -/
def loopBody (env : Env Cache DB) (nTotalBlocks : Int) (st : State Cache DB)
    (rescanIndex : CBlockIndex) : Step (State Cache DB) :=
  match printProgress nTotalBlocks st with
  | Step.stop why st1 => Step.stop why st1
  | Step.ok st1 =>
    processBlock env (st1.call (Call.ReadBlockFromDisk rescanIndex)) rescanIndex.nHeight
      (env.ReadBlockFromDisk rescanIndex)

/-- The `while (rescanIndex)` loop over the block indexes that
`chainActive.Next` yields, in order. -/
def rebuildLoop (env : Env Cache DB) (nTotalBlocks : Int) :
    State Cache DB → List CBlockIndex → Step (State Cache DB)
  | st, [] => Step.ok st
  | st, rescanIndex :: rest =>
    match loopBody env nTotalBlocks st rescanIndex with
    | Step.ok st1 => rebuildLoop env nTotalBlocks st1 rest
    | Step.stop why st1 => Step.stop why st1

/-- The lookup `chainActive[nHeight]`: null below zero and above the tip. -/
def chainAt (chainActive : List CBlockIndex) (nHeight : Int) : Option CBlockIndex :=
  if nHeight < 0 then none else chainActive.get? nHeight.toNat

/-- The RPC `rebuildzelnodedb` (with no arguments): the value returned, `none` when
the function does not return, and the final state. `chainActive` lists the
block indexes of the active chain from height 0 to the tip. -/
def rebuildzelnodedb (env : Env Cache DB) (chainActive : List CBlockIndex)
    (g_zelnodeCache : Cache) : Option Bool × State Cache DB :=
  let nCurrentHeight : Int := (chainActive.length : Int) - 1
  let st0 : State Cache DB :=
    { g_zelnodeCache := env.InitMapZelnodeList (env.SetNull g_zelnodeCache)
      pZelnodeDB := env.newZelnodeDB
      zelnodeCache := env.newZelnodeCache }
  match chainAt chainActive (env.kamataActivationHeight - 10) with
  | none => (none, st0)
  | some rescanIndex =>
    let nTotalBlocks := nCurrentHeight - rescanIndex.nHeight
    match rebuildLoop env nTotalBlocks st0
        (chainActive.drop (env.kamataActivationHeight - 10).toNat) with
    | Step.stop (Stop.error _) st1 => (some false, st1)
    | Step.stop _ st1 => (none, st1)
    | Step.ok st1 =>
      (some true,
        { st1 with
          pZelnodeDB := env.DumpZelnodeCache st1.g_zelnodeCache st1.pZelnodeDB
          calls := st1.calls ++ [Call.DumpZelnodeCache] })

end Rebuild

/-! ## The registry behind the calls, modelled from the specification

`zelnode/zelnode.h` and `zelnode/zelnode.cpp` (the class `ZelnodeCache`, the
undo helpers, the tier table) are not among the sources. The definitions of
this section follow the specification (§3, §4.3-§4.7, §6.3); they give one
concrete `Env`, used to run `rebuildzelnodedb` on concrete chains. -/

/-- Modelled from the spec: the configuration of §1 and §4.1 (expiration
windows, payment start, number of tiers, activation height, and the table
from collateral amount to tier). -/
structure RegistryParams where
  START_EXPIRATION : Int := 80
  DOS_REMOVE : Int := 180
  CONFIRM_EXPIRATION : Int := 160
  PAYMENTS_START : Int := 0
  tierCount : Nat := 3
  activationHeight : Int := 10
  collateralTable : List (Int × Int) := [(10000, 1), (25000, 2), (100000, 3)]

/-- Modelled from the spec: a mutation held by a per-block (shadow)
`ZelnodeCache` until it is flushed (§9, "Shadow cache"). -/
inductive CacheOp where
  | paid (tier : Int) (out : COutPoint) (nHeight : Int)
  | start (tx : CTransaction) (nHeight : Int) (nTier : Int) (nValue : Int)
  | confirm (tx : CTransaction) (nHeight : Int)
  | update (tx : CTransaction) (nHeight : Int)
  | expiredDos (undo : CZelnodeTxBlockUndo)
  | expiredConfirmed (undo : CZelnodeTxBlockUndo)
  | expiredStart (nHeight : Int)
  deriving DecidableEq, Repr

/-- Modelled from the spec: the class `ZelnodeCache` (§4.3): the Start, DoS
and Confirmed trackers, the per-tier payment queues, and for a per-block
cache the mutations not yet flushed. The members `mapStartTxTracker`,
`mapStartTxDosTracker` and `mapZelnodeList` are named in `zelnode.cpp`. -/
structure ZelnodeCache where
  mapStartTxTracker : StdMap COutPoint ZelnodeCacheData := []
  mapStartTxDosTracker : StdMap COutPoint ZelnodeCacheData := []
  mapConfirmedZelnodeData : StdMap COutPoint ZelnodeCacheData := []
  mapZelnodeList : List (Int × List COutPoint) := []
  pending : List CacheOp := []
  deriving DecidableEq, Repr, Inhabited

/-- Modelled from the spec: the persistent store of §4.7, the `U` entries
(undo record by block hash) and the `N` entries (confirmed records). -/
structure ZelnodeDB where
  undo : List (Nat × CZelnodeTxBlockUndo) := []
  records : StdMap COutPoint ZelnodeCacheData := []
  deriving DecidableEq, Repr, Inhabited

/-- The call `std::map::erase`. -/
def StdMap.erase {V : Type} (k : COutPoint) (m : StdMap COutPoint V) : StdMap COutPoint V :=
  m.filter (fun p => decide (p.1 ≠ k))

/-- Assignment `m[k] = v`. -/
def StdMap.assign {V : Type} (k : COutPoint) (v : V) (m : StdMap COutPoint V) :
    StdMap COutPoint V :=
  StdMap.place k v (StdMap.erase k m)

/-- Modelled from the spec: the payment queue of a tier (§4.3). -/
def ZelnodeCache.queue (g : ZelnodeCache) (tier : Int) : List COutPoint :=
  match g.mapZelnodeList.find? (fun p => decide (p.1 = tier)) with
  | some p => p.2
  | none => []

/-- Modelled from the spec: replaces the payment queue of a tier. -/
def ZelnodeCache.setQueue (g : ZelnodeCache) (tier : Int) (q : List COutPoint) : ZelnodeCache :=
  if g.mapZelnodeList.any (fun p => decide (p.1 = tier)) then
    { g with
      mapZelnodeList := g.mapZelnodeList.map (fun p => if p.1 = tier then (tier, q) else p) }
  else { g with mapZelnodeList := g.mapZelnodeList ++ [(tier, q)] }

/-- Modelled from the spec: `next_payment(tier)` of §4.6, the head of the
tier's queue, read without changing it. -/
def ZelnodeCache.GetNextPayment (g : ZelnodeCache) (tier : Int) : Option COutPoint :=
  (g.queue tier).head?

/-- Modelled from the spec: the lookup behind `status(outpoint)` of §6.3,
which reports a node as started, dos or confirmed with its record, and as
expired (a null record) when no tracker has it. -/
def ZelnodeCache.GetZelnodeData (g : ZelnodeCache) (out : COutPoint) : ZelnodeCacheData :=
  match StdMap.find out g.mapStartTxTracker with
  | some d => d
  | none =>
    match StdMap.find out g.mapStartTxDosTracker with
    | some d => d
    | none =>
      match StdMap.find out g.mapConfirmedZelnodeData with
      | some d => d
      | none => {}

/-- Modelled from the spec: `classify(height, amount)` of §4.1, the tier of
the first table entry with that amount. -/
def classify (p : RegistryParams) (_nHeight : Int) (amount : Int) : Option Int :=
  match p.collateralTable.find? (fun e => decide (e.1 = amount)) with
  | some e => some e.2
  | none => none

/-- Modelled from the spec: the Start records that step 3 of §4.4 moves to
the DoS tracker at `nHeight`. -/
def expiredStartRecords (p : RegistryParams) (g : ZelnodeCache) (nHeight : Int) :
    StdMap COutPoint ZelnodeCacheData :=
  g.mapStartTxTracker.filter (fun e => decide (e.2.nAddedBlockHeight + p.START_EXPIRATION ≤ nHeight))

/-- Modelled from the spec: the DoS records that step 4 of §4.4 removes. -/
def expiredDosRecords (p : RegistryParams) (g : ZelnodeCache) (nHeight : Int) :
    List ZelnodeCacheData :=
  (g.mapStartTxDosTracker.filter (fun e =>
    decide (e.2.nAddedBlockHeight + p.START_EXPIRATION + p.DOS_REMOVE ≤ nHeight))).map Prod.snd

/-- Modelled from the spec: the Confirmed records that step 5 of §4.4 removes. -/
def expiredConfirmedRecords (p : RegistryParams) (g : ZelnodeCache) (nHeight : Int)
    (spent : StdSet) : List ZelnodeCacheData :=
  (g.mapConfirmedZelnodeData.filter (fun e =>
    decide (e.2.nLastConfirmedBlockHeight + p.CONFIRM_EXPIRATION ≤ nHeight) ||
      decide (e.1 ∈ spent))).map Prod.snd

/-- Modelled from the spec: the outpoints selected for payment that a
per-block cache holds. -/
def paidOutpoints : List CacheOp → List COutPoint
  | [] => []
  | CacheOp.paid _ out _ :: rest => out :: paidOutpoints rest
  | _ :: rest => paidOutpoints rest

/-- Modelled from the spec: step 6 of §4.4 for one selected outpoint: if it
is still a confirmed record, `(outpoint, prior last_paid_height)` is
recorded. -/
def recordPaid (g : ZelnodeCache) (undo : CZelnodeTxBlockUndo) (out : COutPoint) :
    CZelnodeTxBlockUndo :=
  match StdMap.find out g.mapConfirmedZelnodeData with
  | some d =>
    if undo.vecExpiredConfirmedData.any (fun e => decide (e.collateralIn = out)) then undo
    else { undo with mapLastPaidHeights := StdMap.assign out d.nLastPaidHeight undo.mapLastPaidHeights }
  | none => undo

/-- Modelled from the spec: `GetUndoDataForPaidZelnodes`, step 6 of §4.4 for
every selected outpoint. -/
def getUndoDataForPaidZelnodes (g : ZelnodeCache) (undo : CZelnodeTxBlockUndo)
    (shadow : ZelnodeCache) : CZelnodeTxBlockUndo :=
  (paidOutpoints shadow.pending).foldl (recordPaid g) undo

/-- Modelled from the spec: the effect of one held mutation on the global
trackers and queues (§3 lifecycle, §4.4). -/
def applyOp (p : RegistryParams) (g : ZelnodeCache) : CacheOp → ZelnodeCache
  | CacheOp.start tx nHeight nTier nValue =>
    if (g.GetZelnodeData tx.collateralOut).IsNull then
      { g with
        mapStartTxTracker :=
          StdMap.insert tx.collateralOut
            { isNull := false, collateralIn := tx.collateralOut, ip := tx.ip, nTier := nTier,
              nCollateral := nValue, nAddedBlockHeight := nHeight } g.mapStartTxTracker }
    else g
  | CacheOp.confirm tx nHeight =>
    match StdMap.find tx.collateralOut g.mapStartTxTracker with
    | some d =>
      let g1 : ZelnodeCache :=
        { g with
          mapStartTxTracker := StdMap.erase tx.collateralOut g.mapStartTxTracker
          mapConfirmedZelnodeData :=
            StdMap.insert tx.collateralOut
              { d with nConfirmedBlockHeight := nHeight, nLastConfirmedBlockHeight := nHeight,
                       ip := tx.ip }
              g.mapConfirmedZelnodeData }
      g1.setQueue d.nTier (g1.queue d.nTier ++ [tx.collateralOut])
    | none => g
  | CacheOp.update tx nHeight =>
    match StdMap.find tx.collateralOut g.mapConfirmedZelnodeData with
    | some d =>
      { g with
        mapConfirmedZelnodeData :=
          StdMap.assign tx.collateralOut { d with nLastConfirmedBlockHeight := nHeight, ip := tx.ip }
            g.mapConfirmedZelnodeData }
    | none => g
  | CacheOp.expiredStart nHeight =>
    let moved := expiredStartRecords p g nHeight
    { g with
      mapStartTxTracker := g.mapStartTxTracker.filter (fun e => decide (e ∉ moved))
      mapStartTxDosTracker := moved.foldl (fun m e => StdMap.insert e.1 e.2 m) g.mapStartTxDosTracker }
  | CacheOp.expiredDos undo =>
    { g with
      mapStartTxDosTracker :=
        undo.vecExpiredDosData.foldl (fun m d => StdMap.erase d.collateralIn m)
          g.mapStartTxDosTracker }
  | CacheOp.expiredConfirmed undo =>
    undo.vecExpiredConfirmedData.foldl
      (fun g1 d =>
        ({ g1 with
           mapConfirmedZelnodeData := StdMap.erase d.collateralIn g1.mapConfirmedZelnodeData }
          : ZelnodeCache).setQueue d.nTier
            ((g1.queue d.nTier).filter (fun o => decide (o ≠ d.collateralIn))))
      g
  | CacheOp.paid _ out nHeight =>
    match StdMap.find out g.mapConfirmedZelnodeData with
    | some d =>
      let g1 : ZelnodeCache :=
        { g with
          mapConfirmedZelnodeData :=
            StdMap.assign out { d with nLastPaidHeight := nHeight } g.mapConfirmedZelnodeData }
      g1.setQueue d.nTier ((g1.queue d.nTier).filter (fun o => decide (o ≠ out)) ++ [out])
    | none => g

/-- Modelled from the spec: the position of a held mutation in the fixed
step order of §4.4 (transactions, Start expirations, DoS expirations,
Confirmed expirations, payments). -/
def CacheOp.stage : CacheOp → Nat
  | CacheOp.start _ _ _ _ => 2
  | CacheOp.confirm _ _ => 2
  | CacheOp.update _ _ => 2
  | CacheOp.expiredStart _ => 3
  | CacheOp.expiredDos _ => 4
  | CacheOp.expiredConfirmed _ => 5
  | CacheOp.paid _ _ _ => 6

/-- Modelled from the spec: `Flush`, the commit of a per-block cache onto the
global one (§9): the held mutations are applied stage by stage. -/
def flushInto (p : RegistryParams) (g shadow : ZelnodeCache) : ZelnodeCache :=
  ([2, 3, 4, 5, 6].flatMap (fun k => shadow.pending.filter (fun op => op.stage == k))).foldl
    (applyOp p) g

/-- Adds a mutation to those a per-block cache holds. -/
def ZelnodeCache.hold (shadow : ZelnodeCache) (op : CacheOp) : ZelnodeCache :=
  { shadow with pending := shadow.pending ++ [op] }

/-- Modelled from the spec: the collaborators of `rebuildzelnodedb` over the
registry above; `blocks` is the block store and `txs` the transaction index
of the chain engine (§6.2). -/
def specEnv (p : RegistryParams) (blocks : List (CBlockIndex × CBlock))
    (txs : List CTransaction) : Env ZelnodeCache ZelnodeDB :=
  { StartZelnodePayments := p.PAYMENTS_START
    CUMULUS := 1
    LAST := 1 + (p.tierCount : Int)
    kamataActivationHeight := p.activationHeight
    newZelnodeCache := {}
    newZelnodeDB := {}
    SetNull := fun _ => {}
    InitMapZelnodeList := fun g =>
      { g with mapZelnodeList := (List.range p.tierCount).map (fun i => (1 + (i : Int), [])) }
    ReadBlockFromDisk := fun idx =>
      match blocks.find? (fun e => decide (e.1 = idx)) with
      | some e => e.2
      | none => {}
    GetNextPayment := fun g tier => g.GetNextPayment tier
    AddPaidNode := fun _ shadow tier out nHeight => shadow.hold (CacheOp.paid tier out nHeight)
    GetTransaction := fun h => txs.find? (fun t => decide (t.hash = h))
    GetCoinTierFromAmount := classify p
    AddNewStart := fun _ shadow tx nHeight nTier nValue =>
      shadow.hold (CacheOp.start tx nHeight nTier nValue)
    AddNewConfirm := fun _ shadow tx nHeight => shadow.hold (CacheOp.confirm tx nHeight)
    AddUpdateConfirm := fun _ shadow tx nHeight => shadow.hold (CacheOp.update tx nHeight)
    GetZelnodeData := fun g out => g.GetZelnodeData out
    GetUndoDataForExpiredZelnodeDosScores := fun g undo nHeight =>
      { undo with vecExpiredDosData := undo.vecExpiredDosData ++ expiredDosRecords p g nHeight }
    AddExpiredDosTx := fun _ shadow undo _ => shadow.hold (CacheOp.expiredDos undo)
    GetUndoDataForExpiredConfirmZelnodes := fun g undo nHeight spent =>
      { undo with
        vecExpiredConfirmedData :=
          undo.vecExpiredConfirmedData ++ expiredConfirmedRecords p g nHeight spent }
    AddExpiredConfirmTx := fun _ shadow undo => shadow.hold (CacheOp.expiredConfirmed undo)
    GetUndoDataForPaidZelnodes := getUndoDataForPaidZelnodes
    CheckForExpiredStartTx := fun _ shadow nHeight => shadow.hold (CacheOp.expiredStart nHeight)
    WriteBlockUndoZelnodeData := fun db h undo => (true, { db with undo := db.undo ++ [(h, undo)] })
    Flush := fun g shadow => (true, flushInto p g shadow)
    DumpZelnodeCache := fun g db => { db with records := g.mapConfirmedZelnodeData } }

/-! ## Sample chain data -/

/-- The collateral outpoint of the sample node. -/
def sampleOut : COutPoint := ⟨7, 0⟩

/-- The transaction that holds the sample collateral: output 0 has a tier
amount, output 1 has not. -/
def sampleCollateralTx : CTransaction :=
  { hash := 7, vout := [{ nValue := 10000 }, { nValue := 5 }] }

/-- A coinbase transaction. -/
def sampleCoinbase : CTransaction :=
  { hash := 31, isCoinBase := true, vin := [{ prevout := ⟨0, 4294967295⟩ }] }

/-- An ordinary payment spending two outputs. -/
def samplePayment : CTransaction :=
  { hash := 30, vin := [{ prevout := ⟨55, 2⟩ }, { prevout := ⟨56, 0⟩ }] }

/-- A Start transaction for the sample collateral. -/
def sampleStartTx : CTransaction :=
  { hash := 21, isZelnodeTx := true, nType := NodeTxType.ZELNODE_START_TX_TYPE,
    collateralOut := sampleOut, ip := "10.0.0.1" }

/-- A Start transaction whose collateral transaction is not on the chain. -/
def sampleMissingTx : CTransaction :=
  { hash := 22, isZelnodeTx := true, nType := NodeTxType.ZELNODE_START_TX_TYPE,
    collateralOut := ⟨99, 0⟩ }

/-- A Start transaction whose collateral amount has no tier. -/
def sampleOddAmountTx : CTransaction :=
  { hash := 23, isZelnodeTx := true, nType := NodeTxType.ZELNODE_START_TX_TYPE,
    collateralOut := ⟨7, 1⟩ }

/-- An UpdateConfirm transaction for the sample collateral. -/
def sampleUpdateTx : CTransaction :=
  { hash := 24, isZelnodeTx := true, nType := NodeTxType.ZELNODE_CONFIRM_TX_TYPE,
    nUpdateType := ZelnodeUpdateType.UPDATE_CONFIRM, collateralOut := sampleOut,
    ip := "10.0.0.9" }

/-- The record of the sample node once confirmed. -/
def sampleRecord : ZelnodeCacheData :=
  { isNull := false, collateralIn := sampleOut, ip := "10.0.0.1", nTier := 1,
    nCollateral := 10000, nAddedBlockHeight := 20, nConfirmedBlockHeight := 25,
    nLastConfirmedBlockHeight := 90, nLastPaidHeight := 50 }

/-- A global cache with the sample node confirmed, in the queue of tier 1. -/
def confirmedCache : ZelnodeCache :=
  { mapConfirmedZelnodeData := [(sampleOut, sampleRecord)]
    mapZelnodeList := [(1, [sampleOut]), (2, []), (3, [])] }

/-- The same node confirmed with tier 2 instead. -/
def confirmedCacheTier2 : ZelnodeCache :=
  { mapConfirmedZelnodeData := [(sampleOut, { sampleRecord with nTier := 2 })]
    mapZelnodeList := [(1, []), (2, [sampleOut]), (3, [])] }

/-- A global cache with the sample node started at height 20, not confirmed. -/
def startedCache : ZelnodeCache :=
  { mapStartTxTracker :=
      [(sampleOut, { sampleRecord with nConfirmedBlockHeight := 0,
                                        nLastConfirmedBlockHeight := 0, nLastPaidHeight := 0 })]
    mapZelnodeList := [(1, []), (2, []), (3, [])] }

/-- A global cache with no node at all. -/
def emptyCache : ZelnodeCache :=
  { mapZelnodeList := [(1, []), (2, []), (3, [])] }

/-- The state of `rebuildzelnodedb` at the top of the loop, over the given
global cache. -/
def stateOver (g : ZelnodeCache) : State ZelnodeCache ZelnodeDB :=
  { g_zelnodeCache := g, pZelnodeDB := {}, zelnodeCache := {} }

/-- Three block indexes at heights 0, 1, 2. -/
def sampleChain : List CBlockIndex := [⟨0, 1000⟩, ⟨1, 1001⟩, ⟨2, 1002⟩]

/-- The sample environment: the block at height 1 is `vtx`, the others are
empty; only the sample collateral transaction is indexed. -/
def sampleEnv (vtx : List CTransaction) : Env ZelnodeCache ZelnodeDB :=
  specEnv {} [(⟨1, 1001⟩, { hash := 1001, vtx := vtx })] [sampleCollateralTx]

/-! ## Vocabulary of the statements -/

/-- The calls made while scanning the transactions of a block. -/
def Call.isScan : Call → Bool
  | Call.GetTransaction _ => true
  | Call.GetCoinTierFromAmount _ _ => true
  | Call.AddNewStart _ _ _ _ => true
  | Call.AddNewConfirm _ _ => true
  | Call.AddUpdateConfirm _ _ => true
  | Call.GetZelnodeData _ => true
  | _ => false

/-- The call registers transaction `tx` in the per-block cache
(`AddNewStart`, `AddNewConfirm` or `AddUpdateConfirm`). -/
def Call.isAddFor (tx : CTransaction) : Call → Bool
  | Call.AddNewStart t _ _ _ => decide (t = tx)
  | Call.AddNewConfirm t _ => decide (t = tx)
  | Call.AddUpdateConfirm t _ => decide (t = tx)
  | _ => false

/-- The call is `AddPaidNode` for tier `tier`. -/
def Call.isAddPaidNodeOf (tier : Int) : Call → Bool
  | Call.AddPaidNode t _ _ => decide (t = tier)
  | _ => false

/-- The tier asked for, when the call is `GetNextPayment`. -/
def Call.nextPaymentTier : Call → Option Int
  | Call.GetNextPayment t => some t
  | _ => none

/-- The call writes an undo record to the database. -/
def Call.isWriteUndo : Call → Bool
  | Call.WriteBlockUndoZelnodeData _ _ => true
  | _ => false

/-- The collateral of a node transaction is found and its amount has a tier
at this height: the two lookups of lines 144-153 succeed. -/
def classifies {Cache DB : Type} (env : Env Cache DB) (nHeight : Int) (tx : CTransaction) : Bool :=
  match env.GetTransaction tx.collateralOut.hash with
  | none => false
  | some get_tx =>
    match get_tx.vout.get? tx.collateralOut.n with
    | none => false
    | some txout => (env.GetCoinTierFromAmount nHeight txout.nValue).isSome

/-- Outpoint `o` is the prevout of an input of a transaction of the block
that is neither coinbase nor a node transaction. -/
def spentInBlock (vtx : List CTransaction) (o : COutPoint) : Prop :=
  ∃ tx ∈ vtx, tx.isCoinBase = false ∧ tx.isZelnodeTx = false ∧
    ∃ input ∈ tx.vin, input.prevout = o

/-- The transaction is an UpdateConfirm node transaction. -/
def CTransaction.isUpdateConfirm (tx : CTransaction) : Bool :=
  tx.isZelnodeTx && decide (tx.nType = NodeTxType.ZELNODE_CONFIRM_TX_TYPE) &&
    decide (tx.nUpdateType = ZelnodeUpdateType.UPDATE_CONFIRM)

/-- The three undo helpers leave `mapUpdateLastConfirmHeight` and
`mapLastIpAddress` of the record they fill as they are. -/
def Env.KeepsConfirmMaps {Cache DB : Type} (env : Env Cache DB) : Prop :=
  (∀ g u h,
    (env.GetUndoDataForExpiredZelnodeDosScores g u h).mapUpdateLastConfirmHeight =
        u.mapUpdateLastConfirmHeight ∧
      (env.GetUndoDataForExpiredZelnodeDosScores g u h).mapLastIpAddress = u.mapLastIpAddress) ∧
  (∀ g u h s,
    (env.GetUndoDataForExpiredConfirmZelnodes g u h s).mapUpdateLastConfirmHeight =
        u.mapUpdateLastConfirmHeight ∧
      (env.GetUndoDataForExpiredConfirmZelnodes g u h s).mapLastIpAddress = u.mapLastIpAddress) ∧
  (∀ g u c,
    (env.GetUndoDataForPaidZelnodes g u c).mapUpdateLastConfirmHeight =
        u.mapUpdateLastConfirmHeight ∧
      (env.GetUndoDataForPaidZelnodes g u c).mapLastIpAddress = u.mapLastIpAddress)

/-- The calls of the tier loop for one tier: `GetNextPayment`, then
`AddPaidNode` when an outpoint came back. -/
def paymentCalls {Cache DB : Type} (env : Env Cache DB) (g : Cache) (nHeight : Int)
    (tier : Int) : List Call :=
  Call.GetNextPayment tier ::
    match env.GetNextPayment g tier with
    | some t_out => [Call.AddPaidNode tier t_out nHeight]
    | none => []

/-- The calls of "Add paidnode info" for a block at `nHeight`. -/
def paidCalls {Cache DB : Type} (env : Env Cache DB) (g : Cache) (nHeight : Int) : List Call :=
  if nHeight ≥ env.StartZelnodePayments then
    (tierRange env).flatMap (paymentCalls env g nHeight)
  else []

/-- The per-block cache after the tier loop over `tiers`, started with the
per-block cache `shadow`: for each tier in turn one `AddPaidNode` with the
outpoint that `GetNextPayment` returned on the global cache `g`, and nothing
for a tier without one. -/
def paidCache {Cache DB : Type} (env : Env Cache DB) (g : Cache) (nHeight : Int) :
    Cache → List Int → Cache
  | shadow, [] => shadow
  | shadow, tier :: rest =>
    match env.GetNextPayment g tier with
    | some t_out => paidCache env g nHeight (env.AddPaidNode g shadow tier t_out nHeight) rest
    | none => paidCache env g nHeight shadow rest

/-- The calls made after the scan of the transactions of a block. -/
def Call.isTail : Call → Bool
  | Call.GetUndoDataForExpiredZelnodeDosScores _ => true
  | Call.AddExpiredDosTx _ _ => true
  | Call.GetUndoDataForExpiredConfirmZelnodes _ _ => true
  | Call.AddExpiredConfirmTx _ => true
  | Call.GetUndoDataForPaidZelnodes => true
  | Call.CheckForExpiredStartTx _ => true
  | Call.WriteBlockUndoZelnodeData _ _ => true
  | Call.Flush => true
  | _ => false

/-- The undo record after an UpdateConfirm was accepted. -/
def undoWithUpdate (u : CZelnodeTxBlockUndo) (out : COutPoint) (d : ZelnodeCacheData) :
    CZelnodeTxBlockUndo :=
  { u with
    mapUpdateLastConfirmHeight :=
      StdMap.insert out d.nLastConfirmedBlockHeight u.mapUpdateLastConfirmHeight
    mapLastIpAddress := StdMap.insert out d.ip u.mapLastIpAddress }

/-- The environment with another `CheckForExpiredStartTx`. -/
def Env.withCheckForExpiredStartTx {Cache DB : Type} (env : Env Cache DB) (f : Cache → Cache → Int → Cache) :
    Env Cache DB :=
  { env with CheckForExpiredStartTx := f }

/-- The scan of the block's transactions goes through `pre` and then through
`tx`: the transaction is reached and accepted. -/
def accepts {Cache DB : Type} (env : Env Cache DB) (st : State Cache DB) (nHeight : Int)
    (pre : List CTransaction) (tx : CTransaction) : Bool :=
  (scanTxs env nHeight (addPaidNodes env nHeight (beginBlock env st)) (pre ++ [tx])).isOk

/-! ## Vocabulary of the statements on the rescan loop -/

/-- The scan of the transactions of a block, from the state the scan starts
in (lines 128-183). -/
def blockScan {Cache DB : Type} (env : Env Cache DB) (st : State Cache DB) (nHeight : Int)
    (block : CBlock) : Step (State Cache DB) :=
  scanTxs env nHeight (addPaidNodes env nHeight (beginBlock env st)) block.vtx

/-- The calls one block adds to the log. -/
def callsOfBlock {Cache DB : Type} (env : Env Cache DB) (st : State Cache DB) (nHeight : Int)
    (block : CBlock) : List Call :=
  (processBlock env st nHeight block).state.calls.drop st.calls.length

/-- The six calls of lines 187-199 in source order: the DoS expirations, the
Confirmed expirations, the undo data of the paid nodes, and
`CheckForExpiredStartTx`. -/
def expirationCalls (nHeight : Int) (undo1 : CZelnodeTxBlockUndo) (spent : StdSet)
    (undo2 : CZelnodeTxBlockUndo) : List Call :=
  [Call.GetUndoDataForExpiredZelnodeDosScores nHeight,
   Call.AddExpiredDosTx undo1 nHeight,
   Call.GetUndoDataForExpiredConfirmZelnodes nHeight spent,
   Call.AddExpiredConfirmTx undo2,
   Call.GetUndoDataForPaidZelnodes,
   Call.CheckForExpiredStartTx nHeight]

/-- The call belongs to the payment selection (lines 115-124). -/
def Call.isPaymentSelection : Call → Bool
  | Call.GetNextPayment _ => true
  | Call.AddPaidNode _ _ _ => true
  | _ => false

/-- The call belongs to the DoS-expiration step. -/
def Call.isDosExpiration : Call → Bool
  | Call.GetUndoDataForExpiredZelnodeDosScores _ => true
  | Call.AddExpiredDosTx _ _ => true
  | _ => false

/-- The call belongs to the Confirmed-expiration step. -/
def Call.isConfirmedExpiration : Call → Bool
  | Call.GetUndoDataForExpiredConfirmZelnodes _ _ => true
  | Call.AddExpiredConfirmTx _ => true
  | _ => false

/-- The call is the Start-tx expiration step, `CheckForExpiredStartTx`. -/
def Call.isStartExpiration : Call → Bool
  | Call.CheckForExpiredStartTx _ => true
  | _ => false

/-- The call is one of the three expiration steps. -/
def Call.isExpiration (c : Call) : Bool :=
  c.isDosExpiration || c.isConfirmedExpiration || c.isStartExpiration

/-- The block index read, when the call is `ReadBlockFromDisk`. -/
def Call.readIndex : Call → Option CBlockIndex
  | Call.ReadBlockFromDisk rescanIndex => some rescanIndex
  | _ => none

/-- The height `rebuildzelnodedb` starts at: the activation height of
`UPGRADE_KAMATA` minus 10 (line 53). -/
def fromHeight {Cache DB : Type} (env : Env Cache DB) : Int :=
  env.kamataActivationHeight - 10

/-- The state of `rebuildzelnodedb` at line 80: the global cache set null and
initialised again, a new database (lines 44-49). -/
def resetState {Cache DB : Type} (env : Env Cache DB) (g_zelnodeCache : Cache) :
    State Cache DB :=
  { g_zelnodeCache := env.InitMapZelnodeList (env.SetNull g_zelnodeCache)
    pZelnodeDB := env.newZelnodeDB
    zelnodeCache := env.newZelnodeCache }

/-- The block indexes of the active chain from `fromHeight` to the tip, in
ascending order. -/
def rescanRange {Cache DB : Type} (env : Env Cache DB) (chainActive : List CBlockIndex) :
    List CBlockIndex :=
  chainActive.drop (fromHeight env).toNat

/-- The value of `nTotalBlocks` (line 55). -/
def totalBlocks (chainActive : List CBlockIndex) (rescanIndex : CBlockIndex) : Int :=
  (chainActive.length : Int) - 1 - rescanIndex.nHeight

/-- The block indexes read from disk, in call order. -/
def blocksRead (calls : List Call) : List CBlockIndex :=
  calls.filterMap Call.readIndex

/-- The sample environment with a Start transaction in the block at height 1
and, at height 2, a node transaction whose collateral is not on the chain. -/
def sampleFailingEnv : Env ZelnodeCache ZelnodeDB :=
  specEnv {}
    [(⟨1, 1001⟩, { hash := 1001, vtx := [sampleStartTx] }),
     (⟨2, 1002⟩, { hash := 1002, vtx := [sampleMissingTx] })]
    [sampleCollateralTx]

/-! ## The wallet RPCs `startzelnode` and `startdeterministiczelnode` (zelnode.cpp) -/

/-- A value stored in a `UniValue` object by `pushKV`: a string or a number. -/
inductive Value where
  | str (s : String)
  | num (n : Int)
  deriving DecidableEq, Repr, Inhabited

/-- A `UniValue` object: its key/value pairs in `pushKV` order. -/
abbrev UniObject := List (String × Value)

/-- The value an object holds under a key (the first, should the key have
been pushed twice). -/
def valueOf (o : UniObject) (key : String) : Option Value :=
  (o.find? (fun kv => kv.1 == key)).map Prod.snd

/-- The class `ZelnodeConfig::ZelnodeEntry`: one line of `zelnode.conf`, with
what its accessors `getAlias()`, `getIp()`, `getPrivKey()`, `getTxHash()` and
`getOutputIndex()` return. -/
structure ZelnodeEntry where
  getAlias : String := ""
  getIp : String := ""
  getPrivKey : String := ""
  getTxHash : String := ""
  getOutputIndex : String := ""
  deriving DecidableEq, Repr, Inhabited

/-- The calls of the two start RPCs that build, sign or commit a Start
transaction or lock the wallet; the model keeps them in a log. -/
inductive WalletCall where
  | BuildDeterministicStartTx (zne : ZelnodeEntry)
  | SignDeterministicStartTx (mutTransaction : CTransaction)
  | CommitTransaction (tx : CTransaction)
  | Lock
  deriving DecidableEq, Repr

/-- What `activeZelnode.BuildDeterministicStartTx(...)` hands back: its
result, the error message and the transaction it filled, and the wallet and
mempool after the call. -/
structure BuildResult (W : Type) where
  result : Bool
  errorMessage : String
  mutTransaction : CTransaction
  world : W

/-- What `activeZelnode.SignDeterministicStartTx(mutTransaction, errorMessage)`
hands back. -/
structure SignResult (W : Type) where
  result : Bool
  errorMessage : String
  mutTransaction : CTransaction
  world : W

/-- What `pwalletMain->CommitTransaction(walletTx, reservekey, &state)` hands
back, with `state.GetRejectReason()`. -/
structure CommitResult (W : Type) where
  fCommited : Bool
  rejectReason : String
  world : W

/-- What the code outside `zelnode.cpp` does, as far as the two start RPCs use
it. `W` is the state of the wallet, the mempool and the registry that the
calls read and change. -/
structure StartEnv (W : Type) where
  IsZelnodeTransactionsActive : Bool
  IsInitialBlockDownload : Bool
  /-- The entries of `zelnodeConfig.getEntries()`, in order. -/
  getEntries : List ZelnodeEntry
  /-- Whether `EnsureWalletIsUnlocked()` returns; it throws otherwise. -/
  EnsureWalletIsUnlocked : W → Bool
  /-- The call `zne.castOutputIndex(index)`: `some index` when it returns true. -/
  castOutputIndex : ZelnodeEntry → Option Int
  /-- What the local `index` holds when `castOutputIndex` did not set it. -/
  unsetIndex : Int
  uint256S : String → Nat
  /-- The call `outpoint.ToString()`. -/
  ToString : COutPoint → String
  /-- The test `mempool.mapZelnodeTxMempool.count(outpoint)`. -/
  mempoolCount : W → COutPoint → Bool
  InStartTracker : W → COutPoint → Bool
  InDoSTracker : W → COutPoint → Bool
  InConfirmTracker : W → COutPoint → Bool
  BuildDeterministicStartTx : W → ZelnodeEntry → BuildResult W
  SignDeterministicStartTx : W → CTransaction → SignResult W
  CommitTransaction : W → CTransaction → CommitResult W
  Lock : W → W

/-- The variables of the two start RPCs that change in the loop over the
configured entries, and the log of the wallet calls. `statusObj` is used by
`startdeterministiczelnode` only. -/
structure StartState (W : Type) where
  world : W
  found : Bool := false
  successful : Int := 0
  failed : Int := 0
  resultsObj : List UniObject := []
  statusObj : UniObject := []
  calls : List WalletCall := []

/-- What a start RPC hands back: a thrown `runtime_error`, `NullUniValue`,
the bare array `resultsObj`, a bare object, or the object with the keys
`overall` and `detail`. -/
inductive StartReturn where
  | threw (what : String)
  | null
  | array (resultsObj : List UniObject)
  | object (returnObj : UniObject)
  | summary (overall : String) (detail : List UniObject)
  deriving DecidableEq, Repr

/-- How a pass of the loop over the entries ends: at the end of the body or
with `continue`, with `break`, or with a `return`. -/
inductive LoopStep (σ : Type) where
  | next (st : σ)
  | brk (st : σ)
  | ret (value : StartReturn) (st : σ)

/-- The state a pass of the loop ends in. -/
def LoopStep.state {σ : Type} : LoopStep σ → σ
  | LoopStep.next st => st
  | LoopStep.brk st => st
  | LoopStep.ret _ st => st

/-- A `for` loop over a list whose body may `continue`, `break` or `return`. -/
def runLoop {σ α : Type} (body : σ → α → LoopStep σ) : σ → List α → LoopStep σ
  | st, [] => LoopStep.next st
  | st, a :: rest =>
    match body st a with
    | LoopStep.next st1 => runLoop body st1 rest
    | LoopStep.brk st1 => LoopStep.brk st1
    | LoopStep.ret value st1 => LoopStep.ret value st1

/-- What a start RPC leaves: the value handed back, the wallet and mempool
after the call, and the wallet calls made. -/
structure StartOutcome (W : Type) where
  value : StartReturn
  world : W
  calls : List WalletCall

section StartRpc

variable {W : Type}

/-- The outpoint `COutPoint(uint256S(zne.getTxHash()), index)` of lines
416-418 and 571-574; the `int32_t` index becomes the `uint32_t` member. -/
def outpointOf (env : StartEnv W) (zne : ZelnodeEntry) : COutPoint :=
  let index : Int :=
    match env.castOutputIndex zne with
    | some i => i
    | none => env.unsetIndex
  ⟨env.uint256S zne.getTxHash, (index % 4294967296).toNat⟩

/-- The text of `strprintf("Successfully started %d zelnodes, failed to start
%d, total %d", successful, failed, successful + failed)`. -/
def overallMessage (successful failed : Int) : String :=
  "Successfully started " ++ toString successful ++ " zelnodes, failed to start " ++
    toString failed ++ ", total " ++ toString (successful + failed)

/-- Lines 413-488 of `startzelnode`: the body of the loop for an entry that
was not skipped. -/
def startzelnodeSelected (env : StartEnv W) (fAlias : Bool) (st : StartState W)
    (zne : ZelnodeEntry) : LoopStep (StartState W) :=
  let outpoint := outpointOf env zne
  let zelnodeEntry : UniObject :=
    [("outpoint", Value.str (env.ToString outpoint)), ("alias", Value.str zne.getAlias)]
  let notChecked (reason : String) : LoopStep (StartState W) :=
    let st1 : StartState W :=
      { st with
        resultsObj := st.resultsObj ++
          [zelnodeEntry ++ [("result", Value.str "failed"), ("reason", Value.str reason)]] }
    if fAlias then LoopStep.ret (StartReturn.array st1.resultsObj) st1 else LoopStep.next st1
  if env.mempoolCount st.world outpoint then
    notChecked "Mempool already has a zelnode transaction using this outpoint"
  else if env.InStartTracker st.world outpoint then
    notChecked "Zelnode already started, waiting to be confirmed"
  else if env.InDoSTracker st.world outpoint then
    notChecked
      "Zelnode already started then not confirmed, in DoS tracker. Must wait until out of DoS tracker to start"
  else if env.InConfirmTracker st.world outpoint then
    notChecked "Zelnode already confirmed and in zelnode list"
  else
    let b := env.BuildDeterministicStartTx st.world zne
    let st2 : StartState W :=
      { st with world := b.world, calls := st.calls ++ [WalletCall.BuildDeterministicStartTx zne] }
    let entry1 : UniObject :=
      zelnodeEntry ++
        [("transaction_built", Value.str (if b.result then "successful" else "failed"))]
    let r : StartState W × UniObject :=
      if b.result then
        let s := env.SignDeterministicStartTx st2.world b.mutTransaction
        let st3 : StartState W :=
          { st2 with
            world := s.world
            calls := st2.calls ++ [WalletCall.SignDeterministicStartTx b.mutTransaction] }
        if s.result then
          let c := env.CommitTransaction st3.world s.mutTransaction
          let st4 : StartState W :=
            { st3 with
              world := c.world
              calls := st3.calls ++ [WalletCall.CommitTransaction s.mutTransaction] }
          let entry2 : UniObject :=
            entry1 ++
              [("transaction_commited", Value.str (if c.fCommited then "successful" else "failed"))]
          if c.fCommited then
            ({ st4 with successful := st4.successful + 1 },
              entry2 ++ [("transaction_signed", Value.str "successful"),
                ("errorMessage", Value.str s.errorMessage)])
          else
            ({ st4 with failed := st4.failed + 1 },
              entry2 ++ [("transaction_signed", Value.str "successful"),
                ("errorMessage", Value.str c.rejectReason)])
        else
          ({ st3 with failed := st3.failed + 1 },
            entry1 ++ [("transaction_signed", Value.str "failed"),
              ("errorMessage", Value.str s.errorMessage)])
      else
        ({ st2 with failed := st2.failed + 1 },
          entry1 ++ [("errorMessage", Value.str b.errorMessage)])
    let st5 : StartState W := { r.1 with resultsObj := r.1.resultsObj ++ [r.2] }
    if fAlias && st5.found then LoopStep.brk st5 else LoopStep.next st5

/-- The body of the loop of `startzelnode` over the configured entries (lines
404-489). -/
def startzelnodeEntry (env : StartEnv W) (fAlias : Bool) (strAlias : String) (st : StartState W)
    (zne : ZelnodeEntry) : LoopStep (StartState W) :=
  if fAlias && decide (zne.getAlias = strAlias) then
    startzelnodeSelected env fAlias { st with found := true } zne
  else if fAlias then LoopStep.next st
  else startzelnodeSelected env fAlias st zne

/-- Lines 491-506 of `startzelnode`, after the loop: the entry for an alias
that was not found, the lock of the wallet, and the object handed back. -/
def startzelnodeEnd (env : StartEnv W) (fLock fAlias : Bool) (st : StartState W) :
    StartOutcome W :=
  let st1 : StartState W :=
    if !st.found && fAlias then
      { st with
        failed := st.failed + 1
        resultsObj := st.resultsObj ++
          [[("result", Value.str "failed"),
            ("error", Value.str "could not find alias in config. Verify with list-conf.")]] }
    else st
  let st2 : StartState W :=
    if fLock then
      { st1 with world := env.Lock st1.world, calls := st1.calls ++ [WalletCall.Lock] }
    else st1
  ⟨StartReturn.summary (overallMessage st2.successful st2.failed) st2.resultsObj,
    st2.world, st2.calls⟩

/-- The RPC `startzelnode` (lines 342-509); `params` holds the strings
`params[i].get_str()`. -/
def startzelnode (env : StartEnv W) (w : W) (params : List String) (fHelp : Bool) :
    StartOutcome W :=
  let strCommand : String := if params.length ≥ 1 then params.getD 0 "" else ""
  if env.IsZelnodeTransactionsActive then
    if fHelp || decide (params.length < 2) || decide (params.length > 3) ||
        (decide (params.length = 2) && decide (strCommand ≠ "all")) ||
        (decide (params.length = 3) && decide (strCommand ≠ "alias")) then
      ⟨StartReturn.threw "startzelnode", w, []⟩
    else if env.IsInitialBlockDownload then
      ⟨StartReturn.threw "Chain is still syncing, please wait until chain is synced", w, []⟩
    else
      let fLock : Bool := decide (params.getD 1 "" = "true")
      if !env.EnsureWalletIsUnlocked w then ⟨StartReturn.threw "EnsureWalletIsUnlocked", w, []⟩
      else
        let fAlias : Bool := decide (params.length = 3)
        let strAlias : String := if fAlias then params.getD 2 "" else ""
        match runLoop (startzelnodeEntry env fAlias strAlias) { world := w } env.getEntries with
        | LoopStep.ret value st => ⟨value, st.world, st.calls⟩
        | other => startzelnodeEnd env fLock fAlias other.state
  else ⟨StartReturn.null, w, []⟩

/-- The body of the loop of `startdeterministiczelnode` over the configured
entries (lines 564-619). -/
def startdeterministiczelnodeEntry (env : StartEnv W) (strAlias : String) (st : StartState W)
    (zne : ZelnodeEntry) : LoopStep (StartState W) :=
  if zne.getAlias = strAlias then
    let st1 : StartState W := { st with found := true }
    let outpoint := outpointOf env zne
    if env.mempoolCount st1.world outpoint then
      LoopStep.ret
        (StartReturn.object
          [("result", Value.str "failed"),
           ("reason", Value.str "Mempool already has a zelnode transaction using this outpoint")])
        st1
    else if env.InStartTracker st1.world outpoint then
      LoopStep.ret
        (StartReturn.object
          [("result", Value.str "failed"),
           ("reason", Value.str "Zelnode already started, waiting to be confirmed")])
        st1
    else if env.InDoSTracker st1.world outpoint then
      LoopStep.ret
        (StartReturn.object
          [("result", Value.str "failed"),
           ("reason", Value.str
             "Zelnode already started then not confirmed, in DoS tracker. Must wait until out of DoS tracker to start")])
        st1
    else if env.InConfirmTracker st1.world outpoint then
      LoopStep.ret
        (StartReturn.object
          [("result", Value.str "failed"),
           ("reason", Value.str "Zelnode already confirmed and in zelnode list")])
        st1
    else
      let b := env.BuildDeterministicStartTx st1.world zne
      let st2 : StartState W :=
        { st1 with
          world := b.world
          calls := st1.calls ++ [WalletCall.BuildDeterministicStartTx zne]
          statusObj := st1.statusObj ++
            [("result", Value.str (if b.result then "successful" else "failed"))] }
      if b.result then
        let s := env.SignDeterministicStartTx st2.world b.mutTransaction
        let st3 : StartState W :=
          { st2 with
            world := s.world
            calls := st2.calls ++ [WalletCall.SignDeterministicStartTx b.mutTransaction] }
        if s.result then
          let c := env.CommitTransaction st3.world s.mutTransaction
          LoopStep.brk
            { st3 with
              world := c.world
              calls := st3.calls ++ [WalletCall.CommitTransaction s.mutTransaction]
              successful := st3.successful + 1 }
        else
          LoopStep.brk
            { st3 with
              failed := st3.failed + 1
              statusObj := st3.statusObj ++ [("errorMessage", Value.str s.errorMessage)] }
      else
        LoopStep.brk
          { st2 with
            failed := st2.failed + 1
            statusObj := st2.statusObj ++ [("errorMessage", Value.str b.errorMessage)] }
  else LoopStep.next st

/-- Lines 621-636 of `startdeterministiczelnode`, after the loop: the status
of an alias that was not found, the lock of the wallet, and the object handed
back. -/
def startdeterministiczelnodeEnd (env : StartEnv W) (fLock : Bool) (st : StartState W) :
    StartOutcome W :=
  let st1 : StartState W :=
    if !st.found then
      { st with
        failed := st.failed + 1
        statusObj := st.statusObj ++
          [("result", Value.str "failed"),
           ("error", Value.str "could not find alias in config. Verify with listzelnodeconf.")] }
    else st
  let st2 : StartState W := { st1 with resultsObj := st1.resultsObj ++ [st1.statusObj] }
  let st3 : StartState W :=
    if fLock then
      { st2 with world := env.Lock st2.world, calls := st2.calls ++ [WalletCall.Lock] }
    else st2
  ⟨StartReturn.summary (overallMessage st3.successful st3.failed) st3.resultsObj,
    st3.world, st3.calls⟩

/-- The RPC `startdeterministiczelnode` (lines 511-637). -/
def startdeterministiczelnode (env : StartEnv W) (w : W) (params : List String) (fHelp : Bool) :
    StartOutcome W :=
  if !env.IsZelnodeTransactionsActive then
    ⟨StartReturn.threw "deterministic zelnodes transactions is not active yet", w, []⟩
  else if fHelp || decide (params.length ≠ 2) then
    ⟨StartReturn.threw "startdeterministiczelnode", w, []⟩
  else
    let fLock : Bool := decide (params.getD 1 "" = "true")
    if !env.EnsureWalletIsUnlocked w then ⟨StartReturn.threw "EnsureWalletIsUnlocked", w, []⟩
    else
      let strAlias : String := params.getD 0 ""
      match runLoop (startdeterministiczelnodeEntry env strAlias)
          { world := w, statusObj := [("alias", Value.str strAlias)] } env.getEntries with
      | LoopStep.ret value st => ⟨value, st.world, st.calls⟩
      | other => startdeterministiczelnodeEnd env fLock other.state

end StartRpc

/-! ## The query RPCs `getdoslist` and `listzelnodeconf` (zelnode.cpp) -/

/-- The type `CTxDestination`: no destination, a key hash or a script hash. -/
inductive CTxDestination where
  | CNoDestination
  | CKeyID (id : List Nat)
  | CScriptID (id : List Nat)
  deriving DecidableEq, Repr, Inhabited

/-- What a query RPC hands back: a thrown `runtime_error`, `NullUniValue`, an
array of objects, or nothing when the program faults on a null block index. -/
inductive QueryReturn where
  | threw (what : String)
  | null
  | array (items : List UniObject)
  | fault
  deriving DecidableEq, Repr

/-- What the code outside `zelnode.cpp` does, as far as the query RPCs use it,
with the constants they read. -/
structure QueryEnv where
  IsDZelnodeActive : Bool
  /-- The value of `chainActive.Height()`. -/
  Height : Int
  /-- The value of `chainActive[nHeight]->nTime`; `none` when `chainActive[nHeight]` is null. -/
  nTime : Int → Option Int
  ZELNODE_DOS_REMOVE_AMOUNT : Int
  ZELNODE_START_TX_EXPIRATION_HEIGHT : Int
  ZELNODE_TX_ERROR : Int
  /-- The entries of `zelnodeConfig.getEntries()`, in order. -/
  getEntries : List ZelnodeEntry
  /-- The call `zelnode.castOutputIndex(nIndex)`: `some nIndex` when it returns true. -/
  castOutputIndex : ZelnodeEntry → Option Int
  uint256S : String → Nat
  /-- The call `g_zelnodeCache.GetZelnodeData(out, &nLocation)`: the record and the location after the call. -/
  GetZelnodeData : ZelnodeCache → COutPoint → Int → ZelnodeCacheData × Int
  ZelnodeLocationToString : Int → String
  ToFullString : COutPoint → String
  /-- The text of `GetNetworkName(CNetAddr(strHost, false).GetNetwork())`. -/
  GetNetworkName : String → String
  TierToString : Int → String
  IsAP2SHFluxNodePublicKey : List Nat → Bool
  /-- The call `GetFluxNodeP2SHDestination(pcoinsTip, collateralIn, destination)`: the destination after the call. -/
  GetFluxNodeP2SHDestination : COutPoint → CTxDestination → CTxDestination
  /-- The call `collateralPubkey.GetID()`. -/
  GetID : List Nat → List Nat
  EncodeDestination : CTxDestination → String
  FormatMoney : Int → String
  /-- The flag `fZelnode`. -/
  fZelnode : Bool
  /-- The member `activeZelnode.deterministicOutPoint`. -/
  deterministicOutPoint : COutPoint
  IsInitialBlockDownload : Bool
  /-- The first tier of `enum Tier`. -/
  CUMULUS : Int
  /-- The end marker of `enum Tier`. -/
  LAST : Int
  HexStr : List Nat → String
  /-- The call `collateralIn.GetTxHash()`. -/
  GetTxHash : COutPoint → String
  /-- The call `collateralIn.GetTxIndex()`. -/
  GetTxIndex : COutPoint → Int

/-- Lines 789-794: the payment destination of a record. -/
def paymentDestination (env : QueryEnv) (data : ZelnodeCacheData) : CTxDestination :=
  if env.IsAP2SHFluxNodePublicKey data.collateralPubkey then
    env.GetFluxNodeP2SHDestination data.collateralIn CTxDestination.CNoDestination
  else CTxDestination.CKeyID (env.GetID data.collateralPubkey)

/-- The value of `nEligibleIn` (line 803). -/
def eligibleIn (env : QueryEnv) (data : ZelnodeCacheData) : Int :=
  env.ZELNODE_DOS_REMOVE_AMOUNT - (env.Height - data.nAddedBlockHeight)

/-- Lines 796-808: the object `info` that `getdoslist` builds for a record. -/
def dosInfo (env : QueryEnv) (data : ZelnodeCacheData) : UniObject :=
  [("collateral", Value.str (env.ToFullString data.collateralIn)),
   ("added_height", Value.num data.nAddedBlockHeight),
   ("payment_address", Value.str (env.EncodeDestination (paymentDestination env data))),
   ("eligible_in", Value.num (eligibleIn env data))] ++
    (if data.nCollateral > 0 then [("amount", Value.str (env.FormatMoney data.nCollateral))]
     else [])

/-- The statement `mapOrdered[key].emplace_back(info)` on a
`std::map<int, std::vector<UniValue>>`. -/
def bucketPush (key : Int) (info : UniObject) :
    List (Int × List UniObject) → List (Int × List UniObject)
  | [] => [(key, [info])]
  | (k, items) :: rest =>
    if k = key then (k, items ++ [info]) :: rest else (k, items) :: bucketPush key info rest

/-- The lookup `mapOrdered.at(i)` guarded by `mapOrdered.count(i)`. -/
def bucketAt (m : List (Int × List UniObject)) (i : Int) : Option (List UniObject) :=
  (m.find? (fun e => decide (e.1 = i))).map Prod.snd

/-- The loop `for (int i = 0; i < bound; i++)` that appends the bucket of `i`
to the result when there is one (lines 814-820). -/
def collectOrdered (m : List (Int × List UniObject)) (bound : Int) : List UniObject :=
  (List.range bound.toNat).foldl
    (fun wholelist (i : Nat) =>
      match bucketAt m (i : Int) with
      | some items => wholelist ++ items
      | none => wholelist)
    []

/-- The RPC `getdoslist` (lines 758-827). -/
def getdoslist (env : QueryEnv) (g_zelnodeCache : ZelnodeCache) (params : List String)
    (fHelp : Bool) : QueryReturn :=
  if fHelp || decide (params.length > 0) then QueryReturn.threw "getdoslist"
  else if env.IsDZelnodeActive then
    let mapOrderedDosList : List (Int × List UniObject) :=
      g_zelnodeCache.mapStartTxDosTracker.foldl
        (fun m item => bucketPush (eligibleIn env item.2) (dosInfo env item.2) m) []
    QueryReturn.array
      (if mapOrderedDosList.length ≠ 0 then
        collectOrdered mapOrderedDosList (env.ZELNODE_DOS_REMOVE_AMOUNT + 1)
      else [])
  else QueryReturn.null

/-- Lines 1211-1253 of `listzelnodeconf`: the object `info` of a configured
entry; `none` when a null block index is read for `activesince` or
`lastpaid`. -/
def confInfo (env : QueryEnv) (g_zelnodeCache : ZelnodeCache) (zelnode : ZelnodeEntry)
    (nIndex : Int) : Option UniObject :=
  let out : COutPoint := ⟨env.uint256S zelnode.getTxHash, (nIndex % 4294967296).toNat⟩
  let r := env.GetZelnodeData g_zelnodeCache out env.ZELNODE_TX_ERROR
  let data := r.1
  let nLocation := r.2
  let info : UniObject :=
    [("alias", Value.str zelnode.getAlias),
     ("status", Value.str (env.ZelnodeLocationToString nLocation)),
     ("collateral", Value.str (env.ToFullString out)),
     ("txHash", Value.str zelnode.getTxHash),
     ("outputIndex", Value.str zelnode.getOutputIndex),
     ("privateKey", Value.str zelnode.getPrivKey),
     ("address", Value.str zelnode.getIp)]
  if data.IsNull then
    some (info ++
      [("ip", Value.str "UNKNOWN"), ("network", Value.str "UNKOWN"),
       ("added_height", Value.num 0), ("confirmed_height", Value.num 0),
       ("last_confirmed_height", Value.num 0), ("last_paid_height", Value.num 0),
       ("tier", Value.str "UNKNOWN"), ("payment_address", Value.str "UNKNOWN"),
       ("activesince", Value.num 0), ("lastpaid", Value.num 0)])
  else
    let info1 : UniObject :=
      info ++
        [("ip", Value.str data.ip), ("network", Value.str (env.GetNetworkName data.ip)),
         ("added_height", Value.num data.nAddedBlockHeight),
         ("confirmed_height", Value.num data.nConfirmedBlockHeight),
         ("last_confirmed_height", Value.num data.nLastConfirmedBlockHeight),
         ("last_paid_height", Value.num data.nLastPaidHeight),
         ("tier", Value.str (env.TierToString data.nTier)),
         ("payment_address",
           Value.str (env.EncodeDestination
             (CTxDestination.CKeyID (env.GetID data.collateralPubkey))))]
    let activesince : Option Value :=
      if env.Height ≥ data.nAddedBlockHeight then
        (env.nTime data.nAddedBlockHeight).map (fun t => Value.str (toString t))
      else some (Value.num 0)
    let lastpaid : Option Value :=
      if env.Height ≥ data.nLastPaidHeight then
        (env.nTime data.nLastPaidHeight).map (fun t => Value.str (toString t))
      else some (Value.num 0)
    match activesince, lastpaid with
    | some a, some l => some (info1 ++ [("activesince", a), ("lastpaid", l)])
    | _, _ => none

/-- The loop of `listzelnodeconf` over the configured entries (lines
1201-1258); `none` when the program faults. -/
def listzelnodeconfLoop (env : QueryEnv) (g_zelnodeCache : ZelnodeCache) :
    List UniObject → List ZelnodeEntry → Option (List UniObject)
  | ret, [] => some ret
  | ret, zelnode :: rest =>
    if env.IsDZelnodeActive then
      match env.castOutputIndex zelnode with
      | none => listzelnodeconfLoop env g_zelnodeCache ret rest
      | some nIndex =>
        match confInfo env g_zelnodeCache zelnode nIndex with
        | none => none
        | some info => listzelnodeconfLoop env g_zelnodeCache (ret ++ [info]) rest
    else listzelnodeconfLoop env g_zelnodeCache ret rest

/-- The RPC `listzelnodeconf` (lines 1155-1261). The filter text is read
into `strFilter` (line 1159); no later line of the function reads it. -/
def listzelnodeconf (env : QueryEnv) (g_zelnodeCache : ZelnodeCache) (params : List String)
    (fHelp : Bool) : QueryReturn :=
  let _strFilter : String := if params.length = 1 then params.getD 0 "" else ""
  if fHelp || decide (params.length > 1) then QueryReturn.threw "listzelnodeconf"
  else
    match listzelnodeconfLoop env g_zelnodeCache [] env.getEntries with
    | some ret => QueryReturn.array ret
    | none => QueryReturn.fault

/-! ## The query RPCs `getstartlist`, `getzelnodestatus` and `viewdeterministiczelnodelist` (zelnode.cpp) -/

/-- The value of `nExpiresIn` (line 874). -/
def expiresIn (env : QueryEnv) (data : ZelnodeCacheData) : Int :=
  env.ZELNODE_START_TX_EXPIRATION_HEIGHT - (env.Height - data.nAddedBlockHeight)

/-- Lines 867-880: the object `info` that `getstartlist` builds for a record. -/
def startInfo (env : QueryEnv) (data : ZelnodeCacheData) : UniObject :=
  [("collateral", Value.str (env.ToFullString data.collateralIn)),
   ("added_height", Value.num data.nAddedBlockHeight),
   ("payment_address", Value.str (env.EncodeDestination (paymentDestination env data))),
   ("expires_in", Value.num (expiresIn env data))] ++
    (if data.nCollateral > 0 then [("amount", Value.str (env.FormatMoney data.nCollateral))]
     else [])

/-- The RPC `getstartlist` (lines 829-899). -/
def getstartlist (env : QueryEnv) (g_zelnodeCache : ZelnodeCache) (params : List String)
    (fHelp : Bool) : QueryReturn :=
  if fHelp || decide (params.length > 0) then QueryReturn.threw "getstartlist"
  else if env.IsDZelnodeActive then
    let mapOrderedStartList : List (Int × List UniObject) :=
      g_zelnodeCache.mapStartTxTracker.foldl
        (fun m item => bucketPush (expiresIn env item.2) (startInfo env item.2) m) []
    QueryReturn.array
      (if mapOrderedStartList.length ≠ 0 then
        collectOrdered mapOrderedStartList (env.ZELNODE_START_TX_EXPIRATION_HEIGHT + 1)
      else [])
  else QueryReturn.null

/-- The value pushed for `activesince` and `lastpaid`: the time of the block
at `nHeight` as text when the tip is at or above it, the number 0 otherwise;
`none` when the block index read is null. -/
def blockTimeValue (env : QueryEnv) (nHeight : Int) : Option Value :=
  if env.Height ≥ nHeight then (env.nTime nHeight).map (fun t => Value.str (toString t))
  else some (Value.num 0)

/-- What `getzelnodestatus` hands back: a thrown `runtime_error`,
`NullUniValue`, the object `info`, or nothing when the program faults on a
null block index. -/
inductive StatusReturn where
  | threw (what : String)
  | null
  | object (info : UniObject)
  | fault
  deriving DecidableEq, Repr

/-- The RPC `getzelnodestatus` (lines 901-979). -/
def getzelnodestatus (env : QueryEnv) (g_zelnodeCache : ZelnodeCache) (params : List String)
    (fHelp : Bool) : StatusReturn :=
  if fHelp || decide (params.length ≠ 0) then StatusReturn.threw "getzelnodestatus"
  else if !env.fZelnode then StatusReturn.threw "This is not a Flux Node"
  else if env.IsDZelnodeActive then
    let r := env.GetZelnodeData g_zelnodeCache env.deterministicOutPoint env.ZELNODE_TX_ERROR
    let data := r.1
    let nLocation := r.2
    if data.IsNull then
      StatusReturn.object
        [("status", Value.str "expired"),
         ("collateral", Value.str (env.ToFullString env.deterministicOutPoint))]
    else
      let info : UniObject :=
        [("status", Value.str (env.ZelnodeLocationToString nLocation)),
         ("collateral", Value.str (env.ToFullString data.collateralIn)),
         ("txhash", Value.str (env.GetTxHash data.collateralIn)),
         ("outidx", Value.num (env.GetTxIndex data.collateralIn)),
         ("ip", Value.str data.ip),
         ("network", Value.str (env.GetNetworkName data.ip)),
         ("added_height", Value.num data.nAddedBlockHeight),
         ("confirmed_height", Value.num data.nConfirmedBlockHeight),
         ("last_confirmed_height", Value.num data.nLastConfirmedBlockHeight),
         ("last_paid_height", Value.num data.nLastPaidHeight),
         ("tier", Value.str (env.TierToString data.nTier)),
         ("payment_address",
           Value.str (env.EncodeDestination
             (CTxDestination.CKeyID (env.GetID data.collateralPubkey)))),
         ("pubkey", Value.str (env.HexStr data.pubKey))]
      match blockTimeValue env data.nAddedBlockHeight, blockTimeValue env data.nLastPaidHeight with
      | some a, some l =>
        StatusReturn.object
          (info ++ [("activesince", a), ("lastpaid", l)] ++
            (if data.nCollateral > 0 then
              [("amount", Value.str (env.FormatMoney data.nCollateral))]
            else []))
      | _, _ => StatusReturn.fault
  else StatusReturn.null

/-- The search `hay.find(needle)` of `std::string` from position `pos` on:
the position of the first occurrence, `none` for `npos`. -/
def findFrom (needle : List Char) : List Char → Nat → Option Nat
  | [], pos => if needle = [] then some pos else none
  | c :: rest, pos =>
    if needle <+: c :: rest then some pos else findFrom needle rest (pos + 1)

/-- The call `hay.find(needle)`. -/
def stdFind (hay needle : String) : Option Nat :=
  findFrom needle.data hay.data 0

/-- The value of `hay.find(needle)` used as a condition: false for position
0, true for every other position and for `npos`. -/
def stdFindTruth (hay needle : String) : Bool :=
  decide (stdFind hay needle ≠ some 0)

/-- The condition of lines 660-661, under which `GetDeterministicListData`
leaves a record out. -/
def filteredOut (env : QueryEnv) (strFilter : String) (data : ZelnodeCacheData) : Bool :=
  decide (strFilter ≠ "") &&
    decide (stdFind (env.GetTxHash data.collateralIn) strFilter = none) &&
    stdFindTruth (env.HexStr data.pubKey) strFilter &&
    stdFindTruth data.ip strFilter &&
    decide (stdFind (env.EncodeDestination (paymentDestination env data)) strFilter = none)

/-- Lines 664-693: the object `info` of a listed record with rank `count`;
`none` when a null block index is read. -/
def deterministicInfo (env : QueryEnv) (data : ZelnodeCacheData) (count : Int) :
    Option UniObject :=
  let info : UniObject :=
    [("collateral", Value.str (env.ToFullString data.collateralIn)),
     ("txhash", Value.str (env.GetTxHash data.collateralIn)),
     ("outidx", Value.num (env.GetTxIndex data.collateralIn)),
     ("ip", Value.str data.ip),
     ("network", Value.str (env.GetNetworkName data.ip)),
     ("added_height", Value.num data.nAddedBlockHeight),
     ("confirmed_height", Value.num data.nConfirmedBlockHeight),
     ("last_confirmed_height", Value.num data.nLastConfirmedBlockHeight),
     ("last_paid_height", Value.num data.nLastPaidHeight),
     ("tier", Value.str (env.TierToString data.nTier)),
     ("payment_address", Value.str (env.EncodeDestination (paymentDestination env data))),
     ("pubkey", Value.str (env.HexStr data.pubKey))]
  match blockTimeValue env data.nAddedBlockHeight, blockTimeValue env data.nLastPaidHeight with
  | some a, some l =>
    some
      (info ++ [("activesince", a), ("lastpaid", l)] ++
        (if data.nCollateral > 0 then [("amount", Value.str (env.FormatMoney data.nCollateral))]
         else []) ++
        [("rank", Value.num count)])
  | _, _ => none

/-- How the body of the loop of `GetDeterministicListData` ends for one
outpoint: nothing is pushed, the program faults, or `info` is pushed. -/
inductive ItemStep where
  | skip
  | fault
  | push (info : UniObject)
  deriving DecidableEq, Repr

/-- The body of the loop of `GetDeterministicListData` (lines 644-696) for
the outpoint `out`, with the current value of `count`. -/
def listDataItem (env : QueryEnv) (g_zelnodeCache : ZelnodeCache) (strFilter : String)
    (count : Int) (out : COutPoint) : ItemStep :=
  let data := (env.GetZelnodeData g_zelnodeCache out env.ZELNODE_TX_ERROR).1
  if !data.IsNull then
    if filteredOut env strFilter data then ItemStep.skip
    else
      match deterministicInfo env data count with
      | none => ItemStep.fault
      | some info => ItemStep.push info
  else ItemStep.skip

/-- The loop of `GetDeterministicListData` over the confirmed nodes of a
tier; `none` when the program faults. -/
def listDataLoop (env : QueryEnv) (g_zelnodeCache : ZelnodeCache) (strFilter : String) :
    List UniObject → Int → List COutPoint → Option (List UniObject)
  | listData, _, [] => some listData
  | listData, count, out :: rest =>
    match listDataItem env g_zelnodeCache strFilter count out with
    | ItemStep.skip => listDataLoop env g_zelnodeCache strFilter listData count rest
    | ItemStep.fault => none
    | ItemStep.push info =>
      listDataLoop env g_zelnodeCache strFilter (listData ++ [info]) (count + 1) rest

/-- The function `GetDeterministicListData` (lines 640-698): the list after
the call. `mapZelnodeList.at(tier)` throws when the tier has no entry. -/
def GetDeterministicListData (env : QueryEnv) (g_zelnodeCache : ZelnodeCache)
    (listData : List UniObject) (strFilter : String) (tier : Int) : QueryReturn :=
  match g_zelnodeCache.mapZelnodeList.find? (fun e => decide (e.1 = tier)) with
  | none => QueryReturn.threw "map::at"
  | some e =>
    match listDataLoop env g_zelnodeCache strFilter listData 0 e.2 with
    | none => QueryReturn.fault
    | some l => QueryReturn.array l

/-- The loop of `viewdeterministiczelnodelist` over the tiers (lines 744-747). -/
def viewTiers (env : QueryEnv) (g_zelnodeCache : ZelnodeCache) (strFilter : String) :
    List UniObject → List Int → QueryReturn
  | deterministicList, [] => QueryReturn.array deterministicList
  | deterministicList, currentTier :: rest =>
    match GetDeterministicListData env g_zelnodeCache deterministicList strFilter currentTier with
    | QueryReturn.array l => viewTiers env g_zelnodeCache strFilter l rest
    | other => other

/-- The values `currentTier` takes in
`for (int currentTier = CUMULUS; currentTier != LAST; currentTier++)`, for
`CUMULUS ≤ LAST` as in `enum Tier`. -/
def queryTiers (env : QueryEnv) : List Int :=
  (List.range (env.LAST - env.CUMULUS).toNat).map (fun (i : Nat) => env.CUMULUS + (i : Int))

/-- The RPC `viewdeterministiczelnodelist` (lines 700-751). -/
def viewdeterministiczelnodelist (env : QueryEnv) (g_zelnodeCache : ZelnodeCache)
    (params : List String) (fHelp : Bool) : QueryReturn :=
  if fHelp || decide (params.length > 1) then QueryReturn.threw "viewdeterministiczelnodelist"
  else if env.IsInitialBlockDownload then
    QueryReturn.threw "Wait until chain is synced closer to tip"
  else
    let strFilter : String := if params.length = 1 then params.getD 0 "" else ""
    viewTiers env g_zelnodeCache strFilter [] (queryTiers env)

/-! ## Sample data of the RPCs -/

/-- A wallet and mempool for the samples: whether the wallet is locked, and
the outpoints of the node transactions in the mempool. -/
structure SampleWallet where
  locked : Bool := false
  mempool : List COutPoint := []
  deriving DecidableEq, Repr, Inhabited

/-- The configured entry of the sample node, alias `zn1`. -/
def sampleEntry : ZelnodeEntry :=
  { getAlias := "zn1", getIp := "10.0.0.1:16125", getPrivKey := "k1", getTxHash := "07",
    getOutputIndex := "0" }

/-- A sample of the collaborators of the start RPCs over a registry `g`:
building, signing and committing succeed, and a committed transaction enters
the mempool. -/
def sampleStartEnv (g : ZelnodeCache) : StartEnv SampleWallet :=
  { IsZelnodeTransactionsActive := true
    IsInitialBlockDownload := false
    getEntries := [sampleEntry]
    EnsureWalletIsUnlocked := fun w => !w.locked
    castOutputIndex := fun zne => if zne.getOutputIndex = "0" then some 0 else none
    unsetIndex := 0
    uint256S := fun s => if s = "07" then 7 else 0
    ToString := fun o => if o = sampleOut then "COutPoint(07, 0)" else "COutPoint"
    mempoolCount := fun w o => w.mempool.contains o
    InStartTracker := fun _ o => (StdMap.find o g.mapStartTxTracker).isSome
    InDoSTracker := fun _ o => (StdMap.find o g.mapStartTxDosTracker).isSome
    InConfirmTracker := fun _ o => (StdMap.find o g.mapConfirmedZelnodeData).isSome
    BuildDeterministicStartTx := fun w _ =>
      { result := true, errorMessage := "", mutTransaction := sampleStartTx, world := w }
    SignDeterministicStartTx := fun w tx =>
      { result := true, errorMessage := "", mutTransaction := tx, world := w }
    CommitTransaction := fun w tx =>
      { fCommited := true, rejectReason := ""
        world := { w with mempool := w.mempool ++ [tx.collateralOut] } }
    Lock := fun w => { w with locked := true } }

/-- A sample of the collaborators of the query RPCs at tip height `height`,
with the constants 180 and 80 for the DoS and Start windows. -/
def sampleQueryEnv (height : Int) : QueryEnv :=
  { IsDZelnodeActive := true
    Height := height
    nTime := fun h => if 0 ≤ h ∧ h ≤ height then some (1600000000 + 120 * h) else none
    ZELNODE_DOS_REMOVE_AMOUNT := 180
    ZELNODE_START_TX_EXPIRATION_HEIGHT := 80
    ZELNODE_TX_ERROR := 0
    getEntries := [sampleEntry]
    castOutputIndex := fun zne => if zne.getOutputIndex = "0" then some 0 else none
    uint256S := fun s => if s = "07" then 7 else 0
    GetZelnodeData := fun g out _ =>
      match StdMap.find out g.mapStartTxTracker with
      | some d => (d, 1)
      | none =>
        match StdMap.find out g.mapStartTxDosTracker with
        | some d => (d, 2)
        | none =>
          match StdMap.find out g.mapConfirmedZelnodeData with
          | some d => (d, 3)
          | none => ({}, 0)
    ZelnodeLocationToString := fun n =>
      if n = 1 then "STARTED" else if n = 2 then "DOS" else if n = 3 then "CONFIRMED"
      else "OFFLINE"
    ToFullString := fun o => if o = sampleOut then "COutPoint(07, 0)" else "COutPoint"
    GetNetworkName := fun _ => "ipv4"
    TierToString := fun n => if n = 1 then "CUMULUS" else if n = 2 then "NIMBUS" else "STRATUS"
    IsAP2SHFluxNodePublicKey := fun _ => false
    GetFluxNodeP2SHDestination := fun _ d => d
    GetID := fun pk => pk
    EncodeDestination := fun d =>
      match d with
      | CTxDestination.CNoDestination => ""
      | CTxDestination.CKeyID _ => "t1key"
      | CTxDestination.CScriptID _ => "t3script"
    FormatMoney := fun _ => "10000.00"
    fZelnode := true
    deterministicOutPoint := sampleOut
    IsInitialBlockDownload := false
    CUMULUS := 1
    LAST := 4
    HexStr := fun pk => if pk = [4, 171] then "04ab" else ""
    GetTxHash := fun o => if o = sampleOut then "07" else "00"
    GetTxIndex := fun o => (o.n : Int) }

/-- A global cache with the sample node in the DoS tracker, its Start
transaction added at height 20. -/
def dosCache : ZelnodeCache :=
  { mapStartTxDosTracker :=
      [(sampleOut, { sampleRecord with nConfirmedBlockHeight := 0,
                                        nLastConfirmedBlockHeight := 0, nLastPaidHeight := 0 })]
    mapZelnodeList := [(1, []), (2, []), (3, [])] }

/-! ## Vocabulary of the statements on the RPCs -/

section StartVocabulary

variable {W : Type}

/-- The outpoint is known: in the mempool's map of node transactions, in the
Start tracker, in the DoS tracker or in the Confirmed tracker. -/
def knownOutpoint (env : StartEnv W) (w : W) (o : COutPoint) : Bool :=
  env.mempoolCount w o || env.InStartTracker w o || env.InDoSTracker w o ||
    env.InConfirmTracker w o

/-- The reason of the first check that matches, in the order mempool, Start,
DoS, Confirmed. -/
def firstReason (env : StartEnv W) (w : W) (o : COutPoint) : String :=
  if env.mempoolCount w o then "Mempool already has a zelnode transaction using this outpoint"
  else if env.InStartTracker w o then "Zelnode already started, waiting to be confirmed"
  else if env.InDoSTracker w o then
    "Zelnode already started then not confirmed, in DoS tracker. Must wait until out of DoS tracker to start"
  else "Zelnode already confirmed and in zelnode list"

end StartVocabulary

/-- The text `needle` occurs in `hay`: `hay.find(needle) != std::string::npos`. -/
def containsText (hay needle : String) : Prop :=
  needle.data <:+: hay.data

/-- The string an object holds under a key, empty when there is none. -/
def textOf (o : UniObject) (key : String) : String :=
  match valueOf o key with
  | some (Value.str s) => s
  | _ => ""

/-- The entry matches the filter as the help text of `listzelnodeconf` says:
the filter is part of its alias, address, txHash or status. -/
def matchesFilter (o : UniObject) (strFilter : String) : Prop :=
  containsText (textOf o "alias") strFilter ∨ containsText (textOf o "address") strFilter ∨
    containsText (textOf o "txHash") strFilter ∨ containsText (textOf o "status") strFilter

/-- The record's `eligible_in` lies in the range the output loop of
`getdoslist` runs over, 0 to `ZELNODE_DOS_REMOVE_AMOUNT`. -/
def inDosRange (env : QueryEnv) (data : ZelnodeCacheData) : Bool :=
  decide (0 ≤ eligibleIn env data) && decide (eligibleIn env data ≤ env.ZELNODE_DOS_REMOVE_AMOUNT)

/-- The items of the array a query RPC handed back; empty for anything else. -/
def QueryReturn.items : QueryReturn → List UniObject
  | QueryReturn.array l => l
  | _ => []

/-- Whether a text occurs in another can be computed. -/
instance containsTextDecidable (hay needle : String) : Decidable (containsText hay needle) :=
  inferInstanceAs (Decidable (needle.data <:+: hay.data))

/-- Whether an entry matches a filter can be computed. -/
instance matchesFilterDecidable (o : UniObject) (strFilter : String) :
    Decidable (matchesFilter o strFilter) :=
  inferInstanceAs (Decidable (_ ∨ _ ∨ _ ∨ _))

/-! ## Undo information of a spent input (undo.h) -/

/-- The class `CTxInUndo`: the spent output and, when it was the last unspent
output of its transaction, the metadata of that transaction. `nHeight` is an
`unsigned int`, `nVersion` an `int`. -/
structure CTxInUndo where
  txout : CTxOut := {}
  fCoinBase : Bool := false
  nHeight : Nat := 0
  nVersion : Int := 0
  deriving DecidableEq, Repr, Inhabited

/-- The `serialize.h` and `compressor.h` codecs that `CTxInUndo` uses:
`VARINT` of an `unsigned int`, `VARINT` of an `int`, and `CTxOutCompressor`. -/
structure TxInUndoSerializers where
  varUInt : Codec Nat
  varInt : Codec Int
  txOutCompressor : Codec CTxOut

/-- The method `CTxInUndo::Serialize`: the bytes appended to `s`. The code
`nHeight*2+(fCoinBase ? 1 : 0)` is computed in `unsigned int`. -/
def CTxInUndo.Serialize (c : TxInUndoSerializers) (s : Stream) (u : CTxInUndo) : Stream :=
  let s1 := s ++ c.varUInt.ser ((u.nHeight * 2 + (if u.fCoinBase then 1 else 0)) % 4294967296)
  let s2 := if u.nHeight > 0 then s1 ++ c.varInt.ser u.nVersion else s1
  s2 ++ c.txOutCompressor.ser u.txout

/-- The method `CTxInUndo::Unserialize` reading into the object `u`: the
object after the read, and the bytes left, `none` when a read throws. The
members read before a throw keep their new values. -/
def CTxInUndo.Unserialize (c : TxInUndoSerializers) (s : Stream) (u : CTxInUndo) :
    CTxInUndo × Option Stream :=
  match c.varUInt.unser s with
  | none => (u, none)
  | some (code, s1) =>
    let nCode : Nat := code % 4294967296
    let u1 : CTxInUndo := { u with nHeight := nCode / 2, fCoinBase := decide (nCode % 2 = 1) }
    if u1.nHeight > 0 then
      match c.varInt.unser s1 with
      | none => (u1, none)
      | some (nVersion, s2) =>
        let u2 : CTxInUndo := { u1 with nVersion := nVersion }
        match c.txOutCompressor.unser s2 with
        | none => (u2, none)
        | some (txout, s3) => ({ u2 with txout := txout }, some s3)
    else
      match c.txOutCompressor.unser s1 with
      | none => (u1, none)
      | some (txout, s2) => ({ u1 with txout := txout }, some s2)

/-- One concrete set of codecs for `CTxInUndo`. -/
def referenceTxInUndoSerializers : TxInUndoSerializers :=
  { varUInt := Codec.nat
    varInt := Codec.int
    txOutCompressor := Codec.int.via (fun o => o.nValue) (fun v => { nValue := v }) }

/-! ## Vocabulary of the statements on the undo record -/

/-- The keys of a map, in iteration order. -/
def StdMap.keys {K V : Type} (m : StdMap K V) : List K :=
  m.map Prod.fst

/-- All five members of the undo record are empty. -/
def CZelnodeTxBlockUndo.allEmpty (u : CZelnodeTxBlockUndo) : Bool :=
  u.vecExpiredDosData.isEmpty && u.vecExpiredConfirmedData.isEmpty &&
    u.mapUpdateLastConfirmHeight.isEmpty && u.mapLastPaidHeights.isEmpty &&
    u.mapLastIpAddress.isEmpty

/-! ## Sample data with a P2SH collateral -/

/-- The sample collaborators of the query RPCs with a P2SH marker: the public
key `[5]` is the marker, and the collateral of the sample node resolves to a
script destination. -/
def sampleP2SHEnv (height : Int) : QueryEnv :=
  { sampleQueryEnv height with
    IsAP2SHFluxNodePublicKey := fun pk => decide (pk = [5])
    GetFluxNodeP2SHDestination := fun o d =>
      if o = sampleOut then CTxDestination.CScriptID [9] else d }

/-- The record of the sample node with the P2SH marker as collateral key. -/
def p2shRecord : ZelnodeCacheData :=
  { sampleRecord with collateralPubkey := [5] }

/-- A global cache with the P2SH sample node confirmed. -/
def p2shConfirmedCache : ZelnodeCache :=
  { mapConfirmedZelnodeData := [(sampleOut, p2shRecord)]
    mapZelnodeList := [(1, [sampleOut]), (2, []), (3, [])] }

/-- A global cache with the P2SH sample node in the Start tracker. -/
def p2shStartedCache : ZelnodeCache :=
  { mapStartTxTracker := [(sampleOut, p2shRecord)]
    mapZelnodeList := [(1, []), (2, []), (3, [])] }

/-- A global cache with the P2SH sample node in the DoS tracker. -/
def p2shDosCache : ZelnodeCache :=
  { mapStartTxDosTracker := [(sampleOut, p2shRecord)]
    mapZelnodeList := [(1, []), (2, []), (3, [])] }

/-- A global cache with three records in the DoS tracker, in key order: one
added at height 160, the sample node added at height 20, one added at
height 5. -/
def mixedDosCache : ZelnodeCache :=
  { mapStartTxDosTracker :=
      [(⟨6, 0⟩, { sampleRecord with collateralIn := ⟨6, 0⟩, nAddedBlockHeight := 160 }),
       (sampleOut, sampleRecord),
       (⟨8, 0⟩, { sampleRecord with collateralIn := ⟨8, 0⟩, nAddedBlockHeight := 5 })]
    mapZelnodeList := [(1, []), (2, []), (3, [])] }

/-- A second configured entry, alias `zn2`, with its own collateral. -/
def sampleEntry2 : ZelnodeEntry :=
  { getAlias := "zn2", getIp := "10.0.0.2:16125", getPrivKey := "k2", getTxHash := "08",
    getOutputIndex := "0" }

/-- The sample collaborators of the start RPCs with two configured entries:
`zn1`, the sample node, and `zn2`, a node the registry does not know. -/
def sampleStartEnv2 (g : ZelnodeCache) : StartEnv SampleWallet :=
  { sampleStartEnv g with
    getEntries := [sampleEntry, sampleEntry2]
    uint256S := fun s => if s = "07" then 7 else if s = "08" then 8 else 0 }

/-! ## Vocabulary of the statements on the lists and the counters -/

/-- The text `text` begins with `start`: `text.find(start)` is 0. -/
def beginsWith (text start : String) : Prop :=
  start.data <+: text.data

/-- Whether a text begins with another can be computed. -/
instance beginsWithDecidable (text start : String) : Decidable (beginsWith text start) :=
  inferInstanceAs (Decidable (start.data <+: text.data))

/-- The filter rule in words: the filter is empty, or it occurs in the
collateral transaction hash, or in the encoded payment address, or the hex of
the operator key begins with it, or the ip begins with it. -/
def listedByFilter (env : QueryEnv) (strFilter : String) (data : ZelnodeCacheData) : Prop :=
  strFilter = "" ∨ containsText (env.GetTxHash data.collateralIn) strFilter ∨
    containsText (env.EncodeDestination (paymentDestination env data)) strFilter ∨
    beginsWith (env.HexStr data.pubKey) strFilter ∨ beginsWith data.ip strFilter

/-- The record's `expires_in` lies in the range the output loop of
`getstartlist` runs over, 0 to `ZELNODE_START_TX_EXPIRATION_HEIGHT`. -/
def inStartRange (env : QueryEnv) (data : ZelnodeCacheData) : Bool :=
  decide (0 ≤ expiresIn env data) &&
    decide (expiresIn env data ≤ env.ZELNODE_START_TX_EXPIRATION_HEIGHT)

/-- The payment address an object reports. -/
def paymentAddress (info : UniObject) : String :=
  textOf info "payment_address"

/-- The object `getzelnodestatus` handed back; empty for anything else. -/
def StatusReturn.info : StatusReturn → UniObject
  | StatusReturn.object o => o
  | _ => []

section CounterVocabulary

variable {W : Type}

/-- The entry passes the mempool and tracker checks in the state the loop of
`startzelnode` reaches it in. -/
def passesPrecheck (env : StartEnv W) (st : StartState W) (zne : ZelnodeEntry) : Bool :=
  !knownOutpoint env st.world (outpointOf env zne)

/-- The Start transaction of the entry is built, signed and committed in the
state the loop of `startzelnode` reaches it in. -/
def startsNode (env : StartEnv W) (st : StartState W) (zne : ZelnodeEntry) : Bool :=
  passesPrecheck env st zne &&
    (env.BuildDeterministicStartTx st.world zne).result &&
    (env.SignDeterministicStartTx (env.BuildDeterministicStartTx st.world zne).world
      (env.BuildDeterministicStartTx st.world zne).mutTransaction).result &&
    (env.CommitTransaction
      (env.SignDeterministicStartTx (env.BuildDeterministicStartTx st.world zne).world
        (env.BuildDeterministicStartTx st.world zne).mutTransaction).world
      (env.SignDeterministicStartTx (env.BuildDeterministicStartTx st.world zne).world
        (env.BuildDeterministicStartTx st.world zne).mutTransaction).mutTransaction).fCommited

/-- The number of entries of the list for which `p` holds in the state the
loop of `startzelnode` in the mode `all` reaches them in. -/
def countAlong (env : StartEnv W) (p : StartState W → ZelnodeEntry → Bool) :
    StartState W → List ZelnodeEntry → Int
  | _, [] => 0
  | st, zne :: rest =>
    (if p st zne then 1 else 0) +
      countAlong env p (startzelnodeEntry env false "" st zne).state rest

end CounterVocabulary

/-! # Theorems -/

/-! ## Element codecs -/

theorem varint_roundTrips : Codec.nat.RoundTrips := by
  intro n
  induction n using Nat.strong_induction_on with
  | _ n ih =>
    intro rest
    show varintUnser (varintSer n ++ rest) = some (n, rest)
    rw [varintSer]
    split
    · simp [varintUnser, *]
    · have h := ih (n / 128) (by omega) rest
      have h2 : varintUnser (varintSer (n / 128) ++ rest) = some (n / 128, rest) := h
      have h3 : ¬ (128 + n % 128 < 128) := by omega
      rw [List.cons_append, varintUnser]
      simp only [h3, if_false, h2]
      congr 2
      omega

theorem via_roundTrips {α β : Type} (c : Codec α) (f : β → α) (g : α → β)
    (hc : c.RoundTrips) (hfg : ∀ b, g (f b) = b) : (c.via f g).RoundTrips := by
  intro b rest
  show (c.unser (c.ser (f b) ++ rest)).map _ = _
  rw [hc]
  simp [hfg]

theorem pair_roundTrips {α β : Type} (ca : Codec α) (cb : Codec β)
    (ha : ca.RoundTrips) (hb : cb.RoundTrips) : (ca.pair cb).RoundTrips := by
  intro p rest
  show (match ca.unser ((ca.ser p.1 ++ cb.ser p.2) ++ rest) with
    | none => none
    | some (a, s1) =>
      match cb.unser s1 with
      | none => none
      | some (b, s2) => some ((a, b), s2)) = some (p, rest)
  rw [List.append_assoc, ha]
  simp only
  rw [hb]

theorem many_roundTrips {α : Type} (c : Codec α) (hc : c.RoundTrips) (l : List α)
    (rest : Stream) : unserMany c l.length (serMany c l ++ rest) = some (l, rest) := by
  induction l with
  | nil => rfl
  | cons a l ih =>
    simp only [List.length_cons, serMany, unserMany, List.append_assoc]
    rw [hc]
    simp only
    rw [ih]

theorem list_roundTrips {α : Type} (c : Codec α) (hc : c.RoundTrips) :
    (Codec.list c).RoundTrips := by
  intro l rest
  show (match varintUnser ((varintSer l.length ++ serMany c l) ++ rest) with
     | none => none
     | some (k, s1) => unserMany c k s1) = some (l, rest)
  rw [List.append_assoc]
  have h := varint_roundTrips l.length (serMany c l ++ rest)
  have h2 : varintUnser (varintSer l.length ++ (serMany c l ++ rest))
      = some (l.length, serMany c l ++ rest) := h
  rw [h2]
  exact many_roundTrips c hc l rest

theorem int_roundTrips : Codec.int.RoundTrips :=
  via_roundTrips _ _ _ varint_roundTrips (fun i => Equiv.intEquivNat.symm_apply_apply i)

theorem bool_roundTrips : Codec.bool.RoundTrips :=
  via_roundTrips _ _ _ varint_roundTrips (fun b => by cases b <;> rfl)

theorem string_roundTrips : Codec.string.RoundTrips :=
  via_roundTrips _ _ _ (list_roundTrips _ varint_roundTrips) (fun s => by
    cases s with
    | mk l =>
      congr 1
      induction l with
      | nil => rfl
      | cons a l ih => simp_all [Char.ofNat_toNat])

theorem outPoint_roundTrips : Codec.outPoint.RoundTrips :=
  via_roundTrips _ _ _ (pair_roundTrips _ _ varint_roundTrips varint_roundTrips) (fun _ => rfl)

theorem cacheData_roundTrips : Codec.cacheData.RoundTrips := by
  refine via_roundTrips _ _ _ ?_ (fun _ => rfl)
  have hn := list_roundTrips _ varint_roundTrips
  have hi := int_roundTrips
  exact pair_roundTrips _ _ bool_roundTrips (pair_roundTrips _ _ outPoint_roundTrips
    (pair_roundTrips _ _ hn (pair_roundTrips _ _ hn (pair_roundTrips _ _ string_roundTrips
      (pair_roundTrips _ _ hi (pair_roundTrips _ _ hi (pair_roundTrips _ _ hi
        (pair_roundTrips _ _ hi (pair_roundTrips _ _ hi hi)))))))))

theorem reference_vecData_roundTrips : referenceSerializers.vecData.RoundTrips :=
  list_roundTrips _ cacheData_roundTrips

theorem reference_mapInt_roundTrips : referenceSerializers.mapInt.RoundTrips :=
  list_roundTrips _ (pair_roundTrips _ _ outPoint_roundTrips int_roundTrips)

theorem reference_mapString_roundTrips : referenceSerializers.mapString.RoundTrips :=
  list_roundTrips _ (pair_roundTrips _ _ outPoint_roundTrips string_roundTrips)

/-- A codec that round-trips on a type with two different values never writes
the empty byte string: otherwise every stream would decode to one value. -/
theorem ser_ne_nil_of_roundTrips {α : Type} (c : Codec α) (hc : c.RoundTrips)
    (a b : α) (hab : a ≠ b) : c.ser a ≠ [] := by
  intro h
  have h1 := hc a (c.ser b)
  have h2 := hc b []
  rw [h, List.nil_append] at h1
  rw [List.append_nil, h1] at h2
  simp only [Option.some.injEq, Prod.mk.injEq] at h2
  exact hab h2.1

/-! ## The undo record on the wire (undo.h) -/

/-- Claim C1. Decoding the legacy byte string of a record `u` (the encodings of
its four original members, nothing after them) into a freshly constructed
`CZelnodeTxBlockUndo` succeeds, consumes everything, reproduces the four
members and leaves `mapLastIpAddress` empty. -/
theorem legacy_stream_decodes (c : Serializers) (hv : c.vecData.RoundTrips)
    (hm : c.mapInt.RoundTrips) (u : CZelnodeTxBlockUndo) :
    CZelnodeTxBlockUndo.Unserialize c (legacyEncoding c u) CZelnodeTxBlockUndo.new =
      some ({ vecExpiredDosData := u.vecExpiredDosData,
              vecExpiredConfirmedData := u.vecExpiredConfirmedData,
              mapUpdateLastConfirmHeight := u.mapUpdateLastConfirmHeight,
              mapLastPaidHeights := u.mapLastPaidHeights,
              mapLastIpAddress := [] }, []) := by
  have h4 := hm u.mapLastPaidHeights []
  rw [List.append_nil] at h4
  unfold CZelnodeTxBlockUndo.Unserialize legacyEncoding
  simp only [List.append_assoc]
  rw [hv]
  simp only
  rw [hv]
  simp only
  rw [hm]
  simp only
  rw [h4]
  rfl

/-- Claim C1, at a concrete record with the reference codecs. -/
theorem legacy_stream_decodes_witness :
    CZelnodeTxBlockUndo.Unserialize referenceSerializers
      (legacyEncoding referenceSerializers
        { vecExpiredDosData := [{ isNull := false, ip := "10.0.0.1", nTier := 1 }],
          mapUpdateLastConfirmHeight := [(⟨7, 0⟩, 100)],
          mapLastPaidHeights := [(⟨9, 1⟩, 90)],
          mapLastIpAddress := [(⟨7, 0⟩, "10.0.0.2")] })
      CZelnodeTxBlockUndo.new =
      some ({ vecExpiredDosData := [{ isNull := false, ip := "10.0.0.1", nTier := 1 }],
              vecExpiredConfirmedData := [],
              mapUpdateLastConfirmHeight := [(⟨7, 0⟩, 100)],
              mapLastPaidHeights := [(⟨9, 1⟩, 90)],
              mapLastIpAddress := [] }, []) :=
  legacy_stream_decodes referenceSerializers reference_vecData_roundTrips
    reference_mapInt_roundTrips _

/-- Claim C2. The encoder writes the five members in declaration order, the
bytes of `mapLastIpAddress` are never empty (also for an empty map), and so
the encoding of a record never equals its legacy four-member encoding. -/
theorem encoder_always_emits_ip (c : Serializers) (hs : c.mapString.RoundTrips)
    (s : Stream) (u : CZelnodeTxBlockUndo) :
    CZelnodeTxBlockUndo.Serialize c s u =
        s ++ c.vecData.ser u.vecExpiredDosData ++ c.vecData.ser u.vecExpiredConfirmedData ++
          c.mapInt.ser u.mapUpdateLastConfirmHeight ++ c.mapInt.ser u.mapLastPaidHeights ++
          c.mapString.ser u.mapLastIpAddress ∧
      c.mapString.ser u.mapLastIpAddress ≠ [] ∧
      c.mapString.ser ([] : StdMap COutPoint String) ≠ [] ∧
      CZelnodeTxBlockUndo.Serialize c [] u ≠ legacyEncoding c u := by
  have hne : ∀ m : StdMap COutPoint String, c.mapString.ser m ≠ [] := by
    intro m
    cases m with
    | nil => exact ser_ne_nil_of_roundTrips _ hs [] [(⟨0, 0⟩, "")] (by simp)
    | cons x m => exact ser_ne_nil_of_roundTrips _ hs (x :: m) [] (by simp)
  refine ⟨rfl, hne _, hne _, ?_⟩
  intro h
  unfold CZelnodeTxBlockUndo.Serialize ReadWriteExtraZelnodeUndoBlockData_write
    legacyEncoding at h
  simp only [List.nil_append] at h
  exact hne _ (List.append_right_eq_self.mp h)

/-- Claim C2, at the all-empty record with the reference codecs. -/
theorem encoder_always_emits_ip_witness :
    referenceSerializers.mapString.ser ([] : StdMap COutPoint String) ≠ [] ∧
      CZelnodeTxBlockUndo.Serialize referenceSerializers [] CZelnodeTxBlockUndo.new ≠
        legacyEncoding referenceSerializers CZelnodeTxBlockUndo.new :=
  have h := encoder_always_emits_ip referenceSerializers reference_mapString_roundTrips []
    CZelnodeTxBlockUndo.new
  ⟨h.2.2.1, h.2.2.2⟩

/-! ## Maps and sets -/

variable {Cache DB : Type}

theorem find_place_self {V : Type} (k : COutPoint) (v : V) (m : StdMap COutPoint V)
    (h : StdMap.find k m = none) : StdMap.find k (StdMap.place k v m) = some v := by
  induction m with
  | nil => simp [StdMap.place, StdMap.find]
  | cons p rest ih =>
    obtain ⟨k1, v1⟩ := p
    simp only [StdMap.find] at h
    by_cases hk : k = k1
    · simp [hk] at h
    · simp only [hk, if_false] at h
      simp only [StdMap.place]
      split
      · simp [StdMap.find]
      · simp [StdMap.find, hk, ih h]

theorem find_place_ne {V : Type} (k k2 : COutPoint) (v : V) (m : StdMap COutPoint V)
    (h : k2 ≠ k) : StdMap.find k2 (StdMap.place k v m) = StdMap.find k2 m := by
  induction m with
  | nil => simp [StdMap.place, StdMap.find, h]
  | cons p rest ih =>
    obtain ⟨k1, v1⟩ := p
    simp only [StdMap.place]
    split
    · simp [StdMap.find, h]
    · simp [StdMap.find, ih]

theorem find_insert_self {V : Type} (k : COutPoint) (v : V) (m : StdMap COutPoint V) :
    StdMap.find k (StdMap.insert k v m) = some ((StdMap.find k m).getD v) := by
  unfold StdMap.insert
  cases h : StdMap.find k m with
  | none => simp [find_place_self k v m h]
  | some w => simp [h]

theorem find_insert_ne {V : Type} (k k2 : COutPoint) (v : V) (m : StdMap COutPoint V)
    (h : k2 ≠ k) : StdMap.find k2 (StdMap.insert k v m) = StdMap.find k2 m := by
  unfold StdMap.insert
  cases StdMap.find k m with
  | none => exact find_place_ne k k2 v m h
  | some w => rfl

theorem mem_set_place (k x : COutPoint) (s : StdSet) :
    x ∈ StdSet.place k s ↔ x = k ∨ x ∈ s := by
  induction s with
  | nil => simp [StdSet.place]
  | cons a rest ih =>
    simp only [StdSet.place]
    split
    · simp
    · simp only [List.mem_cons, ih]
      tauto

theorem mem_set_insert (k x : COutPoint) (s : StdSet) :
    x ∈ StdSet.insert k s ↔ x = k ∨ x ∈ s := by
  unfold StdSet.insert
  split
  · constructor
    · intro h; exact Or.inr h
    · rintro (h | h)
      · subst h; assumption
      · exact h
  · exact mem_set_place k x s

theorem mem_insertPrevouts (vin : List CTxIn) (s : StdSet) (x : COutPoint) :
    x ∈ insertPrevouts vin s ↔ x ∈ s ∨ ∃ input ∈ vin, input.prevout = x := by
  unfold insertPrevouts
  induction vin generalizing s with
  | nil => simp
  | cons a rest ih =>
    simp only [List.foldl_cons, ih, mem_set_insert, List.mem_cons, exists_eq_or_imp]
    constructor
    · rintro ((h | h) | h)
      · exact Or.inr (Or.inl h.symm)
      · exact Or.inl h
      · exact Or.inr (Or.inr h)
    · rintro (h | h | h)
      · exact Or.inl (Or.inr h)
      · exact Or.inl (Or.inl h.symm)
      · exact Or.inr h

/-! ## The scan of the transactions of a block -/

/-- What every transaction step leaves alone, and the calls it adds. -/
theorem scanTx_frame (env : Env Cache DB) (h : Int) (st : State Cache DB) (tx : CTransaction) :
    (scanTx env h st tx).state.g_zelnodeCache = st.g_zelnodeCache ∧
    (scanTx env h st tx).state.pZelnodeDB = st.pZelnodeDB ∧
    (scanTx env h st tx).state.nPrintTrigger = st.nPrintTrigger ∧
    ∃ l, (scanTx env h st tx).state.calls = st.calls ++ l ∧
      ∀ c ∈ l, c.isScan = true ∧
        ∀ tx0, c.isAddFor tx0 = true → tx0 = tx ∧ tx.isZelnodeTx = true ∧ classifies env h tx = true := by
  unfold scanTx classifies
  cases hz : tx.isZelnodeTx
  · refine ⟨?_, ?_, ?_, [], ?_, ?_⟩ <;> simp <;> split <;> simp [Step.state]
  · simp only [Bool.not_true, Bool.and_false, Bool.false_eq_true, if_false, if_true]
    cases hg : env.GetTransaction tx.collateralOut.hash with
    | none =>
      refine ⟨rfl, rfl, rfl, [Call.GetTransaction tx.collateralOut.hash], rfl, ?_⟩
      simp [Call.isScan, Call.isAddFor]
    | some get_tx =>
      simp only
      cases ho : get_tx.vout.get? tx.collateralOut.n with
      | none =>
        refine ⟨rfl, rfl, rfl, [Call.GetTransaction tx.collateralOut.hash], rfl, ?_⟩
        simp [Call.isScan, Call.isAddFor]
      | some txout =>
        simp only
        cases ht : env.GetCoinTierFromAmount h txout.nValue with
        | none =>
          refine ⟨rfl, rfl, rfl, [Call.GetTransaction tx.collateralOut.hash,
            Call.GetCoinTierFromAmount h txout.nValue], ?_, ?_⟩
          · simp [Step.state, State.call]
          · simp [Call.isScan, Call.isAddFor]
        | some nTier =>
          simp only
          cases tx.nType with
          | ZELNODE_START_TX_TYPE =>
            refine ⟨rfl, rfl, rfl, [Call.GetTransaction tx.collateralOut.hash,
              Call.GetCoinTierFromAmount h txout.nValue,
              Call.AddNewStart tx h nTier txout.nValue], ?_, ?_⟩
            · simp [Step.state, State.call]
            · simp [Call.isScan, Call.isAddFor]
          | other =>
            refine ⟨rfl, rfl, rfl, [Call.GetTransaction tx.collateralOut.hash,
              Call.GetCoinTierFromAmount h txout.nValue], ?_, ?_⟩
            · simp [Step.state, State.call]
            · simp [Call.isScan, Call.isAddFor]
          | ZELNODE_CONFIRM_TX_TYPE =>
            simp only
            cases tx.nUpdateType with
            | INITIAL_CONFIRM =>
              refine ⟨rfl, rfl, rfl, [Call.GetTransaction tx.collateralOut.hash,
                Call.GetCoinTierFromAmount h txout.nValue,
                Call.AddNewConfirm tx h], ?_, ?_⟩
              · simp [Step.state, State.call]
              · simp [Call.isScan, Call.isAddFor]
            | other =>
              refine ⟨rfl, rfl, rfl, [Call.GetTransaction tx.collateralOut.hash,
                Call.GetCoinTierFromAmount h txout.nValue], ?_, ?_⟩
              · simp [Step.state, State.call]
              · simp [Call.isScan, Call.isAddFor]
            | UPDATE_CONFIRM =>
              simp only
              split
              · refine ⟨rfl, rfl, rfl, [Call.GetTransaction tx.collateralOut.hash,
                  Call.GetCoinTierFromAmount h txout.nValue,
                  Call.AddUpdateConfirm tx h, Call.GetZelnodeData tx.collateralOut], ?_, ?_⟩
                · simp [Step.state, State.call]
                · simp [Call.isScan, Call.isAddFor]
              · refine ⟨rfl, rfl, rfl, [Call.GetTransaction tx.collateralOut.hash,
                  Call.GetCoinTierFromAmount h txout.nValue,
                  Call.AddUpdateConfirm tx h, Call.GetZelnodeData tx.collateralOut], ?_, ?_⟩
                · simp [Step.state, State.call]
                · simp [Call.isScan, Call.isAddFor]


theorem scanTxs_append (env : Env Cache DB) (h : Int) (st : State Cache DB)
    (pre post : List CTransaction) :
    scanTxs env h st (pre ++ post) =
      match scanTxs env h st pre with
      | Step.ok st1 => scanTxs env h st1 post
      | Step.stop why st1 => Step.stop why st1 := by
  induction pre generalizing st with
  | nil => rfl
  | cons tx rest ih =>
    simp only [List.cons_append, scanTxs]
    cases scanTx env h st tx with
    | ok st1 => exact ih st1
    | stop why st1 => rfl

theorem scanTxs_frame (env : Env Cache DB) (h : Int) (txs : List CTransaction)
    (st : State Cache DB) :
    (scanTxs env h st txs).state.g_zelnodeCache = st.g_zelnodeCache ∧
    (scanTxs env h st txs).state.pZelnodeDB = st.pZelnodeDB ∧
    (scanTxs env h st txs).state.nPrintTrigger = st.nPrintTrigger ∧
    ∃ l, (scanTxs env h st txs).state.calls = st.calls ++ l ∧
      ∀ c ∈ l, c.isScan = true ∧
        ∀ tx0, c.isAddFor tx0 = true →
          tx0 ∈ txs ∧ tx0.isZelnodeTx = true ∧ classifies env h tx0 = true := by
  induction txs generalizing st with
  | nil => exact ⟨rfl, rfl, rfl, [], by simp [scanTxs, Step.state], by simp⟩
  | cons tx rest ih =>
    obtain ⟨hg, hd, hp, l, hl, hc⟩ := scanTx_frame env h st tx
    simp only [scanTxs]
    cases hs : scanTx env h st tx with
    | stop why st1 =>
      rw [hs] at hg hd hp hl
      refine ⟨hg, hd, hp, l, hl, ?_⟩
      intro c hcl
      refine ⟨(hc c hcl).1, ?_⟩
      intro tx0 h0
      obtain ⟨e, hz, hk⟩ := (hc c hcl).2 tx0 h0
      subst e
      exact ⟨List.mem_cons_self _ _, hz, hk⟩
    | ok st1 =>
      rw [hs] at hg hd hp hl
      simp only [Step.state] at hg hd hp hl
      obtain ⟨hg2, hd2, hp2, l2, hl2, hc2⟩ := ih st1
      refine ⟨hg2.trans hg, hd2.trans hd, hp2.trans hp, l ++ l2, ?_, ?_⟩
      · rw [hl2, hl, List.append_assoc]
      · intro c hcl
        rcases List.mem_append.mp hcl with hcl | hcl
        · refine ⟨(hc c hcl).1, ?_⟩
          intro tx0 h0
          obtain ⟨e, hz, hk⟩ := (hc c hcl).2 tx0 h0
          subst e
          exact ⟨List.mem_cons_self _ _, hz, hk⟩
        · refine ⟨(hc2 c hcl).1, ?_⟩
          intro tx0 h0
          obtain ⟨e, hz, hk⟩ := (hc2 c hcl).2 tx0 h0
          exact ⟨List.mem_cons_of_mem _ e, hz, hk⟩

/-- A node transaction whose collateral lookups fail stops the scan. -/
theorem scanTx_unclassified (env : Env Cache DB) (h : Int) (st : State Cache DB)
    (tx : CTransaction) (hz : tx.isZelnodeTx = true) (hk : classifies env h tx = false) :
    (scanTx env h st tx).isOk = false := by
  unfold classifies at hk
  unfold scanTx
  simp only [hz, Bool.not_true, Bool.and_false, Bool.false_eq_true, if_false, if_true]
  cases hg : env.GetTransaction tx.collateralOut.hash with
  | none => rfl
  | some get_tx =>
    rw [hg] at hk
    simp only at hk ⊢
    cases ho : get_tx.vout.get? tx.collateralOut.n with
    | none => rfl
    | some txout =>
      rw [ho] at hk
      simp only at hk ⊢
      cases ht : env.GetCoinTierFromAmount h txout.nValue with
      | none => rfl
      | some nTier => rw [ht] at hk; simp at hk

theorem scanTx_missing (env : Env Cache DB) (h : Int) (st : State Cache DB)
    (tx : CTransaction) (hz : tx.isZelnodeTx = true)
    (hg : env.GetTransaction tx.collateralOut.hash = none) :
    scanTx env h st tx =
      Step.stop (Stop.error (RebuildError.failedToFindTx tx.collateralOut))
        (st.call (Call.GetTransaction tx.collateralOut.hash)) := by
  unfold scanTx
  simp only [hz, Bool.not_true, Bool.and_false, Bool.false_eq_true, if_false, if_true, hg]

theorem scanTx_noTier (env : Env Cache DB) (h : Int) (st : State Cache DB)
    (tx get_tx : CTransaction) (txout : CTxOut) (hz : tx.isZelnodeTx = true)
    (hg : env.GetTransaction tx.collateralOut.hash = some get_tx)
    (ho : get_tx.vout.get? tx.collateralOut.n = some txout)
    (ht : env.GetCoinTierFromAmount h txout.nValue = none) :
    scanTx env h st tx =
      Step.stop (Stop.error (RebuildError.failedToGetTier tx.collateralOut))
        ((st.call (Call.GetTransaction tx.collateralOut.hash)).call
          (Call.GetCoinTierFromAmount h txout.nValue)) := by
  unfold scanTx
  simp only [hz, Bool.not_true, Bool.and_false, Bool.false_eq_true, if_false, if_true, hg, ho, ht]

theorem scanTxs_stop_at (env : Env Cache DB) (h : Int) (st : State Cache DB)
    (pre post : List CTransaction) (tx : CTransaction)
    (hbad : ∀ s, (scanTx env h s tx).isOk = false) :
    (scanTxs env h st (pre ++ tx :: post)).isOk = false ∧
      scanTxs env h st (pre ++ tx :: post) = scanTxs env h st (pre ++ [tx]) := by
  rw [scanTxs_append, scanTxs_append]
  cases scanTxs env h st pre with
  | stop why st1 => exact ⟨rfl, rfl⟩
  | ok st1 =>
    simp only [scanTxs]
    have hb := hbad st1
    cases hs : scanTx env h st1 tx with
    | ok st2 => rw [hs] at hb; simp [Step.isOk] at hb
    | stop why st2 => exact ⟨rfl, rfl⟩

theorem addPaidNode_frame (env : Env Cache DB) (h : Int) (st : State Cache DB) (t : Int) :
    (addPaidNode env h st t).g_zelnodeCache = st.g_zelnodeCache ∧
    (addPaidNode env h st t).pZelnodeDB = st.pZelnodeDB ∧
    (addPaidNode env h st t).nPrintTrigger = st.nPrintTrigger ∧
    (addPaidNode env h st t).setSpentOutPoints = st.setSpentOutPoints ∧
    (addPaidNode env h st t).zelnodeTxBlockUndo = st.zelnodeTxBlockUndo ∧
    (addPaidNode env h st t).calls = st.calls ++ paymentCalls env st.g_zelnodeCache h t := by
  unfold addPaidNode paymentCalls
  simp only [State.call]
  cases env.GetNextPayment st.g_zelnodeCache t <;> simp

theorem addPaidNode_foldl (env : Env Cache DB) (h : Int) (ts : List Int) (st : State Cache DB) :
    (ts.foldl (addPaidNode env h) st).g_zelnodeCache = st.g_zelnodeCache ∧
    (ts.foldl (addPaidNode env h) st).pZelnodeDB = st.pZelnodeDB ∧
    (ts.foldl (addPaidNode env h) st).nPrintTrigger = st.nPrintTrigger ∧
    (ts.foldl (addPaidNode env h) st).setSpentOutPoints = st.setSpentOutPoints ∧
    (ts.foldl (addPaidNode env h) st).zelnodeTxBlockUndo = st.zelnodeTxBlockUndo ∧
    (ts.foldl (addPaidNode env h) st).calls =
      st.calls ++ ts.flatMap (paymentCalls env st.g_zelnodeCache h) := by
  induction ts generalizing st with
  | nil => simp
  | cons t rest ih =>
    obtain ⟨a1, a2, a3, a4, a5, a6⟩ := addPaidNode_frame env h st t
    obtain ⟨b1, b2, b3, b4, b5, b6⟩ := ih (addPaidNode env h st t)
    simp only [List.foldl_cons, List.flatMap_cons]
    refine ⟨b1.trans a1, b2.trans a2, b3.trans a3, b4.trans a4, b5.trans a5, ?_⟩
    rw [b6, a6, a1, List.append_assoc]

theorem addPaidNodes_frame (env : Env Cache DB) (h : Int) (st : State Cache DB) :
    (addPaidNodes env h st).g_zelnodeCache = st.g_zelnodeCache ∧
    (addPaidNodes env h st).pZelnodeDB = st.pZelnodeDB ∧
    (addPaidNodes env h st).nPrintTrigger = st.nPrintTrigger ∧
    (addPaidNodes env h st).setSpentOutPoints = st.setSpentOutPoints ∧
    (addPaidNodes env h st).zelnodeTxBlockUndo = st.zelnodeTxBlockUndo ∧
    (addPaidNodes env h st).calls = st.calls ++ paidCalls env st.g_zelnodeCache h := by
  unfold addPaidNodes paidCalls
  split
  · exact addPaidNode_foldl env h _ st
  · simp

theorem scanTx_spent (env : Env Cache DB) (h : Int) (st st1 : State Cache DB)
    (tx : CTransaction) (hs : scanTx env h st tx = Step.ok st1) (o : COutPoint) :
    o ∈ st1.setSpentOutPoints ↔ o ∈ st.setSpentOutPoints ∨ spentInBlock [tx] o := by
  have key : st1.setSpentOutPoints =
      if !tx.isCoinBase && !tx.isZelnodeTx then insertPrevouts tx.vin st.setSpentOutPoints
      else st.setSpentOutPoints := by
    unfold scanTx at hs
    cases hz : tx.isZelnodeTx
    · simp only [hz, Bool.not_false, Bool.and_true, Bool.false_eq_true, if_false] at hs ⊢
      split at hs
      all_goals
        injection hs with hs
        subst hs
        simp_all
    · simp only [hz, Bool.not_true, Bool.and_false, Bool.false_eq_true, if_false, if_true] at hs ⊢
      split at hs
      · cases hs
      · split at hs
        · cases hs
        · split at hs
          · cases hs
          · split at hs
            · injection hs with hs; subst hs; rfl
            · split at hs
              · injection hs with hs; subst hs; rfl
              · split at hs
                · cases hs
                · injection hs with hs; subst hs; rfl
              · injection hs with hs; subst hs; rfl
            · injection hs with hs; subst hs; rfl
  rw [key]
  unfold spentInBlock
  cases hc : tx.isCoinBase <;> cases hz : tx.isZelnodeTx <;>
    simp [mem_insertPrevouts, hc, hz]

/-! ## The steps of a block -/

theorem spentInBlock_cons (tx : CTransaction) (rest : List CTransaction) (o : COutPoint) :
    spentInBlock (tx :: rest) o ↔ spentInBlock [tx] o ∨ spentInBlock rest o := by
  unfold spentInBlock
  simp only [List.mem_cons, List.mem_singleton, exists_eq_or_imp, List.not_mem_nil, false_and,
    exists_false, or_false, exists_eq_left]

theorem scanTxs_spent (env : Env Cache DB) (h : Int) (txs : List CTransaction)
    (st st2 : State Cache DB) (hs : scanTxs env h st txs = Step.ok st2) (o : COutPoint) :
    o ∈ st2.setSpentOutPoints ↔ o ∈ st.setSpentOutPoints ∨ spentInBlock txs o := by
  induction txs generalizing st with
  | nil =>
    simp only [scanTxs] at hs
    injection hs with hs
    subst hs
    simp [spentInBlock]
  | cons tx rest ih =>
    simp only [scanTxs] at hs
    cases h1 : scanTx env h st tx with
    | stop why st1 => rw [h1] at hs; cases hs
    | ok st1 =>
      rw [h1] at hs
      simp only at hs
      rw [ih st1 hs, scanTx_spent env h st st1 tx h1 o, spentInBlock_cons tx rest, or_assoc]

/-- The calls and the frame of lines 187-199. -/
theorem collectUndoData_frame (env : Env Cache DB) (h : Int) (st : State Cache DB) :
    (collectUndoData env h st).g_zelnodeCache = st.g_zelnodeCache ∧
    (collectUndoData env h st).pZelnodeDB = st.pZelnodeDB ∧
    (collectUndoData env h st).setSpentOutPoints = st.setSpentOutPoints ∧
    ∃ u1 u2, (collectUndoData env h st).calls = st.calls ++
      [Call.GetUndoDataForExpiredZelnodeDosScores h, Call.AddExpiredDosTx u1 h,
       Call.GetUndoDataForExpiredConfirmZelnodes h st.setSpentOutPoints,
       Call.AddExpiredConfirmTx u2, Call.GetUndoDataForPaidZelnodes,
       Call.CheckForExpiredStartTx h] :=
  ⟨rfl, rfl, rfl, _, _, rfl⟩

theorem collectUndoData_maps (env : Env Cache DB) (hk : env.KeepsConfirmMaps) (h : Int)
    (st : State Cache DB) :
    (collectUndoData env h st).zelnodeTxBlockUndo.mapUpdateLastConfirmHeight =
        st.zelnodeTxBlockUndo.mapUpdateLastConfirmHeight ∧
      (collectUndoData env h st).zelnodeTxBlockUndo.mapLastIpAddress =
        st.zelnodeTxBlockUndo.mapLastIpAddress := by
  obtain ⟨h1, h2, h3⟩ := hk
  unfold collectUndoData
  simp only
  constructor
  · rw [(h3 _ _ _).1, (h2 _ _ _ _).1, (h1 _ _ _).1]
  · rw [(h3 _ _ _).2, (h2 _ _ _ _).2, (h1 _ _ _).2]

theorem writeUndo_frame (env : Env Cache DB) (bh : Nat) (st : State Cache DB) :
    (writeUndo env bh st).state.g_zelnodeCache = st.g_zelnodeCache ∧
    (writeUndo env bh st).state.zelnodeTxBlockUndo = st.zelnodeTxBlockUndo ∧
    (writeUndo env bh st).state.zelnodeCache = st.zelnodeCache ∧
    (writeUndo env bh st).state.calls = st.calls ++
      (if hasUndoData st.zelnodeTxBlockUndo then
        [Call.WriteBlockUndoZelnodeData bh st.zelnodeTxBlockUndo] else []) := by
  unfold writeUndo
  split
  · simp only
    split <;> simp [Step.state]
  · simp [Step.state]

theorem flushBlock_frame (env : Env Cache DB) (st : State Cache DB) :
    (flushBlock env st).state.pZelnodeDB = st.pZelnodeDB ∧
    (flushBlock env st).state.zelnodeTxBlockUndo = st.zelnodeTxBlockUndo ∧
    (flushBlock env st).state.calls = st.calls ++ [Call.Flush] := by
  unfold flushBlock
  simp only
  split <;> simp [Step.state]

/-- When the scan stops, the block stops there. -/
theorem processBlock_scan_stop (env : Env Cache DB) (st : State Cache DB) (h : Int)
    (block : CBlock) (why : Stop) (st2 : State Cache DB)
    (hs : scanTxs env h (addPaidNodes env h (beginBlock env st)) block.vtx = Step.stop why st2) :
    processBlock env st h block = Step.stop why st2 := by
  unfold processBlock
  simp only [hs]

/-- When the scan goes through, the block continues with lines 187-213. -/
theorem processBlock_scan_ok (env : Env Cache DB) (st : State Cache DB) (h : Int)
    (block : CBlock) (st2 : State Cache DB)
    (hs : scanTxs env h (addPaidNodes env h (beginBlock env st)) block.vtx = Step.ok st2) :
    processBlock env st h block =
      match writeUndo env block.hash (collectUndoData env h st2) with
      | Step.stop why st3 => Step.stop why st3
      | Step.ok st3 => flushBlock env st3 := by
  unfold processBlock
  simp only []
  rw [hs]

theorem processBlock_not_ok_of_scan (env : Env Cache DB) (st : State Cache DB) (h : Int)
    (block : CBlock)
    (hs : (scanTxs env h (addPaidNodes env h (beginBlock env st)) block.vtx).isOk = false) :
    processBlock env st h block =
      scanTxs env h (addPaidNodes env h (beginBlock env st)) block.vtx := by
  cases h1 : scanTxs env h (addPaidNodes env h (beginBlock env st)) block.vtx with
  | ok st2 => rw [h1] at hs; simp [Step.isOk] at hs
  | stop why st2 => exact processBlock_scan_stop env st h block why st2 h1

theorem beginBlock_frame (env : Env Cache DB) (st : State Cache DB) :
    (beginBlock env st).g_zelnodeCache = st.g_zelnodeCache ∧
    (beginBlock env st).pZelnodeDB = st.pZelnodeDB ∧
    (beginBlock env st).setSpentOutPoints = [] ∧
    (beginBlock env st).zelnodeTxBlockUndo = CZelnodeTxBlockUndo.new ∧
    (beginBlock env st).calls = st.calls :=
  ⟨rfl, rfl, rfl, rfl, rfl⟩

/-- The state in which the scan of a block starts. -/
theorem scanStart_frame (env : Env Cache DB) (h : Int) (st : State Cache DB) :
    (addPaidNodes env h (beginBlock env st)).g_zelnodeCache = st.g_zelnodeCache ∧
    (addPaidNodes env h (beginBlock env st)).pZelnodeDB = st.pZelnodeDB ∧
    (addPaidNodes env h (beginBlock env st)).setSpentOutPoints = [] ∧
    (addPaidNodes env h (beginBlock env st)).zelnodeTxBlockUndo = CZelnodeTxBlockUndo.new ∧
    (addPaidNodes env h (beginBlock env st)).calls =
      st.calls ++ paidCalls env st.g_zelnodeCache h := by
  obtain ⟨a1, a2, _, a4, a5, a6⟩ := addPaidNodes_frame env h (beginBlock env st)
  exact ⟨a1, a2, a4, a5, a6⟩

/-- What is known of the calls after the scan. -/
theorem tail_props (h : Int) (vtx : List CTransaction) (u1 u2 : CZelnodeTxBlockUndo)
    (S0 : StdSet) (hsp : ∀ o, o ∈ S0 ↔ spentInBlock vtx o) :
    ∀ (wl : List Call), (∀ c ∈ wl, c = Call.Flush ∨ c.isWriteUndo = true) →
        (∀ c ∈ [Call.GetUndoDataForExpiredZelnodeDosScores h, Call.AddExpiredDosTx u1 h,
          Call.GetUndoDataForExpiredConfirmZelnodes h S0,
          Call.AddExpiredConfirmTx u2, Call.GetUndoDataForPaidZelnodes,
          Call.CheckForExpiredStartTx h] ++ wl, c.isTail = true) ∧
        (∀ h1 S, Call.GetUndoDataForExpiredConfirmZelnodes h1 S ∈
          [Call.GetUndoDataForExpiredZelnodeDosScores h, Call.AddExpiredDosTx u1 h,
          Call.GetUndoDataForExpiredConfirmZelnodes h S0,
          Call.AddExpiredConfirmTx u2, Call.GetUndoDataForPaidZelnodes,
          Call.CheckForExpiredStartTx h] ++ wl →
          h1 = h ∧ ∀ o, o ∈ S ↔ spentInBlock vtx o) ∧
        (∃ S, Call.GetUndoDataForExpiredConfirmZelnodes h S ∈
          [Call.GetUndoDataForExpiredZelnodeDosScores h, Call.AddExpiredDosTx u1 h,
          Call.GetUndoDataForExpiredConfirmZelnodes h S0,
          Call.AddExpiredConfirmTx u2, Call.GetUndoDataForPaidZelnodes,
          Call.CheckForExpiredStartTx h] ++ wl) := by
  intro wl hwl
  refine ⟨?_, ?_, ⟨S0, by simp⟩⟩
  · intro c hc
    rcases List.mem_append.mp hc with hc | hc
    · simp only [List.mem_cons, List.mem_singleton, List.not_mem_nil, or_false] at hc
      rcases hc with e | e | e | e | e | e <;> subst e <;> rfl
    · rcases hwl c hc with e | e
      · subst e; rfl
      · cases c <;> simp_all [Call.isWriteUndo, Call.isTail]
  · intro h1 S hm
    rcases List.mem_append.mp hm with hm | hm
    · simp only [List.mem_cons, List.mem_singleton, List.not_mem_nil, or_false,
        reduceCtorEq, false_or, Call.GetUndoDataForExpiredConfirmZelnodes.injEq] at hm
      obtain ⟨e1, e2⟩ := hm
      subst e1 e2
      exact ⟨rfl, hsp⟩
    · rcases hwl _ hm with e | e
      · cases e
      · simp [Call.isWriteUndo] at e

theorem write_calls_kind (bh : Nat) (u : CZelnodeTxBlockUndo) (b : Bool) :
    ∀ c ∈ (if b = true then [Call.WriteBlockUndoZelnodeData bh u] else []),
      c = Call.Flush ∨ c.isWriteUndo = true := by
  intro c hc
  cases b
  · simp at hc
  · simp only [if_true, List.mem_singleton] at hc
    subst hc
    exact Or.inr rfl

theorem write_flush_calls_kind (bh : Nat) (u : CZelnodeTxBlockUndo) (b : Bool) :
    ∀ c ∈ (if b = true then [Call.WriteBlockUndoZelnodeData bh u] else []) ++ [Call.Flush],
      c = Call.Flush ∨ c.isWriteUndo = true := by
  intro c hc
  rcases List.mem_append.mp hc with hc | hc
  · exact write_calls_kind bh u b c hc
  · exact Or.inl (List.mem_singleton.mp hc)

/-- The calls of one block: payment selection, scan, then the calls after the
scan, with what is known of each part. -/
theorem processBlock_calls (env : Env Cache DB) (st : State Cache DB) (h : Int)
    (block : CBlock) :
    ∃ scanL tailL,
      (processBlock env st h block).state.calls =
        st.calls ++ (paidCalls env st.g_zelnodeCache h ++ scanL ++ tailL) ∧
      (∀ c ∈ scanL, c.isScan = true ∧ ∀ tx0, c.isAddFor tx0 = true →
        tx0 ∈ block.vtx ∧ tx0.isZelnodeTx = true ∧ classifies env h tx0 = true) ∧
      (∀ c ∈ tailL, c.isTail = true) ∧
      (∀ h1 S, Call.GetUndoDataForExpiredConfirmZelnodes h1 S ∈ tailL →
        h1 = h ∧ ∀ o, o ∈ S ↔ spentInBlock block.vtx o) ∧
      ((processBlock env st h block).isOk = true →
        ∃ S, Call.GetUndoDataForExpiredConfirmZelnodes h S ∈ tailL) ∧
      ((scanTxs env h (addPaidNodes env h (beginBlock env st)) block.vtx).isOk = false →
        tailL = []) := by
  obtain ⟨_, _, b3, _, b5⟩ := scanStart_frame env h st
  obtain ⟨_, _, _, l, hl, hc⟩ :=
    scanTxs_frame env h block.vtx (addPaidNodes env h (beginBlock env st))
  cases hs : scanTxs env h (addPaidNodes env h (beginBlock env st)) block.vtx with
  | stop why st2 =>
    rw [processBlock_scan_stop env st h block why st2 hs]
    rw [hs] at hl
    refine ⟨l, [], ?_, hc, by simp, by simp, by simp [Step.isOk], fun _ => rfl⟩
    rw [hl, b5]
    simp
  | ok st2 =>
    rw [processBlock_scan_ok env st h block st2 hs]
    rw [hs] at hl
    simp only [Step.state] at hl
    have hsp : ∀ o, o ∈ st2.setSpentOutPoints ↔ spentInBlock block.vtx o := by
      intro o
      rw [scanTxs_spent env h block.vtx _ st2 hs o, b3]
      simp
    obtain ⟨_, _, c3, u1, u2, c4⟩ := collectUndoData_frame env h st2
    obtain ⟨_, _, _, w4⟩ := writeUndo_frame env block.hash (collectUndoData env h st2)
    have hmem := tail_props h block.vtx u1 u2 st2.setSpentOutPoints hsp
    cases hw : writeUndo env block.hash (collectUndoData env h st2) with
    | stop why st3 =>
      rw [hw] at w4
      simp only [Step.state] at w4 ⊢
      obtain ⟨t1, t2, _⟩ := hmem _ (write_calls_kind block.hash
        (collectUndoData env h st2).zelnodeTxBlockUndo
        (hasUndoData (collectUndoData env h st2).zelnodeTxBlockUndo))
      refine ⟨l, _, ?_, hc, t1, t2, fun hh => Bool.noConfusion hh,
        fun hh => Bool.noConfusion hh⟩
      rw [w4, c4, hl, b5]
      simp only [List.append_assoc]
    | ok st3 =>
      rw [hw] at w4
      simp only [Step.state] at w4
      obtain ⟨_, _, f3⟩ := flushBlock_frame env st3
      obtain ⟨t1, t2, t3⟩ := hmem _ (write_flush_calls_kind block.hash
        (collectUndoData env h st2).zelnodeTxBlockUndo
        (hasUndoData (collectUndoData env h st2).zelnodeTxBlockUndo))
      refine ⟨l, _, ?_, hc, t1, t2, fun _ => t3, fun hh => Bool.noConfusion hh⟩
      show (flushBlock env st3).state.calls = _
      rw [f3, w4, c4, hl, b5]
      simp only [List.append_assoc]

/-! ## Payment selection and the spent set -/

theorem tierRange_sorted (env : Env Cache DB) : (tierRange env).Sorted (· < ·) := by
  unfold tierRange List.Sorted
  rw [List.pairwise_map]
  refine (List.pairwise_lt_range _).imp ?_
  intro a b hab
  omega

theorem mem_tierRange (env : Env Cache DB) (t : Int) :
    t ∈ tierRange env ↔ env.CUMULUS ≤ t ∧ t < env.LAST := by
  unfold tierRange
  simp only [List.mem_map, List.mem_range]
  constructor
  · rintro ⟨i, hi, rfl⟩
    omega
  · intro ⟨h1, h2⟩
    exact ⟨(t - env.CUMULUS).toNat, by omega, by omega⟩

theorem paymentCalls_tiers (env : Env Cache DB) (g : Cache) (h : Int) (ts : List Int) :
    (ts.flatMap (paymentCalls env g h)).filterMap Call.nextPaymentTier = ts := by
  induction ts with
  | nil => rfl
  | cons t rest ih =>
    simp only [List.flatMap_cons, List.filterMap_append, ih]
    unfold paymentCalls
    cases env.GetNextPayment g t <;> simp [Call.nextPaymentTier]

theorem mem_paymentCalls (env : Env Cache DB) (g : Cache) (h : Int) (ts : List Int)
    (t : Int) (o : COutPoint) (h1 : Int) :
    Call.AddPaidNode t o h1 ∈ ts.flatMap (paymentCalls env g h) ↔
      h1 = h ∧ t ∈ ts ∧ env.GetNextPayment g t = some o := by
  simp only [List.mem_flatMap]
  constructor
  · rintro ⟨t1, ht1, hm⟩
    unfold paymentCalls at hm
    cases hg : env.GetNextPayment g t1 with
    | none => rw [hg] at hm; simp at hm
    | some o1 =>
      rw [hg] at hm
      simp only [List.mem_cons, reduceCtorEq, List.mem_singleton, Call.AddPaidNode.injEq,
        List.not_mem_nil, or_false, false_or] at hm
      obtain ⟨e1, e2, e3⟩ := hm
      subst e1 e2 e3
      exact ⟨rfl, ht1, hg⟩
  · rintro ⟨e, ht, hg⟩
    subst e
    refine ⟨t, ht, ?_⟩
    unfold paymentCalls
    rw [hg]
    simp

theorem paymentCalls_filter_other (env : Env Cache DB) (g : Cache) (h : Int) (ts : List Int)
    (t : Int) (ht : t ∉ ts) :
    (ts.flatMap (paymentCalls env g h)).filter (Call.isAddPaidNodeOf t) = [] := by
  induction ts with
  | nil => rfl
  | cons t1 rest ih =>
    simp only [List.mem_cons, not_or] at ht
    simp only [List.flatMap_cons, List.filter_append, ih ht.2, List.append_nil]
    unfold paymentCalls
    have hne : ¬ t1 = t := fun e => ht.1 e.symm
    cases env.GetNextPayment g t1 <;> simp [Call.isAddPaidNodeOf, hne]

theorem paymentCalls_once (env : Env Cache DB) (g : Cache) (h : Int) (ts : List Int)
    (hn : ts.Nodup) (t : Int) :
    ((ts.flatMap (paymentCalls env g h)).filter (Call.isAddPaidNodeOf t)).length ≤ 1 := by
  induction ts with
  | nil => simp
  | cons t1 rest ih =>
    rw [List.nodup_cons] at hn
    simp only [List.flatMap_cons, List.filter_append, List.length_append]
    by_cases e : t1 = t
    · subst e
      rw [paymentCalls_filter_other env g h rest t1 hn.1]
      unfold paymentCalls
      cases env.GetNextPayment g t1 <;> simp [Call.isAddPaidNodeOf]
    · have h0 : (paymentCalls env g h t1).filter (Call.isAddPaidNodeOf t) = [] := by
        unfold paymentCalls
        cases env.GetNextPayment g t1 <;> simp [Call.isAddPaidNodeOf, e]
      rw [h0]
      simpa using ih hn.2

theorem tierRange_nodup (env : Env Cache DB) : (tierRange env).Nodup :=
  (tierRange_sorted env).nodup

/-- Calls of the scan and calls after it are no payment calls. -/
theorem not_payment_of_scan_or_tail (c : Call) (hc : c.isScan = true ∨ c.isTail = true) :
    c.nextPaymentTier = none ∧ (∀ t, c.isAddPaidNodeOf t = false) ∧
      ∀ t o h, c ≠ Call.AddPaidNode t o h := by
  cases c <;> simp_all [Call.isScan, Call.isTail, Call.nextPaymentTier, Call.isAddPaidNodeOf]

/-- The payment calls of a block. Below `StartZelnodePayments` no tier is
asked and `AddPaidNode` is not called. From there on `GetNextPayment` is
asked for the tiers `CUMULUS`, ..., `LAST - 1` in ascending order, on the
global cache as it was before the block; `AddPaidNode` is called for a tier
exactly when that call returned an outpoint, with that outpoint, and at most
once per tier. -/
theorem payment_calls_of_block (env : Env Cache DB) (st : State Cache DB) (nHeight : Int)
    (block : CBlock) :
    ∃ newCalls,
      (processBlock env st nHeight block).state.calls = st.calls ++ newCalls ∧
      (nHeight < env.StartZelnodePayments →
        ∀ c ∈ newCalls, c.nextPaymentTier = none ∧ ∀ t o h, c ≠ Call.AddPaidNode t o h) ∧
      (env.StartZelnodePayments ≤ nHeight →
        newCalls.filterMap Call.nextPaymentTier = tierRange env) ∧
      (tierRange env).Sorted (· < ·) ∧
      (∀ t, t ∈ tierRange env ↔ env.CUMULUS ≤ t ∧ t < env.LAST) ∧
      (∀ t o h, Call.AddPaidNode t o h ∈ newCalls ↔
        env.StartZelnodePayments ≤ nHeight ∧ h = nHeight ∧ t ∈ tierRange env ∧
          env.GetNextPayment st.g_zelnodeCache t = some o) ∧
      (∀ t, (newCalls.filter (Call.isAddPaidNodeOf t)).length ≤ 1) ∧
      (addPaidNodes env nHeight (beginBlock env st)).g_zelnodeCache = st.g_zelnodeCache := by
  obtain ⟨scanL, tailL, h1, h2, h3, _, _, _⟩ := processBlock_calls env st nHeight block
  have hrest : ∀ c ∈ scanL ++ tailL, c.nextPaymentTier = none ∧
      (∀ t, c.isAddPaidNodeOf t = false) ∧ ∀ t o h, c ≠ Call.AddPaidNode t o h := by
    intro c hc
    rcases List.mem_append.mp hc with hc | hc
    · exact not_payment_of_scan_or_tail c (Or.inl (h2 c hc).1)
    · exact not_payment_of_scan_or_tail c (Or.inr (h3 c hc))
  have hfm : (scanL ++ tailL).filterMap Call.nextPaymentTier = [] := by
    rw [List.filterMap_eq_nil_iff]
    intro c hc
    exact (hrest c hc).1
  have hfl : ∀ t, (scanL ++ tailL).filter (Call.isAddPaidNodeOf t) = [] := by
    intro t
    rw [List.filter_eq_nil_iff]
    intro c hc
    simp [(hrest c hc).2.1 t]
  rw [List.append_assoc] at h1
  refine ⟨_, h1, ?_, ?_, tierRange_sorted env, mem_tierRange env, ?_, ?_,
    (scanStart_frame env nHeight st).1⟩
  · intro hlt c hc
    have hp : paidCalls env st.g_zelnodeCache nHeight = [] := by
      unfold paidCalls
      rw [if_neg (by omega)]
    rw [hp, List.nil_append] at hc
    exact ⟨(hrest c hc).1, (hrest c hc).2.2⟩
  · intro hge
    rw [List.filterMap_append, hfm, List.append_nil]
    unfold paidCalls
    rw [if_pos hge]
    exact paymentCalls_tiers env _ nHeight _
  · intro t o h
    rw [List.mem_append]
    constructor
    · rintro (hm | hm)
      · unfold paidCalls at hm
        split at hm
        · rename_i hge
          obtain ⟨e, ht, hg⟩ := (mem_paymentCalls env _ nHeight _ t o h).mp hm
          exact ⟨hge, e, ht, hg⟩
        · simp at hm
      · exact absurd rfl ((hrest _ hm).2.2 t o h)
    · rintro ⟨hge, e, ht, hg⟩
      left
      unfold paidCalls
      rw [if_pos hge]
      exact (mem_paymentCalls env _ nHeight _ t o h).mpr ⟨e, ht, hg⟩
  · intro t
    rw [List.filter_append, hfl t, List.append_nil]
    unfold paidCalls
    split
    · exact paymentCalls_once env _ nHeight _ (tierRange_nodup env) t
    · simp

/-! ## The per-block cache after the payment selection -/

theorem addPaidNode_shadow (env : Env Cache DB) (h : Int) (st : State Cache DB) (t : Int) :
    (addPaidNode env h st t).zelnodeCache =
      paidCache env st.g_zelnodeCache h st.zelnodeCache [t] := by
  unfold addPaidNode
  simp only [State.call, paidCache]
  cases env.GetNextPayment st.g_zelnodeCache t <;> rfl

theorem addPaidNode_foldl_shadow (env : Env Cache DB) (h : Int) (ts : List Int)
    (st : State Cache DB) :
    (ts.foldl (addPaidNode env h) st).zelnodeCache =
      paidCache env st.g_zelnodeCache h st.zelnodeCache ts := by
  induction ts generalizing st with
  | nil => rfl
  | cons t rest ih =>
    simp only [List.foldl_cons]
    rw [ih, (addPaidNode_frame env h st t).1, addPaidNode_shadow]
    simp only [paidCache]
    cases env.GetNextPayment st.g_zelnodeCache t <;> rfl

/-- The per-block cache in which the scan of a block starts. -/
theorem scanStart_shadow (env : Env Cache DB) (h : Int) (st : State Cache DB) :
    (addPaidNodes env h (beginBlock env st)).zelnodeCache =
      if h ≥ env.StartZelnodePayments then
        paidCache env st.g_zelnodeCache h env.newZelnodeCache (tierRange env)
      else env.newZelnodeCache := by
  unfold addPaidNodes
  split
  · rw [addPaidNode_foldl_shadow]
    rfl
  · rfl

theorem addPaidNodes_nPrintTrigger (env : Env Cache DB) (h : Int) (st : State Cache DB) :
    (addPaidNodes env h (beginBlock env st)).nPrintTrigger = st.nPrintTrigger :=
  (addPaidNodes_frame env h (beginBlock env st)).2.2.1

theorem State.eq_of_fields (a b : State Cache DB) (h1 : a.g_zelnodeCache = b.g_zelnodeCache)
    (h2 : a.pZelnodeDB = b.pZelnodeDB) (h3 : a.nPrintTrigger = b.nPrintTrigger)
    (h4 : a.setSpentOutPoints = b.setSpentOutPoints)
    (h5 : a.zelnodeTxBlockUndo = b.zelnodeTxBlockUndo) (h6 : a.zelnodeCache = b.zelnodeCache)
    (h7 : a.calls = b.calls) : a = b := by
  cases a
  cases b
  simp only at h1 h2 h3 h4 h5 h6 h7
  subst h1 h2 h3 h4 h5 h6 h7
  rfl

theorem addPaidNodeVia_global (next : Cache → Int → Option COutPoint × Cache)
    (env : Env Cache DB) (h : Int) (st : State Cache DB) (t : Int) :
    (addPaidNodeVia next env h st t).g_zelnodeCache = (next st.g_zelnodeCache t).2 := by
  unfold addPaidNodeVia
  simp only [State.call]
  cases (next st.g_zelnodeCache t).1 <;> rfl

theorem addPaidNodeVia_foldl_global (next : Cache → Int → Option COutPoint × Cache)
    (env : Env Cache DB) (h : Int) (ts : List Int) (st : State Cache DB) :
    (ts.foldl (addPaidNodeVia next env h) st).g_zelnodeCache =
      ts.foldl (fun g t => (next g t).2) st.g_zelnodeCache := by
  induction ts generalizing st with
  | nil => rfl
  | cons t rest ih =>
    simp only [List.foldl_cons]
    rw [ih, addPaidNodeVia_global]

theorem foldl_peek (next : Cache → Int → Option COutPoint × Cache)
    (hpeek : ∀ g t, (next g t).2 = g) (ts : List Int) (g : Cache) :
    ts.foldl (fun g t => (next g t).2) g = g := by
  induction ts generalizing g with
  | nil => rfl
  | cons t rest ih =>
    simp only [List.foldl_cons]
    rw [hpeek, ih]

theorem addPaidNodeVia_query (env : Env Cache DB) (h : Int) (st : State Cache DB) (t : Int) :
    addPaidNodeVia (fun g tier => (env.GetNextPayment g tier, g)) env h st t =
      addPaidNode env h st t := by
  unfold addPaidNodeVia addPaidNode
  simp only [State.call]

theorem addPaidNodesVia_query (env : Env Cache DB) (h : Int) (st : State Cache DB) :
    addPaidNodesVia (fun g tier => (env.GetNextPayment g tier, g)) env h st =
      addPaidNodes env h st := by
  unfold addPaidNodesVia addPaidNodes
  have hf : addPaidNodeVia (fun g tier => (env.GetNextPayment g tier, g)) env h =
      addPaidNode env h := by
    funext s t
    exact addPaidNodeVia_query env h s t
  rw [hf]

/-- C7: payment selection of a block. Below `StartZelnodePayments` no tier is
asked and no paid node is recorded: the scan of the block starts with the
new, empty per-block cache. From there on `GetNextPayment` is asked for the
tiers `CUMULUS`, ..., `LAST - 1` in ascending order, on the global cache as it
was before the block, and the per-block cache in which the scan starts is
`paidCache`: for each tier for which an outpoint came back one `AddPaidNode`
with that outpoint, nothing for the other tiers. That state has the global
cache and the database of before the block. The tier loop writes the global
cache through nothing but `GetNextPayment` itself: for a `GetNextPayment`
that may change its cache the global cache after the step is the one these
calls leave, and it is the cache of before the step when `GetNextPayment`
only peeks. -/
theorem payment_selection (env : Env Cache DB) (st : State Cache DB) (nHeight : Int)
    (block : CBlock) :
    (∃ newCalls,
      (processBlock env st nHeight block).state.calls = st.calls ++ newCalls ∧
      (nHeight < env.StartZelnodePayments →
        ∀ c ∈ newCalls, c.nextPaymentTier = none ∧ ∀ t o h, c ≠ Call.AddPaidNode t o h) ∧
      (env.StartZelnodePayments ≤ nHeight →
        newCalls.filterMap Call.nextPaymentTier = tierRange env) ∧
      (tierRange env).Sorted (· < ·) ∧
      (∀ t, t ∈ tierRange env ↔ env.CUMULUS ≤ t ∧ t < env.LAST) ∧
      (∀ t o h, Call.AddPaidNode t o h ∈ newCalls ↔
        env.StartZelnodePayments ≤ nHeight ∧ h = nHeight ∧ t ∈ tierRange env ∧
          env.GetNextPayment st.g_zelnodeCache t = some o) ∧
      (∀ t, (newCalls.filter (Call.isAddPaidNodeOf t)).length ≤ 1)) ∧
    addPaidNodes env nHeight (beginBlock env st) =
      { g_zelnodeCache := st.g_zelnodeCache
        pZelnodeDB := st.pZelnodeDB
        nPrintTrigger := st.nPrintTrigger
        setSpentOutPoints := []
        zelnodeTxBlockUndo := CZelnodeTxBlockUndo.new
        zelnodeCache :=
          if nHeight ≥ env.StartZelnodePayments then
            paidCache env st.g_zelnodeCache nHeight env.newZelnodeCache (tierRange env)
          else env.newZelnodeCache
        calls := st.calls ++ paidCalls env st.g_zelnodeCache nHeight } ∧
    processBlock env st nHeight block =
      (match scanTxs env nHeight (addPaidNodes env nHeight (beginBlock env st)) block.vtx with
        | Step.stop why st2 => Step.stop why st2
        | Step.ok st2 =>
          match writeUndo env block.hash (collectUndoData env nHeight st2) with
          | Step.stop why st3 => Step.stop why st3
          | Step.ok st3 => flushBlock env st3) ∧
    (∀ (next : Cache → Int → Option COutPoint × Cache) (s : State Cache DB),
      (addPaidNodesVia next env nHeight s).g_zelnodeCache =
          (if nHeight ≥ env.StartZelnodePayments then
            (tierRange env).foldl (fun g t => (next g t).2) s.g_zelnodeCache
          else s.g_zelnodeCache) ∧
        ((∀ g t, (next g t).2 = g) →
          (addPaidNodesVia next env nHeight s).g_zelnodeCache = s.g_zelnodeCache)) ∧
    (∀ s : State Cache DB,
      addPaidNodesVia (fun g tier => (env.GetNextPayment g tier, g)) env nHeight s =
        addPaidNodes env nHeight s) := by
  obtain ⟨b1, b2, b3, b4, b5⟩ := scanStart_frame env nHeight st
  refine ⟨?_, ?_, ?_, ?_, addPaidNodesVia_query env nHeight⟩
  · obtain ⟨l, a1, a2, a3, a4, a5, a6, a7, _⟩ := payment_calls_of_block env st nHeight block
    exact ⟨l, a1, a2, a3, a4, a5, a6, a7⟩
  · exact State.eq_of_fields _ _ b1 b2 (addPaidNodes_nPrintTrigger env nHeight st) b3 b4
      (scanStart_shadow env nHeight st) b5
  · cases hs : scanTxs env nHeight (addPaidNodes env nHeight (beginBlock env st)) block.vtx with
    | stop why st2 => exact processBlock_scan_stop env st nHeight block why st2 hs
    | ok st2 => exact processBlock_scan_ok env st nHeight block st2 hs
  · intro next s
    have hg : (addPaidNodesVia next env nHeight s).g_zelnodeCache =
        (if nHeight ≥ env.StartZelnodePayments then
          (tierRange env).foldl (fun g t => (next g t).2) s.g_zelnodeCache
        else s.g_zelnodeCache) := by
      unfold addPaidNodesVia
      split
      · exact addPaidNodeVia_foldl_global next env nHeight _ s
      · rfl
    refine ⟨hg, fun hpeek => ?_⟩
    rw [hg]
    split
    · exact foldl_peek next hpeek _ _
    · rfl

set_option maxRecDepth 100000 in
/-- C7 (witness): a block at height 100 over the registry with the sample
node at the head of the queue of tier 1: the scan starts with a per-block
cache that holds the payment of the sample node and nothing else, and with
the global cache as it was. -/
theorem payment_selection_witness :
    (addPaidNodes (sampleEnv []) 100
        (beginBlock (sampleEnv []) (stateOver confirmedCache))).zelnodeCache =
      { pending := [CacheOp.paid 1 sampleOut 100] } ∧
    (addPaidNodes (sampleEnv []) 100
        (beginBlock (sampleEnv []) (stateOver confirmedCache))).g_zelnodeCache =
      confirmedCache :=
  ⟨(congrArg State.zelnodeCache
      (payment_selection (sampleEnv []) (stateOver confirmedCache) 100 {}).2.1).trans
        (by decide),
    congrArg State.g_zelnodeCache
      (payment_selection (sampleEnv []) (stateOver confirmedCache) 100 {}).2.1⟩

/-! ## Rejections during the scan -/

theorem rebuildLoop_stop (env : Env Cache DB) (n : Int) (st : State Cache DB)
    (idx : CBlockIndex) (later : List CBlockIndex)
    (hb : (loopBody env n st idx).isOk = false) :
    rebuildLoop env n st (idx :: later) = loopBody env n st idx ∧
      (rebuildLoop env n st (idx :: later)).isOk = false := by
  simp only [rebuildLoop]
  cases hl : loopBody env n st idx with
  | ok st1 => rw [hl] at hb; simp [Step.isOk] at hb
  | stop why st1 => exact ⟨rfl, rfl⟩

/-- A loop over block indexes one of which can never go through does not go
through. -/
theorem rebuildLoop_not_ok (env : Env Cache DB) (n : Int) (idx : CBlockIndex)
    (hbad : ∀ s, (loopBody env n s idx).isOk = false) (l : List CBlockIndex)
    (hm : idx ∈ l) (st : State Cache DB) : (rebuildLoop env n st l).isOk = false := by
  induction l generalizing st with
  | nil => simp at hm
  | cons a rest ih =>
    simp only [rebuildLoop]
    cases hl : loopBody env n st a with
    | stop why st1 => rfl
    | ok st1 =>
      simp only
      rcases List.mem_cons.mp hm with e | e
      · subst e
        have := hbad st
        rw [hl] at this
        simp [Step.isOk] at this
      · exact ih e st1

/-- The RPC `rebuildzelnodedb` returns true only when the loop went through. -/
theorem rebuildzelnodedb_true (env : Env Cache DB) (chainActive : List CBlockIndex)
    (g : Cache) (hr : (rebuildzelnodedb env chainActive g).1 = some true) :
    ∃ rescanIndex,
      chainAt chainActive (env.kamataActivationHeight - 10) = some rescanIndex ∧
      (rebuildLoop env ((chainActive.length : Int) - 1 - rescanIndex.nHeight)
        { g_zelnodeCache := env.InitMapZelnodeList (env.SetNull g)
          pZelnodeDB := env.newZelnodeDB
          zelnodeCache := env.newZelnodeCache }
        (chainActive.drop (env.kamataActivationHeight - 10).toNat)).isOk = true := by
  unfold rebuildzelnodedb at hr
  simp only at hr
  cases hc : chainAt chainActive (env.kamataActivationHeight - 10) with
  | none => rw [hc] at hr; simp at hr
  | some rescanIndex =>
    rw [hc] at hr
    simp only at hr
    refine ⟨rescanIndex, rfl, ?_⟩
    cases hl : rebuildLoop env ((chainActive.length : Int) - 1 - rescanIndex.nHeight)
        { g_zelnodeCache := env.InitMapZelnodeList (env.SetNull g)
          pZelnodeDB := env.newZelnodeDB
          zelnodeCache := env.newZelnodeCache }
        (chainActive.drop (env.kamataActivationHeight - 10).toNat) with
    | ok st1 => rfl
    | stop why st1 =>
      rw [hl] at hr
      cases why <;> simp at hr

theorem isAddFor_of_tail (c : Call) (hc : c.isTail = true) (tx : CTransaction) :
    c.isAddFor tx = false := by
  cases c <;> simp_all [Call.isTail, Call.isAddFor]

theorem paidCalls_kind (env : Env Cache DB) (g : Cache) (h : Int) :
    ∀ c ∈ paidCalls env g h, c.isScan = false ∧ c.isTail = false ∧
      ∀ tx, c.isAddFor tx = false := by
  intro c hc
  unfold paidCalls at hc
  split at hc
  · simp only [List.mem_flatMap] at hc
    obtain ⟨t, _, hc⟩ := hc
    unfold paymentCalls at hc
    cases hg : env.GetNextPayment g t with
    | none =>
      rw [hg] at hc
      simp only [List.mem_singleton] at hc
      subst hc
      exact ⟨rfl, rfl, fun _ => rfl⟩
    | some o =>
      rw [hg] at hc
      simp only [List.mem_cons, List.mem_singleton, List.not_mem_nil, or_false] at hc
      rcases hc with e | e <;> subst e <;> exact ⟨rfl, rfl, fun _ => rfl⟩
  · simp at hc

/-- A block holding a node transaction whose collateral lookups fail: the
scan stops in it, nothing after the transaction or the block is processed,
and no `Add...` call is made for the transaction. -/
theorem unclassified_tx_stops (env : Env Cache DB) (rescanIndex : CBlockIndex)
    (pre post : List CTransaction) (tx : CTransaction)
    (hblock : (env.ReadBlockFromDisk rescanIndex).vtx = pre ++ tx :: post)
    (hnode : tx.isZelnodeTx = true)
    (hk : classifies env rescanIndex.nHeight tx = false) :
    (∀ s, scanTxs env rescanIndex.nHeight s (pre ++ tx :: post) =
        scanTxs env rescanIndex.nHeight s (pre ++ [tx])) ∧
    (∀ s, (processBlock env s rescanIndex.nHeight (env.ReadBlockFromDisk rescanIndex)).isOk
        = false) ∧
    (∀ n s later, rebuildLoop env n s (rescanIndex :: later) = loopBody env n s rescanIndex ∧
        (rebuildLoop env n s (rescanIndex :: later)).isOk = false) ∧
    (∀ chainActive g, rescanIndex ∈ chainActive.drop (env.kamataActivationHeight - 10).toNat →
        (rebuildzelnodedb env chainActive g).1 ≠ some true) ∧
    (∀ s, ∃ newCalls,
        (processBlock env s rescanIndex.nHeight (env.ReadBlockFromDisk rescanIndex)).state.calls =
          s.calls ++ newCalls ∧ ∀ c ∈ newCalls, c.isAddFor tx = false) := by
  have hbad : ∀ s, (scanTx env rescanIndex.nHeight s tx).isOk = false :=
    fun s => scanTx_unclassified env _ s tx hnode hk
  have hscan := fun s => scanTxs_stop_at env rescanIndex.nHeight s pre post tx hbad
  have hproc : ∀ s,
      (processBlock env s rescanIndex.nHeight (env.ReadBlockFromDisk rescanIndex)).isOk
        = false := by
    intro s
    have h1 := (hscan (addPaidNodes env rescanIndex.nHeight (beginBlock env s))).1
    rw [← hblock] at h1
    rw [processBlock_not_ok_of_scan env s _ _ h1]
    exact h1
  have hbody : ∀ n s, (loopBody env n s rescanIndex).isOk = false := by
    intro n s
    unfold loopBody
    cases printProgress n s with
    | stop why s1 => rfl
    | ok s1 => exact hproc _
  refine ⟨fun s => (hscan s).2, hproc, fun n s later => rebuildLoop_stop env n s _ later (hbody n s),
    ?_, ?_⟩
  · intro chainActive g hm hr
    obtain ⟨r, _, hok⟩ := rebuildzelnodedb_true env chainActive g hr
    rw [rebuildLoop_not_ok env _ rescanIndex (hbody _) _ hm] at hok
    cases hok
  · intro s
    obtain ⟨scanL, tailL, h1, h2, h3, _, _, _⟩ :=
      processBlock_calls env s rescanIndex.nHeight (env.ReadBlockFromDisk rescanIndex)
    refine ⟨_, h1, ?_⟩
    intro c hc
    rcases List.mem_append.mp hc with hc | hc
    · rcases List.mem_append.mp hc with hc | hc
      · exact (paidCalls_kind env _ _ c hc).2.2 tx
      · cases hb : c.isAddFor tx with
        | false => rfl
        | true =>
          have := ((h2 c hc).2 tx hb).2.2
          rw [hk] at this
          cases this
    · exact isAddFor_of_tail c (h3 c hc) tx

/-- Claim C8. A node transaction whose collateral transaction cannot be found
fails the scan: once the scan reaches it the loop stops with the error
"Failed to find tx" in the state of that moment, the transactions and the
blocks after it are not processed, and `rebuildzelnodedb` does not return
true on a chain whose rescanned part holds such a block. -/
theorem missing_collateral_fails (env : Env Cache DB) (rescanIndex : CBlockIndex)
    (pre post : List CTransaction) (tx : CTransaction)
    (hblock : (env.ReadBlockFromDisk rescanIndex).vtx = pre ++ tx :: post)
    (hnode : tx.isZelnodeTx = true)
    (hmiss : env.GetTransaction tx.collateralOut.hash = none) :
    (∀ n s s1 s2 later, printProgress n s = Step.ok s1 →
      scanTxs env rescanIndex.nHeight
        (addPaidNodes env rescanIndex.nHeight
          (beginBlock env (s1.call (Call.ReadBlockFromDisk rescanIndex)))) pre = Step.ok s2 →
      rebuildLoop env n s (rescanIndex :: later) =
        Step.stop (Stop.error (RebuildError.failedToFindTx tx.collateralOut))
          (s2.call (Call.GetTransaction tx.collateralOut.hash))) ∧
    (∀ s, scanTxs env rescanIndex.nHeight s (pre ++ tx :: post) =
        scanTxs env rescanIndex.nHeight s (pre ++ [tx])) ∧
    (∀ n s later, rebuildLoop env n s (rescanIndex :: later) = loopBody env n s rescanIndex ∧
        (rebuildLoop env n s (rescanIndex :: later)).isOk = false) ∧
    (∀ chainActive g, rescanIndex ∈ chainActive.drop (env.kamataActivationHeight - 10).toNat →
        (rebuildzelnodedb env chainActive g).1 ≠ some true) := by
  have hk : classifies env rescanIndex.nHeight tx = false := by
    unfold classifies
    rw [hmiss]
  obtain ⟨h1, _, h3, h4, _⟩ := unclassified_tx_stops env rescanIndex pre post tx hblock hnode hk
  refine ⟨?_, h1, h3, h4⟩
  intro n s s1 s2 later hp hs
  rw [(h3 n s later).1]
  unfold loopBody
  rw [hp]
  simp only
  have hscan : scanTxs env rescanIndex.nHeight
      (addPaidNodes env rescanIndex.nHeight
        (beginBlock env (s1.call (Call.ReadBlockFromDisk rescanIndex))))
      (env.ReadBlockFromDisk rescanIndex).vtx =
      Step.stop (Stop.error (RebuildError.failedToFindTx tx.collateralOut))
        (s2.call (Call.GetTransaction tx.collateralOut.hash)) := by
    rw [hblock, scanTxs_append, hs]
    simp only [scanTxs]
    rw [scanTx_missing env _ s2 tx hnode hmiss]
  exact processBlock_scan_stop env _ _ _ _ _ hscan

/-- Claim C8, on the sample chain: the block at height 1 holds a Start
transaction whose collateral transaction is not indexed. -/
theorem missing_collateral_fails_witness :
    ((sampleEnv [sampleCoinbase, samplePayment, sampleMissingTx, sampleStartTx]).ReadBlockFromDisk
        ⟨1, 1001⟩).vtx = [sampleCoinbase, samplePayment] ++ sampleMissingTx :: [sampleStartTx] ∧
      sampleMissingTx.isZelnodeTx = true ∧
      (sampleEnv [sampleCoinbase, samplePayment, sampleMissingTx, sampleStartTx]).GetTransaction
        sampleMissingTx.collateralOut.hash = none ∧
      (rebuildzelnodedb (sampleEnv [sampleCoinbase, samplePayment, sampleMissingTx, sampleStartTx])
        sampleChain emptyCache).1 ≠ some true :=
  ⟨by decide, by decide, by decide,
    (missing_collateral_fails
      (sampleEnv [sampleCoinbase, samplePayment, sampleMissingTx, sampleStartTx]) ⟨1, 1001⟩
      [sampleCoinbase, samplePayment] [sampleStartTx] sampleMissingTx
      (by decide) (by decide) (by decide)).2.2.2 sampleChain emptyCache (by decide)⟩

/-- Claim C9. A node transaction whose collateral amount has no tier at the
block's height is a hard rejection: once the scan reaches it the loop stops
with the error "Failed to get tier from amount" in the state of that moment,
nothing after it is processed, the block never goes through, no
`AddNewStart`, `AddNewConfirm` or `AddUpdateConfirm` is called for it, and
`rebuildzelnodedb` does not return true. -/
theorem unclassifiable_collateral_fails (env : Env Cache DB) (rescanIndex : CBlockIndex)
    (pre post : List CTransaction) (tx get_tx : CTransaction) (txout : CTxOut)
    (hblock : (env.ReadBlockFromDisk rescanIndex).vtx = pre ++ tx :: post)
    (hnode : tx.isZelnodeTx = true)
    (hfound : env.GetTransaction tx.collateralOut.hash = some get_tx)
    (hout : get_tx.vout.get? tx.collateralOut.n = some txout)
    (htier : env.GetCoinTierFromAmount rescanIndex.nHeight txout.nValue = none) :
    (∀ n s s1 s2 later, printProgress n s = Step.ok s1 →
      scanTxs env rescanIndex.nHeight
        (addPaidNodes env rescanIndex.nHeight
          (beginBlock env (s1.call (Call.ReadBlockFromDisk rescanIndex)))) pre = Step.ok s2 →
      rebuildLoop env n s (rescanIndex :: later) =
        Step.stop (Stop.error (RebuildError.failedToGetTier tx.collateralOut))
          ((s2.call (Call.GetTransaction tx.collateralOut.hash)).call
            (Call.GetCoinTierFromAmount rescanIndex.nHeight txout.nValue))) ∧
    (∀ s, scanTxs env rescanIndex.nHeight s (pre ++ tx :: post) =
        scanTxs env rescanIndex.nHeight s (pre ++ [tx])) ∧
    (∀ s, (processBlock env s rescanIndex.nHeight (env.ReadBlockFromDisk rescanIndex)).isOk
        = false) ∧
    (∀ n s later, rebuildLoop env n s (rescanIndex :: later) = loopBody env n s rescanIndex ∧
        (rebuildLoop env n s (rescanIndex :: later)).isOk = false) ∧
    (∀ chainActive g, rescanIndex ∈ chainActive.drop (env.kamataActivationHeight - 10).toNat →
        (rebuildzelnodedb env chainActive g).1 ≠ some true) ∧
    (∀ s, ∃ newCalls,
        (processBlock env s rescanIndex.nHeight (env.ReadBlockFromDisk rescanIndex)).state.calls =
          s.calls ++ newCalls ∧ ∀ c ∈ newCalls, c.isAddFor tx = false) := by
  have hk : classifies env rescanIndex.nHeight tx = false := by
    unfold classifies
    rw [hfound]
    simp only
    rw [hout]
    simp only
    rw [htier]
    rfl
  obtain ⟨h1, h2, h3, h4, h5⟩ :=
    unclassified_tx_stops env rescanIndex pre post tx hblock hnode hk
  refine ⟨?_, h1, h2, h3, h4, h5⟩
  intro n s s1 s2 later hp hs
  rw [(h3 n s later).1]
  unfold loopBody
  rw [hp]
  simp only
  have hscan : scanTxs env rescanIndex.nHeight
      (addPaidNodes env rescanIndex.nHeight
        (beginBlock env (s1.call (Call.ReadBlockFromDisk rescanIndex))))
      (env.ReadBlockFromDisk rescanIndex).vtx =
      Step.stop (Stop.error (RebuildError.failedToGetTier tx.collateralOut))
        ((s2.call (Call.GetTransaction tx.collateralOut.hash)).call
          (Call.GetCoinTierFromAmount rescanIndex.nHeight txout.nValue)) := by
    rw [hblock, scanTxs_append, hs]
    simp only [scanTxs]
    rw [scanTx_noTier env _ s2 tx get_tx txout hnode hfound hout htier]
  exact processBlock_scan_stop env _ _ _ _ _ hscan

/-- Claim C9, on the sample chain: the block at height 1 holds a Start
transaction whose collateral output carries an amount of 5. -/
theorem unclassifiable_collateral_fails_witness :
    ((sampleEnv [sampleCoinbase, sampleOddAmountTx, sampleStartTx]).ReadBlockFromDisk
        ⟨1, 1001⟩).vtx = [sampleCoinbase] ++ sampleOddAmountTx :: [sampleStartTx] ∧
      sampleOddAmountTx.isZelnodeTx = true ∧
      (sampleEnv [sampleCoinbase, sampleOddAmountTx, sampleStartTx]).GetTransaction
        sampleOddAmountTx.collateralOut.hash = some sampleCollateralTx ∧
      sampleCollateralTx.vout.get? sampleOddAmountTx.collateralOut.n = some { nValue := 5 } ∧
      (sampleEnv [sampleCoinbase, sampleOddAmountTx, sampleStartTx]).GetCoinTierFromAmount 1 5
        = none ∧
      (rebuildzelnodedb (sampleEnv [sampleCoinbase, sampleOddAmountTx, sampleStartTx])
        sampleChain emptyCache).1 ≠ some true :=
  ⟨by decide, by decide, by decide, by decide, by decide,
    (unclassifiable_collateral_fails
      (sampleEnv [sampleCoinbase, sampleOddAmountTx, sampleStartTx]) ⟨1, 1001⟩
      [sampleCoinbase] [sampleStartTx] sampleOddAmountTx sampleCollateralTx { nValue := 5 }
      (by decide) (by decide) (by decide) (by decide) (by decide)).2.2.2.2.1
      sampleChain emptyCache (by decide)⟩

/-! ## The undo record of a block -/

/-- A transaction step changes the undo record only by the two inserts of an
accepted UpdateConfirm. -/
theorem scanTx_undo (env : Env Cache DB) (h : Int) (st : State Cache DB) (tx : CTransaction) :
    ((scanTx env h st tx).state.zelnodeTxBlockUndo = st.zelnodeTxBlockUndo ∧
      (tx.isUpdateConfirm = true → (scanTx env h st tx).isOk = false)) ∨
    (tx.isUpdateConfirm = true ∧ (scanTx env h st tx).isOk = true ∧
      (env.GetZelnodeData st.g_zelnodeCache tx.collateralOut).IsNull = false ∧
      (scanTx env h st tx).state.zelnodeTxBlockUndo =
        undoWithUpdate st.zelnodeTxBlockUndo tx.collateralOut
          (env.GetZelnodeData st.g_zelnodeCache tx.collateralOut)) := by
  unfold scanTx CTransaction.isUpdateConfirm
  cases hz : tx.isZelnodeTx
  · left
    simp only [Bool.not_false, Bool.and_true, Bool.false_eq_true, if_false, Bool.false_and]
    constructor
    · split <;> rfl
    · intro hh; cases hh
  · simp only [Bool.not_true, Bool.and_false, Bool.false_eq_true, if_false, if_true]
    cases hg : env.GetTransaction tx.collateralOut.hash with
    | none => exact Or.inl ⟨rfl, fun _ => rfl⟩
    | some get_tx =>
      simp only
      cases ho : get_tx.vout.get? tx.collateralOut.n with
      | none => exact Or.inl ⟨rfl, fun _ => rfl⟩
      | some txout =>
        simp only
        cases ht : env.GetCoinTierFromAmount h txout.nValue with
        | none => exact Or.inl ⟨rfl, fun _ => rfl⟩
        | some nTier =>
          simp only
          cases hty : tx.nType with
          | ZELNODE_START_TX_TYPE => exact Or.inl ⟨rfl, fun hh => by simp at hh⟩
          | other => exact Or.inl ⟨rfl, fun hh => by simp at hh⟩
          | ZELNODE_CONFIRM_TX_TYPE =>
            simp only
            cases hu : tx.nUpdateType with
            | INITIAL_CONFIRM => exact Or.inl ⟨rfl, fun hh => by simp at hh⟩
            | other => exact Or.inl ⟨rfl, fun hh => by simp at hh⟩
            | UPDATE_CONFIRM =>
              simp only
              cases hn : (env.GetZelnodeData st.g_zelnodeCache tx.collateralOut).IsNull with
              | true =>
                left
                have hn2 : (env.GetZelnodeData
                    ((st.call (Call.GetTransaction tx.collateralOut.hash)).call
                      (Call.GetCoinTierFromAmount h txout.nValue)).g_zelnodeCache
                    tx.collateralOut).IsNull = true := hn
                simp only [hn2, if_true]
                exact ⟨rfl, fun _ => rfl⟩
              | false =>
                right
                have hn2 : (env.GetZelnodeData
                    ((st.call (Call.GetTransaction tx.collateralOut.hash)).call
                      (Call.GetCoinTierFromAmount h txout.nValue)).g_zelnodeCache
                    tx.collateralOut).IsNull = false := hn
                simp only [hn2, Bool.false_eq_true, if_false]
                exact ⟨by simp, rfl, trivial, rfl⟩

theorem find_insert_origin {V : Type} (k k0 : COutPoint) (v w : V) (m : StdMap COutPoint V)
    (h : StdMap.find k (StdMap.insert k0 v m) = some w) :
    StdMap.find k m = some w ∨ (k = k0 ∧ w = v) := by
  by_cases e : k = k0
  · subst e
    rw [find_insert_self] at h
    cases hm : StdMap.find k m with
    | none =>
      rw [hm] at h
      simp only [Option.getD_none, Option.some.injEq] at h
      exact Or.inr ⟨rfl, h.symm⟩
    | some x =>
      rw [hm] at h
      simp only [Option.getD_some, Option.some.injEq] at h
      exact Or.inl (by rw [h])
  · rw [find_insert_ne k0 k v m e] at h
    exact Or.inl h

theorem find_insert_mono {V : Type} (k k0 : COutPoint) (v w : V) (m : StdMap COutPoint V)
    (h : StdMap.find k m = some w) : StdMap.find k (StdMap.insert k0 v m) = some w := by
  by_cases e : k = k0
  · subst e
    rw [find_insert_self, h]
    rfl
  · rw [find_insert_ne k0 k v m e]
    exact h

theorem find_insert_isSome {V : Type} (k : COutPoint) (v : V) (m : StdMap COutPoint V) :
    (StdMap.find k (StdMap.insert k v m)).isSome = true := by
  rw [find_insert_self]
  rfl

/-- What the scan of a list of transactions does to the undo record: the
three members other than the two UpdateConfirm maps stay, every entry of the
two maps is old or holds the value of the global cache, old entries stay, and
after a scan that went through every UpdateConfirm has its entries. -/
theorem scanTxs_undo (env : Env Cache DB) (h : Int) (txs : List CTransaction)
    (st : State Cache DB) :
    (scanTxs env h st txs).state.zelnodeTxBlockUndo.vecExpiredDosData =
        st.zelnodeTxBlockUndo.vecExpiredDosData ∧
    (scanTxs env h st txs).state.zelnodeTxBlockUndo.vecExpiredConfirmedData =
        st.zelnodeTxBlockUndo.vecExpiredConfirmedData ∧
    (scanTxs env h st txs).state.zelnodeTxBlockUndo.mapLastPaidHeights =
        st.zelnodeTxBlockUndo.mapLastPaidHeights ∧
    (∀ k v, StdMap.find k
        (scanTxs env h st txs).state.zelnodeTxBlockUndo.mapUpdateLastConfirmHeight = some v →
      StdMap.find k st.zelnodeTxBlockUndo.mapUpdateLastConfirmHeight = some v ∨
      ((env.GetZelnodeData st.g_zelnodeCache k).IsNull = false ∧
        v = (env.GetZelnodeData st.g_zelnodeCache k).nLastConfirmedBlockHeight)) ∧
    (∀ k v, StdMap.find k
        (scanTxs env h st txs).state.zelnodeTxBlockUndo.mapLastIpAddress = some v →
      StdMap.find k st.zelnodeTxBlockUndo.mapLastIpAddress = some v ∨
      ((env.GetZelnodeData st.g_zelnodeCache k).IsNull = false ∧
        v = (env.GetZelnodeData st.g_zelnodeCache k).ip)) ∧
    (∀ k v, StdMap.find k st.zelnodeTxBlockUndo.mapUpdateLastConfirmHeight = some v →
      StdMap.find k
        (scanTxs env h st txs).state.zelnodeTxBlockUndo.mapUpdateLastConfirmHeight = some v) ∧
    (∀ k v, StdMap.find k st.zelnodeTxBlockUndo.mapLastIpAddress = some v →
      StdMap.find k
        (scanTxs env h st txs).state.zelnodeTxBlockUndo.mapLastIpAddress = some v) ∧
    ((scanTxs env h st txs).isOk = true → ∀ tx ∈ txs, tx.isUpdateConfirm = true →
      (StdMap.find tx.collateralOut
        (scanTxs env h st txs).state.zelnodeTxBlockUndo.mapUpdateLastConfirmHeight).isSome = true ∧
      (StdMap.find tx.collateralOut
        (scanTxs env h st txs).state.zelnodeTxBlockUndo.mapLastIpAddress).isSome = true) := by
  induction txs generalizing st with
  | nil =>
    refine ⟨rfl, rfl, rfl, fun k v hv => Or.inl hv, fun k v hv => Or.inl hv,
      fun k v hv => hv, fun k v hv => hv, ?_⟩
    intro _ tx htx
    simp at htx
  | cons tx rest ih =>
    have hfr := scanTx_frame env h st tx
    have hu := scanTx_undo env h st tx
    simp only [scanTxs]
    cases hs : scanTx env h st tx with
    | stop why st1 =>
      rw [hs] at hu
      simp only [Step.state, Step.isOk] at hu ⊢
      rcases hu with ⟨hu, _⟩ | ⟨_, hu, _⟩
      · rw [hu]
        exact ⟨rfl, rfl, rfl, fun k v hv => Or.inl hv, fun k v hv => Or.inl hv,
          fun k v hv => hv, fun k v hv => hv, fun hh => Bool.noConfusion hh⟩
      · cases hu
    | ok st1 =>
      rw [hs] at hu hfr
      simp only [Step.state, Step.isOk] at hu hfr ⊢
      obtain ⟨i1, i2, i3, i4, i5, i6, i7, i8⟩ := ih st1
      rw [hfr.1] at i4 i5
      rcases hu with ⟨hu, hnot⟩ | ⟨hupd, _, hnn, hu⟩
      · rw [hu] at i1 i2 i3 i4 i5 i6 i7
        refine ⟨i1, i2, i3, i4, i5, i6, i7, ?_⟩
        intro hok t ht hupd
        rcases List.mem_cons.mp ht with e | e
        · subst e
          have := hnot hupd
          cases this
        · exact i8 hok t e hupd
      · rw [hu] at i1 i2 i3 i4 i5 i6 i7
        refine ⟨i1, i2, i3, ?_, ?_, ?_, ?_, ?_⟩
        · intro k v hv
          rcases i4 k v hv with hv | hv
          · rcases find_insert_origin _ _ _ _ _ hv with hv | ⟨e1, e2⟩
            · exact Or.inl hv
            · subst e1
              exact Or.inr ⟨hnn, e2⟩
          · exact Or.inr hv
        · intro k v hv
          rcases i5 k v hv with hv | hv
          · rcases find_insert_origin _ _ _ _ _ hv with hv | ⟨e1, e2⟩
            · exact Or.inl hv
            · subst e1
              exact Or.inr ⟨hnn, e2⟩
          · exact Or.inr hv
        · intro k v hv
          exact i6 k v (find_insert_mono _ _ _ _ _ hv)
        · intro k v hv
          exact i7 k v (find_insert_mono _ _ _ _ _ hv)
        · intro hok t ht hupd2
          rcases List.mem_cons.mp ht with e | e
          · subst e
            have a1 := find_insert_isSome t.collateralOut
              (env.GetZelnodeData st.g_zelnodeCache t.collateralOut).nLastConfirmedBlockHeight
              st.zelnodeTxBlockUndo.mapUpdateLastConfirmHeight
            have a2 := find_insert_isSome t.collateralOut
              (env.GetZelnodeData st.g_zelnodeCache t.collateralOut).ip
              st.zelnodeTxBlockUndo.mapLastIpAddress
            rw [Option.isSome_iff_exists] at a1 a2 ⊢
            obtain ⟨x1, a1⟩ := a1
            obtain ⟨x2, a2⟩ := a2
            constructor
            · exact ⟨x1, i6 _ _ a1⟩
            · rw [Option.isSome_iff_exists]
              exact ⟨x2, i7 _ _ a2⟩
          · exact i8 hok t e hupd2

theorem find_new_none {V : Type} (k : COutPoint) : StdMap.find k ([] : StdMap COutPoint V) = none :=
  rfl

theorem hasUndoData_of_find (u : CZelnodeTxBlockUndo) (k : COutPoint) (v : Int)
    (h : StdMap.find k u.mapUpdateLastConfirmHeight = some v) : hasUndoData u = true := by
  unfold hasUndoData
  cases hm : u.mapUpdateLastConfirmHeight with
  | nil => rw [hm] at h; cases h
  | cons a l => simp

/-- The undo helpers of the modelled registry leave the two UpdateConfirm
maps alone. -/
theorem specEnv_keepsConfirmMaps (p : RegistryParams) (blocks : List (CBlockIndex × CBlock))
    (txs : List CTransaction) : (specEnv p blocks txs).KeepsConfirmMaps := by
  refine ⟨fun g u h => ⟨rfl, rfl⟩, fun g u h s => ⟨rfl, rfl⟩, ?_⟩
  intro g u c
  show (getUndoDataForPaidZelnodes g u c).mapUpdateLastConfirmHeight = _ ∧
    (getUndoDataForPaidZelnodes g u c).mapLastIpAddress = _
  unfold getUndoDataForPaidZelnodes
  generalize paidOutpoints c.pending = outs
  induction outs generalizing u with
  | nil => exact ⟨rfl, rfl⟩
  | cons o rest ih =>
    simp only [List.foldl_cons]
    have hstep : (recordPaid g u o).mapUpdateLastConfirmHeight = u.mapUpdateLastConfirmHeight ∧
        (recordPaid g u o).mapLastIpAddress = u.mapLastIpAddress := by
      unfold recordPaid
      split
      · split <;> exact ⟨rfl, rfl⟩
      · exact ⟨rfl, rfl⟩
    obtain ⟨a1, a2⟩ := ih (recordPaid g u o)
    exact ⟨a1.trans hstep.1, a2.trans hstep.2⟩

/-! ## UpdateConfirm without a record -/

/-- An UpdateConfirm whose outpoint has a null record in the global cache
never passes its transaction step. -/
theorem scanTx_update_null (env : Env Cache DB) (h : Int) (st : State Cache DB)
    (tx : CTransaction) (hupd : tx.isUpdateConfirm = true)
    (hnull : (env.GetZelnodeData st.g_zelnodeCache tx.collateralOut).IsNull = true) :
    (scanTx env h st tx).isOk = false := by
  rcases scanTx_undo env h st tx with ⟨_, hno⟩ | ⟨_, _, hnn, _⟩
  · exact hno hupd
  · rw [hnull] at hnn
    cases hnn

/-- When its collateral lookups succeed, the step of such an UpdateConfirm
ends with the error "Failed to find global data on update confirm tx". -/
theorem scanTx_update_null_error (env : Env Cache DB) (h : Int) (st : State Cache DB)
    (tx : CTransaction) (hupd : tx.isUpdateConfirm = true)
    (hcl : classifies env h tx = true)
    (hnull : (env.GetZelnodeData st.g_zelnodeCache tx.collateralOut).IsNull = true) :
    ∃ st3, scanTx env h st tx =
      Step.stop (Stop.error (RebuildError.failedToFindGlobalData tx.hash)) st3 := by
  unfold CTransaction.isUpdateConfirm at hupd
  simp only [Bool.and_eq_true, decide_eq_true_eq] at hupd
  obtain ⟨⟨hz, hty⟩, hu⟩ := hupd
  unfold classifies at hcl
  unfold scanTx
  simp only [hz, Bool.not_true, Bool.and_false, Bool.false_eq_true, if_false, if_true]
  cases hg : env.GetTransaction tx.collateralOut.hash with
  | none => rw [hg] at hcl; cases hcl
  | some get_tx =>
    rw [hg] at hcl
    simp only at hcl ⊢
    cases ho : get_tx.vout.get? tx.collateralOut.n with
    | none => rw [ho] at hcl; cases hcl
    | some txout =>
      rw [ho] at hcl
      simp only at hcl ⊢
      cases ht : env.GetCoinTierFromAmount h txout.nValue with
      | none => rw [ht] at hcl; cases hcl
      | some nTier =>
        have hn2 : (env.GetZelnodeData
            ((st.call (Call.GetTransaction tx.collateralOut.hash)).call
              (Call.GetCoinTierFromAmount h txout.nValue)).g_zelnodeCache
            tx.collateralOut).IsNull = true := hnull
        simp only [hty, hu, hn2, if_true]
        exact ⟨_, rfl⟩

/-- Claim C10, as the code has it. An UpdateConfirm transaction whose
collateral outpoint has a null record in the global cache as it was before
the block (`GetZelnodeData` finds it in no tracker) fails the block: the
block does not go through, the undo record holds no entry for the outpoint,
no undo record is written and nothing is flushed, the global cache and the
database stay as they were; and when the scan reaches the transaction with
its collateral found and classified, the error is "Failed to find global
data on update confirm tx". -/
theorem update_confirm_without_record_fails (env : Env Cache DB) (st : State Cache DB)
    (nHeight : Int) (block : CBlock) (pre post : List CTransaction) (tx : CTransaction)
    (hblock : block.vtx = pre ++ tx :: post)
    (hupd : tx.isUpdateConfirm = true)
    (hnull : (env.GetZelnodeData st.g_zelnodeCache tx.collateralOut).IsNull = true) :
    (processBlock env st nHeight block).isOk = false ∧
    StdMap.find tx.collateralOut
      (processBlock env st nHeight block).state.zelnodeTxBlockUndo.mapUpdateLastConfirmHeight
        = none ∧
    StdMap.find tx.collateralOut
      (processBlock env st nHeight block).state.zelnodeTxBlockUndo.mapLastIpAddress = none ∧
    (∃ newCalls, (processBlock env st nHeight block).state.calls = st.calls ++ newCalls ∧
      ∀ c ∈ newCalls, c.isWriteUndo = false ∧ c ≠ Call.Flush) ∧
    (processBlock env st nHeight block).state.g_zelnodeCache = st.g_zelnodeCache ∧
    (processBlock env st nHeight block).state.pZelnodeDB = st.pZelnodeDB ∧
    (classifies env nHeight tx = true →
      (scanTxs env nHeight (addPaidNodes env nHeight (beginBlock env st)) pre).isOk = true →
      ∃ st3, processBlock env st nHeight block =
        Step.stop (Stop.error (RebuildError.failedToFindGlobalData tx.hash)) st3) := by
  obtain ⟨b1, b2, _, b4, b5⟩ := scanStart_frame env nHeight st
  have hscan : (scanTxs env nHeight (addPaidNodes env nHeight (beginBlock env st))
      block.vtx).isOk = false := by
    rw [hblock, scanTxs_append]
    have hfr := (scanTxs_frame env nHeight pre (addPaidNodes env nHeight (beginBlock env st))).1
    cases hp : scanTxs env nHeight (addPaidNodes env nHeight (beginBlock env st)) pre with
    | stop why s1 => rfl
    | ok s1 =>
      rw [hp] at hfr
      simp only [Step.state] at hfr
      simp only [scanTxs]
      have hbad := scanTx_update_null env nHeight s1 tx hupd (by rw [hfr, b1]; exact hnull)
      cases hs : scanTx env nHeight s1 tx with
      | ok s2 => rw [hs] at hbad; cases hbad
      | stop why s2 => rfl
  have heq := processBlock_not_ok_of_scan env st nHeight block hscan
  obtain ⟨f1, f2, _, l, hl, hc⟩ :=
    scanTxs_frame env nHeight block.vtx (addPaidNodes env nHeight (beginBlock env st))
  obtain ⟨_, _, _, i4, i5, _, _, _⟩ :=
    scanTxs_undo env nHeight block.vtx (addPaidNodes env nHeight (beginBlock env st))
  rw [b1, b4] at i4 i5
  rw [heq]
  refine ⟨hscan, ?_, ?_, ?_, f1.trans b1, f2.trans b2, ?_⟩
  · cases hf : StdMap.find tx.collateralOut (scanTxs env nHeight
        (addPaidNodes env nHeight (beginBlock env st))
        block.vtx).state.zelnodeTxBlockUndo.mapUpdateLastConfirmHeight with
    | none => rfl
    | some v =>
      rcases i4 _ _ hf with hv | hv
      · cases hv
      · rw [hnull] at hv
        cases hv.1
  · cases hf : StdMap.find tx.collateralOut (scanTxs env nHeight
        (addPaidNodes env nHeight (beginBlock env st))
        block.vtx).state.zelnodeTxBlockUndo.mapLastIpAddress with
    | none => rfl
    | some v =>
      rcases i5 _ _ hf with hv | hv
      · cases hv
      · rw [hnull] at hv
        cases hv.1
  · refine ⟨paidCalls env st.g_zelnodeCache nHeight ++ l, ?_, ?_⟩
    · rw [hl, b5, List.append_assoc]
    · intro c hcm
      rcases List.mem_append.mp hcm with hcm | hcm
      · have := paidCalls_kind env _ _ c hcm
        cases c <;> simp_all [Call.isTail, Call.isWriteUndo]
      · have := (hc c hcm).1
        cases c <;> simp_all [Call.isScan, Call.isWriteUndo]
  · intro hcl hpre
    rw [hblock, scanTxs_append]
    have hfr := (scanTxs_frame env nHeight pre (addPaidNodes env nHeight (beginBlock env st))).1
    cases hp : scanTxs env nHeight (addPaidNodes env nHeight (beginBlock env st)) pre with
    | stop why s1 => rw [hp] at hpre; cases hpre
    | ok s1 =>
      rw [hp] at hfr
      simp only [Step.state] at hfr
      simp only [scanTxs]
      obtain ⟨st3, h3⟩ := scanTx_update_null_error env nHeight s1 tx hupd hcl
        (by rw [hfr, b1]; exact hnull)
      rw [h3]
      exact ⟨st3, rfl⟩

set_option maxRecDepth 100000 in
/-- Claim C10 as the code has it, on the sample registry: an UpdateConfirm
for the sample outpoint while no tracker holds it. -/
theorem update_confirm_without_record_fails_witness :
    sampleUpdateTx.isUpdateConfirm = true ∧
      ((sampleEnv []).GetZelnodeData (stateOver emptyCache).g_zelnodeCache
        sampleUpdateTx.collateralOut).IsNull = true ∧
      (processBlock (sampleEnv []) (stateOver emptyCache) 50
        { hash := 5, vtx := [samplePayment, sampleUpdateTx, sampleStartTx] }).isOk = false :=
  ⟨by decide, by decide,
    (update_confirm_without_record_fails (sampleEnv []) (stateOver emptyCache) 50
      { hash := 5, vtx := [samplePayment, sampleUpdateTx, sampleStartTx] }
      [samplePayment] [sampleStartTx] sampleUpdateTx rfl (by decide) (by decide)).1⟩

set_option maxRecDepth 100000 in
/-- Claim C10 as stated fails: with the sample node only in the Start
tracker (so not a confirmed record), a block with an UpdateConfirm for its
outpoint goes through and the undo record gets entries for the outpoint. -/
theorem update_confirm_started_node_passes :
    StdMap.find sampleOut startedCache.mapConfirmedZelnodeData = none ∧
      sampleUpdateTx.isUpdateConfirm = true ∧
      sampleUpdateTx.collateralOut = sampleOut ∧
      (processBlock (sampleEnv []) (stateOver startedCache) 50
        { hash := 5, vtx := [sampleUpdateTx] }).isOk = true ∧
      StdMap.find sampleOut
        (processBlock (sampleEnv []) (stateOver startedCache) 50
          { hash := 5, vtx := [sampleUpdateTx] }
          ).state.zelnodeTxBlockUndo.mapUpdateLastConfirmHeight = some 0 ∧
      StdMap.find sampleOut
        (processBlock (sampleEnv []) (stateOver startedCache) 50
          { hash := 5, vtx := [sampleUpdateTx] }
          ).state.zelnodeTxBlockUndo.mapLastIpAddress = some "10.0.0.1" := by
  decide

/-! ## What the undo record holds -/

theorem find_erase_self {V : Type} (k : COutPoint) (m : StdMap COutPoint V) :
    StdMap.find k (StdMap.erase k m) = none := by
  unfold StdMap.erase
  simp only [ne_eq, decide_not]
  induction m with
  | nil => rfl
  | cons p rest ih =>
    obtain ⟨k1, v1⟩ := p
    by_cases e : k1 = k
    · simp [List.filter_cons, e, ih]
    · have e2 : ¬ k = k1 := fun x => e x.symm
      simp [List.filter_cons, e, StdMap.find, e2, ih]

theorem find_erase_ne {V : Type} (k k0 : COutPoint) (m : StdMap COutPoint V) (h : k ≠ k0) :
    StdMap.find k (StdMap.erase k0 m) = StdMap.find k m := by
  unfold StdMap.erase
  simp only [ne_eq, decide_not]
  induction m with
  | nil => rfl
  | cons p rest ih =>
    obtain ⟨k1, v1⟩ := p
    by_cases e : k1 = k0
    · subst e
      simp [List.filter_cons, StdMap.find, h, ih]
    · by_cases e3 : k = k1
      · simp [List.filter_cons, e, StdMap.find, e3]
      · simp [List.filter_cons, e, StdMap.find, e3, ih]

theorem find_assign_origin {V : Type} (k k0 : COutPoint) (v w : V) (m : StdMap COutPoint V)
    (h : StdMap.find k (StdMap.assign k0 v m) = some w) :
    StdMap.find k m = some w ∨ (k = k0 ∧ w = v) := by
  unfold StdMap.assign at h
  by_cases e : k = k0
  · subst e
    rw [find_place_self k v _ (find_erase_self k m)] at h
    exact Or.inr ⟨rfl, (Option.some.inj h).symm⟩
  · rw [find_place_ne k0 k v _ e, find_erase_ne k k0 m e] at h
    exact Or.inl h

/-- Every entry that the modelled step 6 adds maps an outpoint to the
`nLastPaidHeight` of its confirmed record. -/
theorem paid_fold_origin (g : ZelnodeCache) (outs : List COutPoint) (u : CZelnodeTxBlockUndo)
    (k : COutPoint) (v : Int)
    (h : StdMap.find k (outs.foldl (recordPaid g) u).mapLastPaidHeights = some v) :
    StdMap.find k u.mapLastPaidHeights = some v ∨
      ∃ d, StdMap.find k g.mapConfirmedZelnodeData = some d ∧ v = d.nLastPaidHeight := by
  induction outs generalizing u with
  | nil => exact Or.inl h
  | cons o rest ih =>
    simp only [List.foldl_cons] at h
    rcases ih (recordPaid g u o) h with h1 | h1
    · unfold recordPaid at h1
      cases hd : StdMap.find o g.mapConfirmedZelnodeData with
      | none => rw [hd] at h1; exact Or.inl h1
      | some d =>
        rw [hd] at h1
        simp only at h1
        split at h1
        · exact Or.inl h1
        · rcases find_assign_origin _ _ _ _ _ h1 with h2 | ⟨e1, e2⟩
          · exact Or.inl h2
          · subst e1
            exact Or.inr ⟨d, hd, e2⟩
    · exact Or.inr h1

/-- Claim C3, as the code has it (helper modelled from the spec). In the undo
record of a block, every entry of `mapLastPaidHeights` maps an outpoint to one
integer, the `nLastPaidHeight` its confirmed record had before the block. -/
theorem paid_height_entries (p : RegistryParams) (blocks : List (CBlockIndex × CBlock))
    (txs : List CTransaction) (st : State ZelnodeCache ZelnodeDB) (nHeight : Int)
    (block : CBlock) (k : COutPoint) (v : Int)
    (hf : StdMap.find k
      (processBlock (specEnv p blocks txs) st nHeight block
        ).state.zelnodeTxBlockUndo.mapLastPaidHeights = some v) :
    ∃ d, StdMap.find k st.g_zelnodeCache.mapConfirmedZelnodeData = some d ∧
      v = d.nLastPaidHeight := by
  obtain ⟨b1, _, _, b4, _⟩ := scanStart_frame (specEnv p blocks txs) nHeight st
  obtain ⟨f1, _, _, _⟩ := scanTxs_frame (specEnv p blocks txs) nHeight block.vtx
    (addPaidNodes (specEnv p blocks txs) nHeight (beginBlock (specEnv p blocks txs) st))
  obtain ⟨_, _, i3, _⟩ := scanTxs_undo (specEnv p blocks txs) nHeight block.vtx
    (addPaidNodes (specEnv p blocks txs) nHeight (beginBlock (specEnv p blocks txs) st))
  rw [b4] at i3
  cases hs : scanTxs (specEnv p blocks txs) nHeight
      (addPaidNodes (specEnv p blocks txs) nHeight (beginBlock (specEnv p blocks txs) st))
      block.vtx with
  | stop why st2 =>
    rw [processBlock_scan_stop _ st nHeight block why st2 hs] at hf
    rw [hs] at i3
    simp only [Step.state] at hf i3
    rw [i3] at hf
    cases hf
  | ok st2 =>
    rw [hs] at i3 f1
    simp only [Step.state] at i3 f1
    have hundo : (processBlock (specEnv p blocks txs) st nHeight block).state.zelnodeTxBlockUndo =
        (collectUndoData (specEnv p blocks txs) nHeight st2).zelnodeTxBlockUndo := by
      rw [processBlock_scan_ok _ st nHeight block st2 hs]
      obtain ⟨_, w2, _, _⟩ := writeUndo_frame (specEnv p blocks txs) block.hash
        (collectUndoData (specEnv p blocks txs) nHeight st2)
      cases hw : writeUndo (specEnv p blocks txs) block.hash
          (collectUndoData (specEnv p blocks txs) nHeight st2) with
      | stop why st3 => rw [hw] at w2; exact w2
      | ok st3 =>
        rw [hw] at w2
        exact (flushBlock_frame _ st3).2.1.trans w2
    rw [hundo] at hf
    have hf2 := paid_fold_origin st2.g_zelnodeCache _ _ k v hf
    rw [f1, b1] at hf2
    rcases hf2 with h1 | h1
    · have : StdMap.find k st2.zelnodeTxBlockUndo.mapLastPaidHeights = some v := h1
      rw [i3] at this
      cases this
    · exact h1

set_option maxRecDepth 100000 in
/-- Claim C3 as the code has it, on the sample registry: the confirmed sample
node, last paid at height 50, is paid in a block at height 100. -/
theorem paid_height_entries_witness :
    StdMap.find sampleOut
        (processBlock (sampleEnv []) (stateOver confirmedCache) 100 {}
          ).state.zelnodeTxBlockUndo.mapLastPaidHeights = some 50 ∧
      ∃ d, StdMap.find sampleOut (stateOver confirmedCache).g_zelnodeCache.mapConfirmedZelnodeData
        = some d ∧ (50 : Int) = d.nLastPaidHeight :=
  ⟨by decide,
    paid_height_entries {} [(⟨1, 1001⟩, { hash := 1001, vtx := [] })] [sampleCollateralTx]
      (stateOver confirmedCache) 100 {} sampleOut 50 (by decide)⟩

set_option maxRecDepth 100000 in
/-- Claim C3 as stated fails: the same node confirmed with tier 1 and with
tier 2 gives the same undo record when it is paid, so the entry of
`mapLastPaidHeights` does not tell the tier. -/
theorem paid_entry_has_no_tier :
    (processBlock (sampleEnv []) (stateOver confirmedCache) 100 {}
        ).state.zelnodeTxBlockUndo.mapLastPaidHeights = [(sampleOut, 50)] ∧
      (processBlock (sampleEnv []) (stateOver confirmedCacheTier2) 100 {}
        ).state.zelnodeTxBlockUndo =
      (processBlock (sampleEnv []) (stateOver confirmedCache) 100 {}
        ).state.zelnodeTxBlockUndo ∧
      (confirmedCache.GetZelnodeData sampleOut).nTier = 1 ∧
      (confirmedCacheTier2.GetZelnodeData sampleOut).nTier = 2 := by
  decide

theorem scanTxs_withCheck (env : Env Cache DB) (f : Cache → Cache → Int → Cache) (h : Int)
    (txs : List CTransaction) (st : State Cache DB) :
    scanTxs (env.withCheckForExpiredStartTx f) h st txs = scanTxs env h st txs := by
  induction txs generalizing st with
  | nil => rfl
  | cons tx rest ih =>
    simp only [scanTxs]
    have e : scanTx (env.withCheckForExpiredStartTx f) h st tx = scanTx env h st tx := rfl
    rw [e]
    cases scanTx env h st tx with
    | ok st1 => exact ih st1
    | stop why st1 => rfl

/-- The undo write reads and changes nothing of the per-block cache. -/
theorem writeUndo_proj (env : Env Cache DB) (bh : Nat) (a b : State Cache DB)
    (hu : a.zelnodeTxBlockUndo = b.zelnodeTxBlockUndo) (hd : a.pZelnodeDB = b.pZelnodeDB)
    (hc : a.calls = b.calls) :
    (writeUndo env bh a).state.zelnodeTxBlockUndo = (writeUndo env bh b).state.zelnodeTxBlockUndo ∧
    (writeUndo env bh a).state.pZelnodeDB = (writeUndo env bh b).state.pZelnodeDB ∧
    (writeUndo env bh a).state.calls = (writeUndo env bh b).state.calls ∧
    (writeUndo env bh a).isOk = (writeUndo env bh b).isOk := by
  unfold writeUndo
  rw [hu, hd, hc]
  split
  · simp only
    split <;> exact ⟨rfl, rfl, rfl, rfl⟩
  · exact ⟨hu, hd, hc, rfl⟩

/-- Claim C4, as the code has it. The undo record of a block does not depend
on what `CheckForExpiredStartTx` does: the call gets only the height, after
the undo record has been filled, so with any other behaviour of that step the
block leaves the same undo record, the same database and the same calls (the
same undo write among them). -/
theorem start_expiration_not_in_undo (env : Env Cache DB)
    (f : Cache → Cache → Int → Cache) (st : State Cache DB) (nHeight : Int) (block : CBlock) :
    (processBlock (env.withCheckForExpiredStartTx f) st nHeight block).state.zelnodeTxBlockUndo =
      (processBlock env st nHeight block).state.zelnodeTxBlockUndo ∧
    (processBlock (env.withCheckForExpiredStartTx f) st nHeight block).state.pZelnodeDB =
      (processBlock env st nHeight block).state.pZelnodeDB ∧
    (processBlock (env.withCheckForExpiredStartTx f) st nHeight block).state.calls =
      (processBlock env st nHeight block).state.calls := by
  have e1 : addPaidNodes (env.withCheckForExpiredStartTx f) nHeight
      (beginBlock (env.withCheckForExpiredStartTx f) st) =
      addPaidNodes env nHeight (beginBlock env st) := rfl
  cases hs : scanTxs env nHeight (addPaidNodes env nHeight (beginBlock env st)) block.vtx with
  | stop why st2 =>
    have hs2 : scanTxs (env.withCheckForExpiredStartTx f) nHeight
        (addPaidNodes (env.withCheckForExpiredStartTx f) nHeight
          (beginBlock (env.withCheckForExpiredStartTx f) st)) block.vtx = Step.stop why st2 := by
      rw [e1, scanTxs_withCheck, hs]
    rw [processBlock_scan_stop _ st nHeight block why st2 hs,
      processBlock_scan_stop _ st nHeight block why st2 hs2]
    exact ⟨rfl, rfl, rfl⟩
  | ok st2 =>
    have hs2 : scanTxs (env.withCheckForExpiredStartTx f) nHeight
        (addPaidNodes (env.withCheckForExpiredStartTx f) nHeight
          (beginBlock (env.withCheckForExpiredStartTx f) st)) block.vtx = Step.ok st2 := by
      rw [e1, scanTxs_withCheck, hs]
    rw [processBlock_scan_ok _ st nHeight block st2 hs,
      processBlock_scan_ok _ st nHeight block st2 hs2]
    have ew : writeUndo (env.withCheckForExpiredStartTx f) block.hash
        (collectUndoData (env.withCheckForExpiredStartTx f) nHeight st2) =
        writeUndo env block.hash
          (collectUndoData (env.withCheckForExpiredStartTx f) nHeight st2) := rfl
    rw [ew]
    obtain ⟨p1, p2, p3, p4⟩ := writeUndo_proj env block.hash
      (collectUndoData (env.withCheckForExpiredStartTx f) nHeight st2)
      (collectUndoData env nHeight st2) rfl rfl rfl
    cases ha : writeUndo env block.hash
        (collectUndoData (env.withCheckForExpiredStartTx f) nHeight st2) with
    | stop whyA sA =>
      cases hb : writeUndo env block.hash (collectUndoData env nHeight st2) with
      | stop whyB sB =>
        rw [ha, hb] at p1 p2 p3
        exact ⟨p1, p2, p3⟩
      | ok sB => rw [ha, hb] at p4; cases p4
    | ok sA =>
      cases hb : writeUndo env block.hash (collectUndoData env nHeight st2) with
      | stop whyB sB => rw [ha, hb] at p4; cases p4
      | ok sB =>
        rw [ha, hb] at p1 p2 p3
        simp only [Step.state] at p1 p2 p3
        have ef : flushBlock (env.withCheckForExpiredStartTx f) sA = flushBlock env sA := rfl
        obtain ⟨a1, a2, a3⟩ := flushBlock_frame env sA
        obtain ⟨c1, c2, c3⟩ := flushBlock_frame env sB
        simp only [ef]
        exact ⟨a2.trans (p1.trans c2.symm), a1.trans (p2.trans c1.symm),
          a3.trans ((congrArg (· ++ [Call.Flush]) p3).trans c3.symm)⟩

set_option maxRecDepth 100000 in
/-- Claim C4 as stated fails: at height 100 the Start record of the sample
node (added at height 20) is moved to the DoS tracker, while the undo record
of the block is empty in all five members, the same as for a registry in
which nothing is moved. -/
theorem moved_start_record_not_in_undo :
    (expiredStartRecords {} startedCache 100).map Prod.fst = [sampleOut] ∧
      expiredStartRecords {} emptyCache 100 = [] ∧
      StdMap.find sampleOut startedCache.mapStartTxDosTracker = none ∧
      (StdMap.find sampleOut
        (processBlock (sampleEnv []) (stateOver startedCache) 100 {}
          ).state.g_zelnodeCache.mapStartTxDosTracker).isSome = true ∧
      (processBlock (sampleEnv []) (stateOver startedCache) 100 {}).state.zelnodeTxBlockUndo =
        CZelnodeTxBlockUndo.new ∧
      (processBlock (sampleEnv []) (stateOver emptyCache) 100 {}).state.zelnodeTxBlockUndo =
        CZelnodeTxBlockUndo.new := by
  decide

/-! ## UpdateConfirm undo capture -/

/-- Once an UpdateConfirm was accepted by the scan, its two undo entries hold
the values of the global cache as it was before the block, and they stay to
the end of the scan. -/
theorem scan_keeps_update_entries (env : Env Cache DB) (st : State Cache DB) (nHeight : Int)
    (pre post : List CTransaction) (tx : CTransaction)
    (hupd : tx.isUpdateConfirm = true)
    (hacc : accepts env st nHeight pre tx = true) :
    (env.GetZelnodeData st.g_zelnodeCache tx.collateralOut).IsNull = false ∧
    StdMap.find tx.collateralOut
      (scanTxs env nHeight (addPaidNodes env nHeight (beginBlock env st))
        (pre ++ tx :: post)).state.zelnodeTxBlockUndo.mapUpdateLastConfirmHeight =
      some (env.GetZelnodeData st.g_zelnodeCache tx.collateralOut).nLastConfirmedBlockHeight ∧
    StdMap.find tx.collateralOut
      (scanTxs env nHeight (addPaidNodes env nHeight (beginBlock env st))
        (pre ++ tx :: post)).state.zelnodeTxBlockUndo.mapLastIpAddress =
      some (env.GetZelnodeData st.g_zelnodeCache tx.collateralOut).ip := by
  unfold accepts at hacc
  obtain ⟨b1, _, _, b4, _⟩ := scanStart_frame env nHeight st
  obtain ⟨_, _, _, i4, i5, _, _, i8⟩ :=
    scanTxs_undo env nHeight (pre ++ [tx]) (addPaidNodes env nHeight (beginBlock env st))
  have hsplit : pre ++ tx :: post = (pre ++ [tx]) ++ post := by simp
  rw [hsplit, scanTxs_append]
  cases hs : scanTxs env nHeight (addPaidNodes env nHeight (beginBlock env st)) (pre ++ [tx]) with
  | stop why s1 => rw [hs] at hacc; cases hacc
  | ok s1 =>
    rw [hs] at i4 i5 i8
    simp only [Step.state, Step.isOk] at i4 i5 i8
    rw [b1, b4] at i4 i5
    obtain ⟨s1a, s1b⟩ := i8 trivial tx (by simp) hupd
    rw [Option.isSome_iff_exists] at s1a s1b
    obtain ⟨v1, s1a⟩ := s1a
    obtain ⟨v2, s1b⟩ := s1b
    have e1 : (env.GetZelnodeData st.g_zelnodeCache tx.collateralOut).IsNull = false ∧
        v1 = (env.GetZelnodeData st.g_zelnodeCache tx.collateralOut).nLastConfirmedBlockHeight := by
      rcases i4 _ _ s1a with hv | hv
      · cases hv
      · exact hv
    have e2 : v2 = (env.GetZelnodeData st.g_zelnodeCache tx.collateralOut).ip := by
      rcases i5 _ _ s1b with hv | hv
      · cases hv
      · exact hv.2
    obtain ⟨_, _, _, _, _, j6, j7, _⟩ := scanTxs_undo env nHeight post s1
    simp only
    refine ⟨e1.1, ?_, ?_⟩
    · rw [← e1.2]
      exact j6 _ _ s1a
    · rw [← e2]
      exact j7 _ _ s1b

/-- Claim C5. When the scan of a block reaches and accepts an UpdateConfirm
transaction, its collateral outpoint has a non-null record in the global
cache as it was before the block, and from then on the block's undo record
maps the outpoint to that record's `nLastConfirmedBlockHeight` and `ip`,
whatever else the block holds (also a second UpdateConfirm for the same
outpoint), although `AddUpdateConfirm` was called first; when the block goes
through, this is the record written to the database under the block's hash.
The undo helpers are assumed to leave the two maps alone. -/
theorem update_confirm_undo_capture (env : Env Cache DB) (hk : env.KeepsConfirmMaps)
    (st : State Cache DB) (nHeight : Int) (block : CBlock) (pre post : List CTransaction)
    (tx : CTransaction) (hblock : block.vtx = pre ++ tx :: post)
    (hupd : tx.isUpdateConfirm = true)
    (hacc : accepts env st nHeight pre tx = true) :
    (env.GetZelnodeData st.g_zelnodeCache tx.collateralOut).IsNull = false ∧
    StdMap.find tx.collateralOut
      (processBlock env st nHeight block).state.zelnodeTxBlockUndo.mapUpdateLastConfirmHeight =
      some (env.GetZelnodeData st.g_zelnodeCache tx.collateralOut).nLastConfirmedBlockHeight ∧
    StdMap.find tx.collateralOut
      (processBlock env st nHeight block).state.zelnodeTxBlockUndo.mapLastIpAddress =
      some (env.GetZelnodeData st.g_zelnodeCache tx.collateralOut).ip ∧
    ((processBlock env st nHeight block).isOk = true →
      Call.WriteBlockUndoZelnodeData block.hash
        (processBlock env st nHeight block).state.zelnodeTxBlockUndo ∈
        (processBlock env st nHeight block).state.calls) := by
  obtain ⟨hnn, s1, s2⟩ := scan_keeps_update_entries env st nHeight pre post tx hupd hacc
  rw [← hblock] at s1 s2
  cases hs : scanTxs env nHeight (addPaidNodes env nHeight (beginBlock env st)) block.vtx with
  | stop why st2 =>
    rw [processBlock_scan_stop env st nHeight block why st2 hs]
    rw [hs] at s1 s2
    exact ⟨hnn, s1, s2, fun hh => Bool.noConfusion hh⟩
  | ok st2 =>
    rw [hs] at s1 s2
    simp only [Step.state] at s1 s2
    obtain ⟨m1, m2⟩ := collectUndoData_maps env hk nHeight st2
    rw [processBlock_scan_ok env st nHeight block st2 hs]
    obtain ⟨_, w2, _, w4⟩ := writeUndo_frame env block.hash (collectUndoData env nHeight st2)
    have hdata : hasUndoData (collectUndoData env nHeight st2).zelnodeTxBlockUndo = true :=
      hasUndoData_of_find _ tx.collateralOut _ (by rw [m1]; exact s1)
    cases hw : writeUndo env block.hash (collectUndoData env nHeight st2) with
    | stop why st3 =>
      rw [hw] at w2
      simp only [Step.state] at w2 ⊢
      rw [w2, m1, m2]
      exact ⟨hnn, s1, s2, fun hh => Bool.noConfusion hh⟩
    | ok st3 =>
      rw [hw] at w2 w4
      simp only [Step.state] at w2 w4
      obtain ⟨_, f2, f3⟩ := flushBlock_frame env st3
      rw [hdata] at w4
      have hundo : (flushBlock env st3).state.zelnodeTxBlockUndo =
          (collectUndoData env nHeight st2).zelnodeTxBlockUndo := f2.trans w2
      show _ ∧ StdMap.find _ (flushBlock env st3).state.zelnodeTxBlockUndo.mapUpdateLastConfirmHeight
        = _ ∧ StdMap.find _ (flushBlock env st3).state.zelnodeTxBlockUndo.mapLastIpAddress = _ ∧
        (_ → Call.WriteBlockUndoZelnodeData block.hash
          (flushBlock env st3).state.zelnodeTxBlockUndo ∈ (flushBlock env st3).state.calls)
      rw [hundo, m1, m2]
      refine ⟨hnn, s1, s2, fun _ => ?_⟩
      rw [f3, w4]
      simp

set_option maxRecDepth 100000 in
/-- Claim C5, on the sample registry: a block at height 100 with two
UpdateConfirm transactions for the confirmed sample node. -/
theorem update_confirm_undo_capture_witness :
    sampleUpdateTx.isUpdateConfirm = true ∧
      accepts (sampleEnv []) (stateOver confirmedCache) 100 [sampleUpdateTx, samplePayment]
        sampleUpdateTx = true ∧
      StdMap.find sampleOut
        (processBlock (sampleEnv []) (stateOver confirmedCache) 100
          { hash := 5, vtx := [sampleUpdateTx, samplePayment, sampleUpdateTx] }
          ).state.zelnodeTxBlockUndo.mapUpdateLastConfirmHeight = some 90 ∧
      StdMap.find sampleOut
        (processBlock (sampleEnv []) (stateOver confirmedCache) 100
          { hash := 5, vtx := [sampleUpdateTx, samplePayment, sampleUpdateTx] }
          ).state.zelnodeTxBlockUndo.mapLastIpAddress = some "10.0.0.1" :=
  have h := update_confirm_undo_capture (sampleEnv []) (specEnv_keepsConfirmMaps _ _ _)
    (stateOver confirmedCache) 100
    { hash := 5, vtx := [sampleUpdateTx, samplePayment, sampleUpdateTx] }
    [sampleUpdateTx, samplePayment] [] sampleUpdateTx rfl (by decide) (by decide)
  ⟨by decide, by decide, h.2.1, h.2.2.1⟩

/-! ## The model on the sample chain -/

set_option maxRecDepth 100000 in
/-- On the sample chain with a Start transaction at height 1 the rescan goes
through and returns true, and the node ends in the Start tracker. -/
theorem sample_rescan_returns_true :
    (rebuildzelnodedb (sampleEnv [sampleCoinbase, samplePayment, sampleStartTx])
        sampleChain emptyCache).1 = some true ∧
      (StdMap.find sampleOut
        (rebuildzelnodedb (sampleEnv [sampleCoinbase, samplePayment, sampleStartTx])
          sampleChain emptyCache).2.g_zelnodeCache.mapStartTxTracker).isSome = true := by
  decide

set_option maxRecDepth 100000 in
/-- On the sample chain a node transaction with a missing collateral
transaction, or with a collateral amount without a tier, makes the rescan
return false, and the block at height 2 is not read. -/
theorem sample_rescan_returns_false :
    (rebuildzelnodedb (sampleEnv [sampleCoinbase, samplePayment, sampleMissingTx, sampleStartTx])
        sampleChain emptyCache).1 = some false ∧
      (rebuildzelnodedb (sampleEnv [sampleCoinbase, sampleOddAmountTx, sampleStartTx])
        sampleChain emptyCache).1 = some false ∧
      Call.ReadBlockFromDisk ⟨2, 1002⟩ ∉
        (rebuildzelnodedb (sampleEnv [sampleCoinbase, samplePayment, sampleMissingTx,
          sampleStartTx]) sampleChain emptyCache).2.calls := by
  decide

set_option maxRecDepth 100000 in
/-- On the sample chain the spent set handed over for the block at height 1
holds the two prevouts of the ordinary payment, and nothing of the coinbase
or of the node transaction. -/
theorem sample_rescan_spent_set :
    Call.GetUndoDataForExpiredConfirmZelnodes 1 [⟨55, 2⟩, ⟨56, 0⟩] ∈
      (rebuildzelnodedb (sampleEnv [sampleCoinbase, samplePayment, sampleStartTx])
        sampleChain emptyCache).2.calls := by
  decide

/-! ## The order of the calls of a block -/

theorem callsOfBlock_eq (env : Env Cache DB) (st : State Cache DB) (h : Int) (block : CBlock)
    (l : List Call) (hl : (processBlock env st h block).state.calls = st.calls ++ l) :
    callsOfBlock env st h block = l := by
  unfold callsOfBlock
  rw [hl, List.drop_left]

/-- The calls of a block in full: payment selection, scan, the six calls of
lines 187-199, the undo write when there is undo data, and `Flush` when the
write did not fail. -/
theorem processBlock_calls_exact (env : Env Cache DB) (st : State Cache DB) (h : Int)
    (block : CBlock) :
    ∃ scanL undo1 undo2,
      (∀ c ∈ scanL, c.isScan = true) ∧
      (blockScan env st h block).state.calls =
        st.calls ++ (paidCalls env st.g_zelnodeCache h ++ scanL) ∧
      callsOfBlock env st h block =
        paidCalls env st.g_zelnodeCache h ++ scanL ++
          (if (blockScan env st h block).isOk then
            expirationCalls h undo1 (blockScan env st h block).state.setSpentOutPoints undo2 ++
              ((if hasUndoData (collectUndoData env h (blockScan env st h block).state).zelnodeTxBlockUndo
                then [Call.WriteBlockUndoZelnodeData block.hash
                  (collectUndoData env h (blockScan env st h block).state).zelnodeTxBlockUndo]
                else []) ++
               (if (writeUndo env block.hash
                  (collectUndoData env h (blockScan env st h block).state)).isOk
                then [Call.Flush] else []))
          else []) := by
  obtain ⟨_, _, b3, _, b5⟩ := scanStart_frame env h st
  obtain ⟨_, _, _, l, hl, hc⟩ :=
    scanTxs_frame env h block.vtx (addPaidNodes env h (beginBlock env st))
  unfold blockScan
  cases hs : scanTxs env h (addPaidNodes env h (beginBlock env st)) block.vtx with
  | stop why st2 =>
    rw [hs] at hl
    simp only [Step.state] at hl
    refine ⟨l, {}, {}, fun c hcl => (hc c hcl).1, ?_, ?_⟩
    · simp only [Step.state]
      rw [hl, b5, List.append_assoc]
    · apply callsOfBlock_eq
      rw [processBlock_scan_stop env st h block why st2 hs]
      simp only [Step.state, Step.isOk, Bool.false_eq_true, if_false, List.append_nil]
      rw [hl, b5, List.append_assoc]
  | ok st2 =>
    rw [hs] at hl
    simp only [Step.state] at hl
    obtain ⟨_, _, c3, u1, u2, c4⟩ := collectUndoData_frame env h st2
    obtain ⟨_, _, _, w4⟩ := writeUndo_frame env block.hash (collectUndoData env h st2)
    refine ⟨l, u1, u2, fun c hcl => (hc c hcl).1, ?_, ?_⟩
    · simp only [Step.state]
      rw [hl, b5, List.append_assoc]
    · apply callsOfBlock_eq
      rw [processBlock_scan_ok env st h block st2 hs]
      simp only [Step.state, Step.isOk, if_true]
      match hw : writeUndo env block.hash (collectUndoData env h st2) with
      | Step.stop why st3 =>
        rw [hw] at w4
        simp only [Step.state] at w4 ⊢
        rw [w4, c4, hl, b5]
        simp only [Step.isOk, Bool.false_eq_true, if_false, List.append_nil, expirationCalls,
          List.append_assoc]
      | Step.ok st3 =>
        rw [hw] at w4
        simp only [Step.state] at w4
        obtain ⟨_, _, f3⟩ := flushBlock_frame env st3
        show (flushBlock env st3).state.calls = _
        rw [f3, w4, c4, hl, b5]
        simp only [Step.isOk, if_true, expirationCalls, List.append_assoc]

/-- C11 (amended): within one block of `rebuildzelnodedb` the calls run in
this order: payment selection, the scan of the transactions, the DoS
expirations, the Confirmed expirations, the undo data of the paid nodes, and
only then `CheckForExpiredStartTx`; after them the undo write and `Flush`.
The Start-tx expiration step runs after the DoS and the Confirmed expiration
steps, not before them. -/
theorem block_call_order (env : Env Cache DB) (st : State Cache DB) (h : Int) (block : CBlock) :
    ∃ scanL undo1 undo2 undo3 wl,
      (∀ c ∈ paidCalls env st.g_zelnodeCache h, c.isPaymentSelection = true) ∧
      (∀ c ∈ scanL, c.isScan = true) ∧
      wl.Sublist [Call.WriteBlockUndoZelnodeData block.hash undo3, Call.Flush] ∧
      callsOfBlock env st h block =
        paidCalls env st.g_zelnodeCache h ++ scanL ++
          (if (blockScan env st h block).isOk then
            [Call.GetUndoDataForExpiredZelnodeDosScores h,
             Call.AddExpiredDosTx undo1 h,
             Call.GetUndoDataForExpiredConfirmZelnodes h
               (blockScan env st h block).state.setSpentOutPoints,
             Call.AddExpiredConfirmTx undo2,
             Call.GetUndoDataForPaidZelnodes,
             Call.CheckForExpiredStartTx h] ++ wl
          else []) := by
  obtain ⟨scanL, u1, u2, h1, _, h3⟩ := processBlock_calls_exact env st h block
  refine ⟨scanL, u1, u2,
    (collectUndoData env h (blockScan env st h block).state).zelnodeTxBlockUndo, _, ?_, h1, ?_, h3⟩
  · intro c hc
    unfold paidCalls at hc
    split at hc
    · obtain ⟨t, _, hm⟩ := List.mem_flatMap.mp hc
      unfold paymentCalls at hm
      rcases List.mem_cons.mp hm with e | e
      · subst e; rfl
      · cases hg : env.GetNextPayment st.g_zelnodeCache t with
        | none => rw [hg] at e; simp at e
        | some o =>
          rw [hg] at e
          simp only [List.mem_singleton] at e
          subst e; rfl
    · simp at hc
  · split <;> split <;> simp

set_option maxRecDepth 100000 in
/-- C11 (counterexample): in the block at height 100 over the sample registry
the expiration calls come in the order DoS, Confirmed, Start:
`CheckForExpiredStartTx` is the last of them, not the first. -/
theorem start_expiration_runs_last :
    (callsOfBlock (sampleEnv [sampleStartTx]) (stateOver confirmedCache) 100
        { hash := 1001, vtx := [sampleStartTx] }).filter Call.isExpiration =
      [Call.GetUndoDataForExpiredZelnodeDosScores 100,
       Call.AddExpiredDosTx {} 100,
       Call.GetUndoDataForExpiredConfirmZelnodes 100 [],
       Call.AddExpiredConfirmTx {},
       Call.CheckForExpiredStartTx 100] := by
  decide

/-! ## The undo write of a block -/

theorem isOk_iff {σ : Type} (s : Step σ) : s.isOk = true ↔ ∃ st, s = Step.ok st := by
  cases s with
  | ok st => simp [Step.isOk]
  | stop why st => simp [Step.isOk]

/-- A block that goes through went through its scan, its undo write and its
flush. -/
theorem processBlock_ok_inv (env : Env Cache DB) (st : State Cache DB) (h : Int)
    (block : CBlock) (hok : (processBlock env st h block).isOk = true) :
    ∃ st2 st3 st4,
      blockScan env st h block = Step.ok st2 ∧
      writeUndo env block.hash (collectUndoData env h st2) = Step.ok st3 ∧
      flushBlock env st3 = Step.ok st4 ∧
      processBlock env st h block = Step.ok st4 := by
  unfold blockScan
  match hs : scanTxs env h (addPaidNodes env h (beginBlock env st)) block.vtx with
  | Step.stop why st2 =>
    rw [processBlock_scan_stop env st h block why st2 hs] at hok
    exact Bool.noConfusion hok
  | Step.ok st2 =>
    rw [processBlock_scan_ok env st h block st2 hs] at hok ⊢
    match hw : writeUndo env block.hash (collectUndoData env h st2) with
    | Step.stop why st3 =>
      rw [hw] at hok
      exact Bool.noConfusion hok
    | Step.ok st3 =>
      rw [hw] at hok
      simp only at hok ⊢
      match hf : flushBlock env st3 with
      | Step.stop why st4 =>
        rw [hf] at hok
        exact Bool.noConfusion hok
      | Step.ok st4 => exact ⟨st2, st3, st4, rfl, hw, hf, rfl⟩

theorem writeUndo_ok (env : Env Cache DB) (bh : Nat) (st st3 : State Cache DB)
    (hw : writeUndo env bh st = Step.ok st3) :
    st3.pZelnodeDB =
        (if hasUndoData st.zelnodeTxBlockUndo then
          (env.WriteBlockUndoZelnodeData st.pZelnodeDB bh st.zelnodeTxBlockUndo).2
        else st.pZelnodeDB) ∧
      (hasUndoData st.zelnodeTxBlockUndo = true →
        (env.WriteBlockUndoZelnodeData st.pZelnodeDB bh st.zelnodeTxBlockUndo).1 = true) := by
  unfold writeUndo at hw
  cases hu : hasUndoData st.zelnodeTxBlockUndo
  · rw [hu] at hw
    simp only [Bool.false_eq_true, if_false] at hw ⊢
    injection hw with hw
    subst hw
    exact ⟨rfl, fun hh => hh.elim⟩
  · rw [hu] at hw
    simp only [if_true] at hw ⊢
    cases h1 : (env.WriteBlockUndoZelnodeData st.pZelnodeDB bh st.zelnodeTxBlockUndo).1
    · rw [h1] at hw
      simp at hw
    · rw [h1] at hw
      simp only [Bool.not_true, Bool.false_eq_true, if_false] at hw
      injection hw with hw
      subst hw
      exact ⟨rfl, fun _ => rfl⟩

theorem filter_write_of_scan (l : List Call) (hl : ∀ c ∈ l, c.isScan = true) :
    l.filter Call.isWriteUndo = [] := by
  rw [List.filter_eq_nil_iff]
  intro c hc
  have := hl c hc
  cases c <;> simp_all [Call.isScan, Call.isWriteUndo]

theorem filter_write_of_payment (l : List Call) (hl : ∀ c ∈ l, c.isPaymentSelection = true) :
    l.filter Call.isWriteUndo = [] := by
  rw [List.filter_eq_nil_iff]
  intro c hc
  have := hl c hc
  cases c <;> simp_all [Call.isPaymentSelection, Call.isWriteUndo]

theorem paidCalls_payment (env : Env Cache DB) (g : Cache) (h : Int) :
    ∀ c ∈ paidCalls env g h, c.isPaymentSelection = true := by
  intro c hc
  unfold paidCalls at hc
  split at hc
  · obtain ⟨t, _, hm⟩ := List.mem_flatMap.mp hc
    unfold paymentCalls at hm
    rcases List.mem_cons.mp hm with e | e
    · subst e; rfl
    · cases hg : env.GetNextPayment g t with
      | none => rw [hg] at e; simp at e
      | some o =>
        rw [hg] at e
        simp only [List.mem_singleton] at e
        subst e; rfl
  · simp at hc

/-- The undo writes among the calls of a block: one, when the scan went
through and the record has undo data; none otherwise. -/
theorem write_calls_of_block (env : Env Cache DB) (st : State Cache DB) (h : Int)
    (block : CBlock) :
    (callsOfBlock env st h block).filter Call.isWriteUndo =
      (if (blockScan env st h block).isOk &&
          hasUndoData (collectUndoData env h (blockScan env st h block).state).zelnodeTxBlockUndo
        then [Call.WriteBlockUndoZelnodeData block.hash
          (collectUndoData env h (blockScan env st h block).state).zelnodeTxBlockUndo]
        else []) := by
  obtain ⟨scanL, u1, u2, h1, _, h3⟩ := processBlock_calls_exact env st h block
  rw [h3]
  simp only [List.filter_append, filter_write_of_scan scanL h1,
    filter_write_of_payment _ (paidCalls_payment env st.g_zelnodeCache h), List.nil_append]
  cases (blockScan env st h block).isOk
  · simp
  · simp only [if_true, Bool.true_and, List.filter_append, expirationCalls]
    cases hasUndoData (collectUndoData env h (blockScan env st h block).state).zelnodeTxBlockUndo
    · simp only [Bool.false_eq_true, if_false]
      split <;> simp [List.filter, Call.isWriteUndo]
    · simp only [if_true]
      split <;> simp [List.filter, Call.isWriteUndo]

/-- C12 (amended): a block that `rebuildzelnodedb` applies gets an undo record
written under its hash exactly when the record has undo data, that is when
one of `vecExpiredDosData`, `vecExpiredConfirmedData`,
`mapUpdateLastConfirmHeight`, `mapLastPaidHeights` is not empty; then there is
one write, of the block's record under the block's hash, and it succeeded. A
block whose record has none of the four is applied without any undo write and
the database is left as it was. -/
theorem undo_written_iff_data (env : Env Cache DB) (st : State Cache DB) (h : Int)
    (block : CBlock) (hok : (processBlock env st h block).isOk = true) :
    (callsOfBlock env st h block).filter Call.isWriteUndo =
        (if hasUndoData (processBlock env st h block).state.zelnodeTxBlockUndo then
          [Call.WriteBlockUndoZelnodeData block.hash
            (processBlock env st h block).state.zelnodeTxBlockUndo]
        else []) ∧
      (processBlock env st h block).state.pZelnodeDB =
        (if hasUndoData (processBlock env st h block).state.zelnodeTxBlockUndo then
          (env.WriteBlockUndoZelnodeData st.pZelnodeDB block.hash
            (processBlock env st h block).state.zelnodeTxBlockUndo).2
        else st.pZelnodeDB) ∧
      (hasUndoData (processBlock env st h block).state.zelnodeTxBlockUndo = true →
        (env.WriteBlockUndoZelnodeData st.pZelnodeDB block.hash
          (processBlock env st h block).state.zelnodeTxBlockUndo).1 = true) := by
  obtain ⟨st2, st3, st4, hs, hw, hf, hp⟩ := processBlock_ok_inv env st h block hok
  have hwc := write_calls_of_block env st h block
  rw [hs] at hwc
  simp only [Step.isOk, Step.state, Bool.true_and] at hwc
  obtain ⟨_, w2, _, _⟩ := writeUndo_frame env block.hash (collectUndoData env h st2)
  rw [hw] at w2
  simp only [Step.state] at w2
  obtain ⟨f1, f2, _⟩ := flushBlock_frame env st3
  rw [hf] at f1 f2
  simp only [Step.state] at f1 f2
  obtain ⟨d1, d2⟩ := writeUndo_ok env block.hash (collectUndoData env h st2) st3 hw
  have hdb : (collectUndoData env h st2).pZelnodeDB = st.pZelnodeDB := by
    obtain ⟨_, c2, _⟩ := collectUndoData_frame env h st2
    obtain ⟨_, s2, _⟩ := scanTxs_frame env h block.vtx (addPaidNodes env h (beginBlock env st))
    obtain ⟨_, b2, _⟩ := scanStart_frame env h st
    unfold blockScan at hs
    rw [hs] at s2
    simp only [Step.state] at s2
    rw [c2, s2, b2]
  rw [hp]
  simp only [Step.state]
  rw [f2, w2, f1]
  rw [hdb] at d1 d2
  exact ⟨hwc, d1, d2⟩

set_option maxRecDepth 100000 in
/-- C12 (witness): the block of the sample chain that pays the confirmed
sample node is applied and its undo record is written under its hash. -/
theorem undo_written_iff_data_witness :
    (processBlock (sampleEnv []) (stateOver confirmedCache) 100
        { hash := 1001, vtx := [] }).isOk = true ∧
      (callsOfBlock (sampleEnv []) (stateOver confirmedCache) 100
          { hash := 1001, vtx := [] }).filter Call.isWriteUndo =
        [Call.WriteBlockUndoZelnodeData 1001 { mapLastPaidHeights := [(sampleOut, 50)] }] :=
  ⟨by decide,
    (undo_written_iff_data (sampleEnv []) (stateOver confirmedCache) 100
      { hash := 1001, vtx := [] } (by decide)).1.trans (by decide)⟩

set_option maxRecDepth 100000 in
/-- C12 (counterexample): over a registry without nodes an empty block is
applied, `Flush` included, and no undo record is written for it: the log has
no undo write and the database holds no undo entry. -/
theorem applied_block_without_undo_entry :
    (processBlock (sampleEnv []) (stateOver emptyCache) 100
        { hash := 1001, vtx := [] }).isOk = true ∧
      Call.Flush ∈ callsOfBlock (sampleEnv []) (stateOver emptyCache) 100
        { hash := 1001, vtx := [] } ∧
      (callsOfBlock (sampleEnv []) (stateOver emptyCache) 100
        { hash := 1001, vtx := [] }).filter Call.isWriteUndo = [] ∧
      (processBlock (sampleEnv []) (stateOver emptyCache) 100
        { hash := 1001, vtx := [] }).state.pZelnodeDB.undo = [] := by
  decide

/-! ## The per-block cache and the flush -/

theorem flushBlock_cache (env : Env Cache DB) (st : State Cache DB) :
    (flushBlock env st).state.g_zelnodeCache = (env.Flush st.g_zelnodeCache st.zelnodeCache).2 ∧
    (flushBlock env st).state.zelnodeCache = st.zelnodeCache ∧
    (flushBlock env st).isError = false := by
  unfold flushBlock
  simp only
  split <;> simp [Step.state, Step.isError]

/-- The global cache is the one the block started with up to the flush. -/
theorem global_cache_before_flush (env : Env Cache DB) (st : State Cache DB) (h : Int)
    (block : CBlock) :
    (blockScan env st h block).state.g_zelnodeCache = st.g_zelnodeCache ∧
    (collectUndoData env h (blockScan env st h block).state).g_zelnodeCache =
      st.g_zelnodeCache ∧
    (writeUndo env block.hash
      (collectUndoData env h (blockScan env st h block).state)).state.g_zelnodeCache =
      st.g_zelnodeCache ∧
    (writeUndo env block.hash
      (collectUndoData env h (blockScan env st h block).state)).state.zelnodeCache =
      (collectUndoData env h (blockScan env st h block).state).zelnodeCache := by
  obtain ⟨b1, _⟩ := scanStart_frame env h st
  obtain ⟨s1, _⟩ := scanTxs_frame env h block.vtx (addPaidNodes env h (beginBlock env st))
  obtain ⟨c1, _⟩ := collectUndoData_frame env h (blockScan env st h block).state
  obtain ⟨w1, _, w3, _⟩ :=
    writeUndo_frame env block.hash (collectUndoData env h (blockScan env st h block).state)
  have e1 : (blockScan env st h block).state.g_zelnodeCache = st.g_zelnodeCache := by
    unfold blockScan
    rw [s1, b1]
  exact ⟨e1, c1.trans e1, w1.trans (c1.trans e1), w3⟩

/-- The three ways a block ends: the scan stops; the undo write stops; or
the block reaches `Flush`. -/
theorem processBlock_cases (env : Env Cache DB) (st : State Cache DB) (h : Int)
    (block : CBlock) :
    ((blockScan env st h block).isOk = false ∧
      processBlock env st h block = blockScan env st h block) ∨
    ((blockScan env st h block).isOk = true ∧
      (writeUndo env block.hash
        (collectUndoData env h (blockScan env st h block).state)).isOk = false ∧
      processBlock env st h block =
        writeUndo env block.hash (collectUndoData env h (blockScan env st h block).state)) ∨
    ((blockScan env st h block).isOk = true ∧
      (writeUndo env block.hash
        (collectUndoData env h (blockScan env st h block).state)).isOk = true ∧
      processBlock env st h block =
        flushBlock env (writeUndo env block.hash
          (collectUndoData env h (blockScan env st h block).state)).state) := by
  unfold blockScan
  match hs : scanTxs env h (addPaidNodes env h (beginBlock env st)) block.vtx with
  | Step.stop why st2 =>
    exact Or.inl ⟨rfl, processBlock_scan_stop env st h block why st2 hs⟩
  | Step.ok st2 =>
    refine Or.inr ?_
    rw [processBlock_scan_ok env st h block st2 hs]
    simp only [Step.state]
    match hw : writeUndo env block.hash (collectUndoData env h st2) with
    | Step.stop why st3 => exact Or.inl ⟨rfl, rfl, rfl⟩
    | Step.ok st3 => exact Or.inr ⟨rfl, rfl, rfl⟩

theorem rebuildzelnodedb_eq (env : Env Cache DB) (chainActive : List CBlockIndex) (g : Cache) :
    rebuildzelnodedb env chainActive g =
      match chainAt chainActive (fromHeight env) with
      | none => (none, resetState env g)
      | some rescanIndex =>
        match rebuildLoop env (totalBlocks chainActive rescanIndex) (resetState env g)
            (rescanRange env chainActive) with
        | Step.stop (Stop.error _) st1 => (some false, st1)
        | Step.stop _ st1 => (none, st1)
        | Step.ok st1 =>
          (some true,
            { st1 with
              pZelnodeDB := env.DumpZelnodeCache st1.g_zelnodeCache st1.pZelnodeDB
              calls := st1.calls ++ [Call.DumpZelnodeCache] }) :=
  rfl

theorem rebuildLoop_append (env : Env Cache DB) (n : Int) (st : State Cache DB)
    (a b : List CBlockIndex) :
    rebuildLoop env n st (a ++ b) =
      match rebuildLoop env n st a with
      | Step.ok st1 => rebuildLoop env n st1 b
      | Step.stop why st1 => Step.stop why st1 := by
  induction a generalizing st with
  | nil => rfl
  | cons idx rest ih =>
    simp only [List.cons_append, rebuildLoop]
    cases loopBody env n st idx with
    | ok st1 => exact ih st1
    | stop why st1 => rfl

/-- A block rejected with `error(...)` leaves the global cache as it was. -/
theorem processBlock_error_global (env : Env Cache DB) (st : State Cache DB) (h : Int)
    (block : CBlock) (he : (processBlock env st h block).isError = true) :
    (processBlock env st h block).state.g_zelnodeCache = st.g_zelnodeCache := by
  obtain ⟨g1, _, g3, _⟩ := global_cache_before_flush env st h block
  rcases processBlock_cases env st h block with ⟨_, hp⟩ | ⟨_, _, hp⟩ | ⟨_, _, hp⟩
  · rw [hp]; exact g1
  · rw [hp]; exact g3
  · rw [hp, (flushBlock_cache env _).2.2] at he
    exact Bool.noConfusion he

theorem isError_iff {σ : Type} (s : Step σ) :
    s.isError = true ↔ ∃ e st, s = Step.stop (Stop.error e) st := by
  cases s with
  | ok st => simp [Step.isError]
  | stop why st => cases why <;> simp [Step.isError]

/-- A pass of the loop that ends with `error(...)` leaves the global cache as
it was at the top of the pass. -/
theorem loopBody_error_global (env : Env Cache DB) (n : Int) (st : State Cache DB)
    (idx : CBlockIndex) (he : (loopBody env n st idx).isError = true) :
    (loopBody env n st idx).state.g_zelnodeCache = st.g_zelnodeCache := by
  unfold loopBody at he ⊢
  unfold printProgress at he ⊢
  by_cases h1 : st.nPrintTrigger ≤ 0
  · by_cases h2 : n = 0
    · simp only [h1, h2, if_true] at he
      exact Bool.noConfusion he
    · simp only [h1, h2, if_true, if_false] at he ⊢
      exact processBlock_error_global env _ _ _ he
  · simp only [h1, if_false] at he ⊢
    exact processBlock_error_global env _ _ _ he

/-- C14: when the rescan fails with `error(...)` at a block, after the blocks
before it went through, `rebuildzelnodedb` returns false and the global cache
it leaves is the one reached from the reset state by the blocks before the
failing one, each of them flushed: nothing brings back the cache the call
started with. When the loop goes through all blocks the call returns the bare
value true. -/
theorem rebuild_not_atomic (env : Env Cache DB) (chainActive : List CBlockIndex) (g : Cache)
    (rescanIndex : CBlockIndex)
    (hstart : chainAt chainActive (fromHeight env) = some rescanIndex) :
    (∀ before idx later, rescanRange env chainActive = before ++ idx :: later →
      (rebuildLoop env (totalBlocks chainActive rescanIndex) (resetState env g) before).isOk =
        true →
      (loopBody env (totalBlocks chainActive rescanIndex)
        (rebuildLoop env (totalBlocks chainActive rescanIndex) (resetState env g) before).state
        idx).isError = true →
      (rebuildzelnodedb env chainActive g).1 = some false ∧
      (rebuildzelnodedb env chainActive g).2.g_zelnodeCache =
        (rebuildLoop env (totalBlocks chainActive rescanIndex) (resetState env g)
          before).state.g_zelnodeCache) ∧
    ((rebuildLoop env (totalBlocks chainActive rescanIndex) (resetState env g)
        (rescanRange env chainActive)).isOk = true →
      (rebuildzelnodedb env chainActive g).1 = some true) := by
  constructor
  · intro before idx later hsplit hbefore hfail
    obtain ⟨s1, hs1⟩ := (isOk_iff _).mp hbefore
    have hg := loopBody_error_global env _ _ idx hfail
    rw [hs1] at hfail hg ⊢
    simp only [Step.state] at hfail hg ⊢
    obtain ⟨e, s2, hs2⟩ := (isError_iff _).mp hfail
    have hloop : rebuildLoop env (totalBlocks chainActive rescanIndex) (resetState env g)
        (rescanRange env chainActive) = Step.stop (Stop.error e) s2 := by
      rw [hsplit, rebuildLoop_append, hs1]
      simp only [rebuildLoop]
      rw [hs2]
    rw [hs2] at hg
    simp only [Step.state] at hg
    rw [rebuildzelnodedb_eq, hstart]
    simp only []
    rw [hloop]
    exact ⟨rfl, hg⟩
  · intro hok
    obtain ⟨s1, hs1⟩ := (isOk_iff _).mp hok
    rw [rebuildzelnodedb_eq, hstart]
    simp only []
    rw [hs1]

set_option maxRecDepth 100000 in
/-- C14 (witness): on the sample chain the block at height 1 starts the sample
node and the block at height 2 is rejected. The call returns false and the
global cache holds the node started at height 1; it is not the cache the call
was made with, where the node was confirmed. On the chain without the bad
block the call returns true. -/
theorem rebuild_not_atomic_witness :
    ((rebuildzelnodedb sampleFailingEnv sampleChain confirmedCache).1 = some false ∧
      (rebuildzelnodedb sampleFailingEnv sampleChain confirmedCache).2.g_zelnodeCache =
        (rebuildLoop sampleFailingEnv (totalBlocks sampleChain ⟨0, 1000⟩)
          (resetState sampleFailingEnv confirmedCache)
          [⟨0, 1000⟩, ⟨1, 1001⟩]).state.g_zelnodeCache) ∧
      (StdMap.find sampleOut
        (rebuildzelnodedb sampleFailingEnv sampleChain
          confirmedCache).2.g_zelnodeCache.mapStartTxTracker).isSome = true ∧
      (rebuildzelnodedb sampleFailingEnv sampleChain confirmedCache).2.g_zelnodeCache ≠
        confirmedCache ∧
      (rebuildzelnodedb (sampleEnv [sampleStartTx]) sampleChain confirmedCache).1 = some true :=
  ⟨(rebuild_not_atomic sampleFailingEnv sampleChain confirmedCache ⟨0, 1000⟩ (by decide)).1
      [⟨0, 1000⟩, ⟨1, 1001⟩] ⟨2, 1002⟩ [] (by decide) (by decide) (by decide),
    by decide, by decide,
    (rebuild_not_atomic (sampleEnv [sampleStartTx]) sampleChain confirmedCache ⟨0, 1000⟩
      (by decide)).2 (by decide)⟩

/-! ## The range of the rescan -/

theorem blocksRead_append (a b : List Call) : blocksRead (a ++ b) = blocksRead a ++ blocksRead b := by
  unfold blocksRead
  exact List.filterMap_append a b _

theorem blocksRead_nil_of (l : List Call) (hl : ∀ c ∈ l, c.readIndex = none) :
    blocksRead l = [] := by
  unfold blocksRead
  rw [List.filterMap_eq_nil_iff]
  exact hl

theorem readIndex_of_scan (c : Call) (hc : c.isScan = true) : c.readIndex = none := by
  cases c <;> first | rfl | exact Bool.noConfusion hc

theorem readIndex_of_tail (c : Call) (hc : c.isTail = true) : c.readIndex = none := by
  cases c <;> first | rfl | exact Bool.noConfusion hc

theorem readIndex_of_payment (c : Call) (hc : c.isPaymentSelection = true) :
    c.readIndex = none := by
  cases c <;> first | rfl | exact Bool.noConfusion hc

/-- A block adds no `ReadBlockFromDisk` call of its own. -/
theorem blocksRead_processBlock (env : Env Cache DB) (st : State Cache DB) (h : Int)
    (block : CBlock) :
    blocksRead (processBlock env st h block).state.calls = blocksRead st.calls := by
  obtain ⟨scanL, tailL, hc, hs, ht, _⟩ := processBlock_calls env st h block
  rw [hc, blocksRead_append, blocksRead_append, blocksRead_append,
    blocksRead_nil_of _ (fun c hm => readIndex_of_payment c
      (paidCalls_payment env st.g_zelnodeCache h c hm)),
    blocksRead_nil_of scanL (fun c hm => readIndex_of_scan c (hs c hm).1),
    blocksRead_nil_of tailL (fun c hm => readIndex_of_tail c (ht c hm))]
  simp

/-- One pass of the loop reads its block once, unless the progress line
faults before. -/
theorem blocksRead_loopBody (env : Env Cache DB) (n : Int) (st : State Cache DB)
    (idx : CBlockIndex) :
    ((loopBody env n st idx).isOk = true →
      blocksRead (loopBody env n st idx).state.calls = blocksRead st.calls ++ [idx]) ∧
    (blocksRead (loopBody env n st idx).state.calls = blocksRead st.calls ∨
      blocksRead (loopBody env n st idx).state.calls = blocksRead st.calls ++ [idx]) := by
  unfold loopBody printProgress
  by_cases h1 : st.nPrintTrigger ≤ 0
  · by_cases h2 : n = 0
    · simp only [h1, h2, if_true]
      exact ⟨fun hh => Bool.noConfusion hh, Or.inl rfl⟩
    · simp only [h1, h2, if_true, if_false]
      rw [blocksRead_processBlock]
      simp only [State.call, blocksRead_append]
      exact ⟨fun _ => rfl, Or.inr rfl⟩
  · simp only [h1, if_false]
    rw [blocksRead_processBlock]
    simp only [State.call, blocksRead_append]
    exact ⟨fun _ => rfl, Or.inr rfl⟩

/-- The loop reads the blocks of its list in order, each once: all of them
when it goes through, and a beginning of the list when it stops. -/
theorem blocksRead_rebuildLoop (env : Env Cache DB) (n : Int) (l : List CBlockIndex)
    (st : State Cache DB) :
    ((rebuildLoop env n st l).isOk = true →
      blocksRead (rebuildLoop env n st l).state.calls = blocksRead st.calls ++ l) ∧
    ∃ done, done <+: l ∧
      blocksRead (rebuildLoop env n st l).state.calls = blocksRead st.calls ++ done := by
  induction l generalizing st with
  | nil =>
    simp only [rebuildLoop, Step.state, List.append_nil]
    exact ⟨fun _ => trivial, [], List.prefix_refl _, by simp⟩
  | cons idx rest ih =>
    obtain ⟨b1, b2⟩ := blocksRead_loopBody env n st idx
    simp only [rebuildLoop]
    match hl : loopBody env n st idx with
    | Step.stop why st1 =>
      rw [hl] at b2
      simp only [Step.state] at b2 ⊢
      refine ⟨fun hh => Bool.noConfusion hh, ?_⟩
      rcases b2 with e | e
      · exact ⟨[], List.nil_prefix, by rw [e]; simp⟩
      · exact ⟨[idx], by simp [List.prefix_cons_inj], e⟩
    | Step.ok st1 =>
      rw [hl] at b1
      simp only [Step.state, Step.isOk, forall_const] at b1
      obtain ⟨i1, done, hd, i2⟩ := ih st1
      simp only []
      constructor
      · intro hok
        rw [i1 hok, b1, List.append_assoc]
        rfl
      · refine ⟨idx :: done, (List.prefix_cons_inj idx).mpr hd, ?_⟩
        rw [i2, b1, List.append_assoc]
        rfl

/-- The range of the rescan: the call first resets the registry state; when
it returns true it has read exactly the blocks of the active chain from
`fromHeight` to the tip, each once, in ascending order; in every case the
blocks read are a beginning of that range. -/
theorem rebuild_reads_range (env : Env Cache DB) (chainActive : List CBlockIndex) (g : Cache) :
    ((rebuildzelnodedb env chainActive g).1 = some true →
      blocksRead (rebuildzelnodedb env chainActive g).2.calls = rescanRange env chainActive) ∧
    (∃ done, done <+: rescanRange env chainActive ∧
      blocksRead (rebuildzelnodedb env chainActive g).2.calls = done) := by
  rw [rebuildzelnodedb_eq]
  cases hstart : chainAt chainActive (fromHeight env) with
  | none =>
    simp only []
    exact ⟨fun hh => by simp at hh, [], List.nil_prefix, rfl⟩
  | some rescanIndex =>
    simp only []
    obtain ⟨r1, done, hd, r2⟩ := blocksRead_rebuildLoop env (totalBlocks chainActive rescanIndex)
      (rescanRange env chainActive) (resetState env g)
    match hl : rebuildLoop env (totalBlocks chainActive rescanIndex) (resetState env g)
        (rescanRange env chainActive) with
    | Step.ok st1 =>
      rw [hl] at r1 r2
      simp only [Step.state, Step.isOk, forall_const] at r1 r2
      simp only [blocksRead_append, r1]
      refine ⟨fun _ => by simp [resetState, blocksRead, Call.readIndex], _, List.prefix_refl _, by
        simp [resetState, blocksRead, Call.readIndex]⟩
    | Step.stop why st1 =>
      rw [hl] at r2
      simp only [Step.state] at r2
      have hr : blocksRead st1.calls = done := by
        rw [r2]
        simp [resetState, blocksRead]
      cases why <;> exact ⟨fun hh => by simp at hh, done, hd, hr⟩

/-- On a chain that reaches above `fromHeight`, with every pass of the loop
going through, the call returns true after reading the whole range. -/
theorem rebuild_goes_through (env : Env Cache DB) (chainActive : List CBlockIndex) (g : Cache)
    (rescanIndex : CBlockIndex)
    (hstart : chainAt chainActive (fromHeight env) = some rescanIndex)
    (hok : (rebuildLoop env (totalBlocks chainActive rescanIndex) (resetState env g)
      (rescanRange env chainActive)).isOk = true) :
    (rebuildzelnodedb env chainActive g).1 = some true ∧
      blocksRead (rebuildzelnodedb env chainActive g).2.calls = rescanRange env chainActive := by
  have h1 : (rebuildzelnodedb env chainActive g).1 = some true := by
    obtain ⟨s1, hs1⟩ := (isOk_iff _).mp hok
    rw [rebuildzelnodedb_eq, hstart]
    simp only []
    rw [hs1]
  exact ⟨h1, (rebuild_reads_range env chainActive g).1 h1⟩

/-- The first pass of the loop faults in the progress line when the tip is
at `fromHeight`: `nTotalBlocks` is zero and the percentage divides by it. No
block is read. -/
theorem rebuild_faults_at_tip (env : Env Cache DB) (chainActive : List CBlockIndex) (g : Cache)
    (rescanIndex : CBlockIndex)
    (hstart : chainAt chainActive (fromHeight env) = some rescanIndex)
    (hz : totalBlocks chainActive rescanIndex = 0) :
    (rebuildzelnodedb env chainActive g).1 = none ∧
      (rebuildzelnodedb env chainActive g).2.calls = [] := by
  have hne : ∃ idx rest, rescanRange env chainActive = idx :: rest := by
    unfold chainAt at hstart
    unfold rescanRange
    split at hstart
    · cases hstart
    · cases hd : chainActive.drop (fromHeight env).toNat with
      | nil =>
        rw [List.drop_eq_nil_iff] at hd
        rw [List.get?_eq_none.mpr hd] at hstart
        cases hstart
      | cons idx rest => exact ⟨idx, rest, rfl⟩
  obtain ⟨idx, rest, hr⟩ := hne
  rw [rebuildzelnodedb_eq, hstart]
  simp only []
  rw [hr, hz]
  simp only [rebuildLoop, loopBody, printProgress, resetState]
  simp

set_option maxRecDepth 100000 in
/-- C15 (failing input): on a chain whose tip is the block at `fromHeight`
(activation height 10, one block at height 0) the call resets the registry
and then faults in the progress line of the first pass, before any block is
read: it does not return, and the one block of the range is not processed. On
a chain that ends below `fromHeight` the block index looked up is null and the
call faults as well. -/
theorem rebuild_at_tip_reads_nothing :
    rescanRange (sampleEnv []) [⟨0, 1000⟩] = [⟨0, 1000⟩] ∧
      (rebuildzelnodedb (sampleEnv []) [⟨0, 1000⟩] confirmedCache).1 = none ∧
      blocksRead (rebuildzelnodedb (sampleEnv []) [⟨0, 1000⟩] confirmedCache).2.calls = [] ∧
      (rebuildzelnodedb (sampleEnv []) [⟨0, 1000⟩] confirmedCache).2.g_zelnodeCache =
        emptyCache ∧
      (rebuildzelnodedb (specEnv { activationHeight := 15 } [] []) sampleChain
        confirmedCache).1 = none := by
  decide

/-! ## The start RPCs -/

section StartTheorems

variable {W : Type}


/-- The loop body of `startzelnode` for an entry that is not skipped, when its
outpoint is known: the entry is pushed with the reason of the first check
that matches, and nothing else changes. -/
theorem startzelnodeSelected_known (env : StartEnv W) (fAlias : Bool) (st : StartState W)
    (zne : ZelnodeEntry) (hknown : knownOutpoint env st.world (outpointOf env zne) = true) :
    startzelnodeSelected env fAlias st zne =
      (if fAlias then
        LoopStep.ret
          (StartReturn.array
            (st.resultsObj ++
              [[("outpoint", Value.str (env.ToString (outpointOf env zne))),
                ("alias", Value.str zne.getAlias), ("result", Value.str "failed"),
                ("reason", Value.str (firstReason env st.world (outpointOf env zne)))]]))
          { st with
            resultsObj := st.resultsObj ++
              [[("outpoint", Value.str (env.ToString (outpointOf env zne))),
                ("alias", Value.str zne.getAlias), ("result", Value.str "failed"),
                ("reason", Value.str (firstReason env st.world (outpointOf env zne)))]] }
      else
        LoopStep.next
          { st with
            resultsObj := st.resultsObj ++
              [[("outpoint", Value.str (env.ToString (outpointOf env zne))),
                ("alias", Value.str zne.getAlias), ("result", Value.str "failed"),
                ("reason", Value.str (firstReason env st.world (outpointOf env zne)))]] }) := by
  unfold knownOutpoint at hknown
  unfold startzelnodeSelected firstReason
  cases h1 : env.mempoolCount st.world (outpointOf env zne)
  · cases h2 : env.InStartTracker st.world (outpointOf env zne)
    · cases h3 : env.InDoSTracker st.world (outpointOf env zne)
      · cases h4 : env.InConfirmTracker st.world (outpointOf env zne)
        · rw [h1, h2, h3, h4] at hknown
          exact Bool.noConfusion hknown
        · simp [h1, h2, h3, h4]
      · simp [h1, h2, h3]
    · simp [h1, h2]
  · simp [h1]

/-- The loop body of `startdeterministiczelnode` for the entry with the alias
asked for, when its outpoint is known: the function returns at once. -/
theorem startdeterministiczelnodeEntry_known (env : StartEnv W) (strAlias : String)
    (st : StartState W) (zne : ZelnodeEntry) (ha : zne.getAlias = strAlias)
    (hknown : knownOutpoint env st.world (outpointOf env zne) = true) :
    startdeterministiczelnodeEntry env strAlias st zne =
      LoopStep.ret
        (StartReturn.object
          [("result", Value.str "failed"),
           ("reason", Value.str (firstReason env st.world (outpointOf env zne)))])
        { st with found := true } := by
  unfold knownOutpoint at hknown
  unfold startdeterministiczelnodeEntry firstReason
  cases h1 : env.mempoolCount st.world (outpointOf env zne)
  · cases h2 : env.InStartTracker st.world (outpointOf env zne)
    · cases h3 : env.InDoSTracker st.world (outpointOf env zne)
      · cases h4 : env.InConfirmTracker st.world (outpointOf env zne)
        · rw [h1, h2, h3, h4] at hknown
          exact Bool.noConfusion hknown
        · simp [ha, h1, h2, h3, h4]
      · simp [ha, h1, h2, h3]
    · simp [ha, h1, h2]
  · simp [ha, h1]

/-- C16: when the loop of `startzelnode` or of `startdeterministiczelnode`
reaches a configured entry it selects (any entry in the `all` mode, the entry
with the alias asked for otherwise) and the collateral outpoint of the entry
is in the mempool's map of node transactions, in the Start tracker, in the DoS
tracker or in the Confirmed tracker, then no Start transaction is built,
signed or committed: the wallet, the mempool, the log of wallet calls and the
two counters stay as they are. `startzelnode` pushes the entry with result
`failed` and `startdeterministiczelnode` returns an object with result
`failed`; both carry the reason of the first check that matches, tested in the
order mempool, Start, DoS, Confirmed, and so the same reason. -/
theorem start_refused_for_known_outpoint (env : StartEnv W) (fAlias : Bool) (strAlias : String)
    (st : StartState W) (zne : ZelnodeEntry)
    (hsel : fAlias = true → zne.getAlias = strAlias)
    (hknown : knownOutpoint env st.world (outpointOf env zne) = true) :
    (∃ entry,
      valueOf entry "alias" = some (Value.str zne.getAlias) ∧
      valueOf entry "result" = some (Value.str "failed") ∧
      valueOf entry "reason" =
        some (Value.str (firstReason env st.world (outpointOf env zne))) ∧
      startzelnodeEntry env fAlias strAlias st zne =
        (if fAlias then
          LoopStep.ret (StartReturn.array (st.resultsObj ++ [entry]))
            { st with found := true, resultsObj := st.resultsObj ++ [entry] }
        else LoopStep.next { st with resultsObj := st.resultsObj ++ [entry] })) ∧
    (zne.getAlias = strAlias →
      ∃ returnObj,
        valueOf returnObj "result" = some (Value.str "failed") ∧
        valueOf returnObj "reason" =
          some (Value.str (firstReason env st.world (outpointOf env zne))) ∧
        startdeterministiczelnodeEntry env strAlias st zne =
          LoopStep.ret (StartReturn.object returnObj) { st with found := true }) := by
  constructor
  · refine ⟨[("outpoint", Value.str (env.ToString (outpointOf env zne))),
      ("alias", Value.str zne.getAlias), ("result", Value.str "failed"),
      ("reason", Value.str (firstReason env st.world (outpointOf env zne)))], ?_, ?_, ?_, ?_⟩
    · simp [valueOf, List.find?]
    · simp [valueOf, List.find?]
    · simp [valueOf, List.find?]
    · unfold startzelnodeEntry
      cases hf : fAlias
      · simp only [Bool.false_and, Bool.false_eq_true, if_false]
        rw [startzelnodeSelected_known env false st zne hknown]
        simp
      · have ha := hsel hf
        subst ha
        simp only [Bool.true_and, decide_True, if_true]
        rw [startzelnodeSelected_known env true { st with found := true } zne hknown]
        simp
  · intro ha
    exact ⟨_, by simp [valueOf, List.find?], by simp [valueOf, List.find?],
      startdeterministiczelnodeEntry_known env strAlias st zne ha hknown⟩

set_option maxRecDepth 100000 in
/-- C16 (witness): the sample node is in the Start tracker; asked to start it
by its alias, both loops refuse it with the reason of the Start tracker. -/
theorem start_refused_for_known_outpoint_witness :
    knownOutpoint (sampleStartEnv startedCache) ({} : SampleWallet)
        (outpointOf (sampleStartEnv startedCache) sampleEntry) = true ∧
      firstReason (sampleStartEnv startedCache) ({} : SampleWallet)
        (outpointOf (sampleStartEnv startedCache) sampleEntry) =
          "Zelnode already started, waiting to be confirmed" ∧
      ∃ returnObj,
        valueOf returnObj "result" = some (Value.str "failed") ∧
        valueOf returnObj "reason" =
          some (Value.str (firstReason (sampleStartEnv startedCache) ({} : SampleWallet)
            (outpointOf (sampleStartEnv startedCache) sampleEntry))) ∧
        startdeterministiczelnodeEntry (sampleStartEnv startedCache) "zn1" { world := {} }
            sampleEntry =
          LoopStep.ret (StartReturn.object returnObj) { world := {}, found := true } :=
  ⟨by decide, by decide,
    (start_refused_for_known_outpoint (sampleStartEnv startedCache) true "zn1" { world := {} }
      sampleEntry (fun _ => rfl) (by decide)).2 rfl⟩


theorem runLoop_skip {σ α : Type} (body : σ → α → LoopStep σ) (st : σ) (pre rest : List α)
    (hskip : ∀ a ∈ pre, body st a = LoopStep.next st) :
    runLoop body st (pre ++ rest) = runLoop body st rest := by
  induction pre with
  | nil => rfl
  | cons a l ih =>
    simp only [List.cons_append, runLoop]
    rw [hskip a (List.mem_cons_self _ _)]
    exact ih (fun b hb => hskip b (List.mem_cons_of_mem _ hb))

/-- In the mode `alias`, `startzelnode` returns the bare array as soon as the
entry with the alias asked for has a known outpoint: no wallet call is made,
`Lock` included, whatever `lockwallet` says. -/
theorem startzelnode_alias_refused (env : StartEnv W) (w : W) (lockwallet strAlias : String)
    (pre post : List ZelnodeEntry) (zne : ZelnodeEntry)
    (hactive : env.IsZelnodeTransactionsActive = true)
    (hsync : env.IsInitialBlockDownload = false)
    (hunlocked : env.EnsureWalletIsUnlocked w = true)
    (hentries : env.getEntries = pre ++ zne :: post)
    (hpre : ∀ e ∈ pre, e.getAlias ≠ strAlias) (ha : zne.getAlias = strAlias)
    (hknown : knownOutpoint env w (outpointOf env zne) = true) :
    startzelnode env w ["alias", lockwallet, strAlias] false =
      ⟨StartReturn.array
          [[("outpoint", Value.str (env.ToString (outpointOf env zne))),
            ("alias", Value.str zne.getAlias), ("result", Value.str "failed"),
            ("reason", Value.str (firstReason env w (outpointOf env zne)))]],
        w, []⟩ := by
  have hloop : runLoop (startzelnodeEntry env true strAlias) { world := w } env.getEntries =
      LoopStep.ret
        (StartReturn.array
          [[("outpoint", Value.str (env.ToString (outpointOf env zne))),
            ("alias", Value.str zne.getAlias), ("result", Value.str "failed"),
            ("reason", Value.str (firstReason env w (outpointOf env zne)))]])
        { world := w, found := true,
          resultsObj :=
            [[("outpoint", Value.str (env.ToString (outpointOf env zne))),
              ("alias", Value.str zne.getAlias), ("result", Value.str "failed"),
              ("reason", Value.str (firstReason env w (outpointOf env zne)))]] } := by
    subst ha
    rw [hentries, runLoop_skip]
    · simp only [runLoop]
      unfold startzelnodeEntry
      simp only [Bool.true_and, decide_True, if_true]
      rw [startzelnodeSelected_known env true _ zne hknown]
      simp
    · intro e he
      unfold startzelnodeEntry
      simp [hpre e he]
  unfold startzelnode
  simp only [hactive, hsync, hunlocked, if_true, List.length_cons, List.length_nil]
  simp only [List.getD_cons_zero, List.getD_cons_succ]
  simp only [decide_True, if_true, hloop]
  simp

/-- The RPC `startdeterministiczelnode` returns the bare object as soon as the
entry with the alias asked for has a known outpoint: no wallet call is made,
`Lock` included, whatever `lockwallet` says. -/
theorem startdeterministiczelnode_refused (env : StartEnv W) (w : W)
    (lockwallet strAlias : String) (pre post : List ZelnodeEntry) (zne : ZelnodeEntry)
    (hactive : env.IsZelnodeTransactionsActive = true)
    (hunlocked : env.EnsureWalletIsUnlocked w = true)
    (hentries : env.getEntries = pre ++ zne :: post)
    (hpre : ∀ e ∈ pre, e.getAlias ≠ strAlias) (ha : zne.getAlias = strAlias)
    (hknown : knownOutpoint env w (outpointOf env zne) = true) :
    startdeterministiczelnode env w [strAlias, lockwallet] false =
      ⟨StartReturn.object
          [("result", Value.str "failed"),
           ("reason", Value.str (firstReason env w (outpointOf env zne)))],
        w, []⟩ := by
  have hloop : runLoop (startdeterministiczelnodeEntry env strAlias)
      { world := w, statusObj := [("alias", Value.str strAlias)] } env.getEntries =
      LoopStep.ret
        (StartReturn.object
          [("result", Value.str "failed"),
           ("reason", Value.str (firstReason env w (outpointOf env zne)))])
        { world := w, statusObj := [("alias", Value.str strAlias)], found := true } := by
    rw [hentries, runLoop_skip]
    · simp only [runLoop]
      rw [startdeterministiczelnodeEntry_known env strAlias _ zne ha hknown]
    · intro e he
      unfold startdeterministiczelnodeEntry
      simp [hpre e he]
  unfold startdeterministiczelnode
  simp only [hactive, hunlocked, List.length_cons, List.length_nil]
  simp only [List.getD_cons_zero, List.getD_cons_succ]
  simp only [hloop]
  simp

set_option maxRecDepth 100000 in
/-- C17 (failing input): the sample node is in the Start tracker and the
wallet is unlocked. The call `startzelnode alias true zn1` returns the bare
array with the refused entry, and `startdeterministiczelnode zn1 true` the
bare object; neither has called `Lock` and the wallet is still unlocked. With
the node unknown to the registry the same two calls do lock the wallet. -/
theorem refused_start_skips_lock :
    (startzelnode (sampleStartEnv startedCache) {} ["alias", "true", "zn1"] false).value =
        StartReturn.array
          [[("outpoint", Value.str "COutPoint(07, 0)"), ("alias", Value.str "zn1"),
            ("result", Value.str "failed"),
            ("reason", Value.str "Zelnode already started, waiting to be confirmed")]] ∧
      WalletCall.Lock ∉
        (startzelnode (sampleStartEnv startedCache) {} ["alias", "true", "zn1"] false).calls ∧
      (startzelnode (sampleStartEnv startedCache) {} ["alias", "true", "zn1"]
        false).world.locked = false ∧
      (startdeterministiczelnode (sampleStartEnv startedCache) {} ["zn1", "true"] false).value =
        StartReturn.object
          [("result", Value.str "failed"),
           ("reason", Value.str "Zelnode already started, waiting to be confirmed")] ∧
      WalletCall.Lock ∉
        (startdeterministiczelnode (sampleStartEnv startedCache) {} ["zn1", "true"] false).calls ∧
      (startdeterministiczelnode (sampleStartEnv startedCache) {} ["zn1", "true"]
        false).world.locked = false ∧
      WalletCall.Lock ∈
        (startzelnode (sampleStartEnv emptyCache) {} ["alias", "true", "zn1"] false).calls ∧
      WalletCall.Lock ∈
        (startdeterministiczelnode (sampleStartEnv emptyCache) {} ["zn1", "true"] false).calls := by
  decide

end StartTheorems

/-! ## The filter of listzelnodeconf -/

/-- The result of `listzelnodeconf` does not depend on the filter text. -/
theorem listzelnodeconf_ignores_filter (env : QueryEnv) (g : ZelnodeCache)
    (strFilter : String) :
    listzelnodeconf env g [strFilter] false = listzelnodeconf env g [] false := by
  unfold listzelnodeconf
  simp

set_option maxRecDepth 100000 in
/-- C18 (failing input): with the sample node configured under the alias
`zn1` and confirmed, `listzelnodeconf` called with the filter `xyz` returns
the entry although the filter is no part of its alias, address, txHash or
status. -/
theorem listzelnodeconf_returns_unmatched_entry :
    (listzelnodeconf (sampleQueryEnv 100) confirmedCache ["xyz"] false).items.map
        (fun info => (textOf info "alias", textOf info "address", textOf info "txHash",
          textOf info "status")) =
      [("zn1", "10.0.0.1:16125", "07", "CONFIRMED")] ∧
    ∀ info ∈ (listzelnodeconf (sampleQueryEnv 100) confirmedCache ["xyz"] false).items,
      ¬ matchesFilter info "xyz" := by
  decide

/-! ## The array of getdoslist -/

/-- The items of a bucket, none when the key is absent. -/
theorem bucketAt_push (key : Int) (info : UniObject) (m : List (Int × List UniObject))
    (i : Int) :
    (bucketAt (bucketPush key info m) i).getD [] =
      (bucketAt m i).getD [] ++ (if key = i then [info] else []) := by
  induction m with
  | nil =>
    unfold bucketPush bucketAt
    by_cases h : key = i <;> simp [List.find?, h]
  | cons a rest ih =>
    obtain ⟨k, items⟩ := a
    unfold bucketPush
    by_cases hk : k = key
    · simp only [hk, if_true]
      unfold bucketAt
      by_cases h : key = i <;> simp [List.find?, h]
    · simp only [hk, if_false]
      by_cases h : k = i
      · have hne : ¬ key = i := fun e => hk (h.trans e.symm)
        unfold bucketAt
        simp [List.find?, h, hne]
      · have e1 : bucketAt ((k, items) :: bucketPush key info rest) i =
            bucketAt (bucketPush key info rest) i := by
          unfold bucketAt
          simp [List.find?, h]
        have e2 : bucketAt ((k, items) :: rest) i = bucketAt rest i := by
          unfold bucketAt
          simp [List.find?, h]
        rw [e1, e2]
        exact ih

theorem bucketAt_foldl {α : Type} (e : α → Int) (f : α → UniObject) (l : List α)
    (m : List (Int × List UniObject)) (i : Int) :
    (bucketAt (l.foldl (fun acc a => bucketPush (e a) (f a) acc) m) i).getD [] =
      (bucketAt m i).getD [] ++ (l.filter (fun a => decide (e a = i))).map f := by
  induction l generalizing m with
  | nil => simp
  | cons a rest ih =>
    simp only [List.foldl_cons]
    rw [ih, bucketAt_push]
    by_cases h : e a = i <;> simp [List.filter, h]

theorem collectOrdered_eq (m : List (Int × List UniObject)) (bound : Int) :
    collectOrdered m bound =
      (List.range bound.toNat).flatMap (fun (i : Nat) => (bucketAt m (i : Int)).getD []) := by
  unfold collectOrdered
  generalize bound.toNat = n
  have key : ∀ (l : List Nat) (init : List UniObject),
      l.foldl (fun wholelist (i : Nat) =>
        match bucketAt m (i : Int) with
        | some items => wholelist ++ items
        | none => wholelist) init =
      init ++ l.flatMap (fun (i : Nat) => (bucketAt m (i : Int)).getD []) := by
    intro l
    induction l with
    | nil => intro init; simp
    | cons i rest ih =>
      intro init
      simp only [List.foldl_cons, List.flatMap_cons]
      rw [ih]
      cases bucketAt m (i : Int) <;> simp
  exact (key (List.range n) []).trans (by simp)

theorem range_buckets_perm {α : Type} (e : α → Int) (f : α → UniObject) (l : List α) (n : Nat) :
    ((List.range n).flatMap
      (fun (i : Nat) => (l.filter (fun a => decide (e a = (i : Int)))).map f)).Perm
      ((l.filter (fun a => decide (0 ≤ e a) && decide (e a < (n : Int)))).map f) := by
  induction n with
  | zero =>
    have : l.filter (fun a => decide (0 ≤ e a) && decide (e a < ((0 : Nat) : Int))) = [] := by
      rw [List.filter_eq_nil_iff]
      intro a _
      simp only [Nat.cast_zero, Bool.and_eq_true, decide_eq_true_eq, not_and, not_lt]
      exact fun h => h
    rw [this]
    simp
  | succ n ih =>
    rw [List.range_succ, List.flatMap_append]
    simp only [List.flatMap_cons, List.flatMap_nil, List.append_nil]
    have hsplit := List.filter_append_perm (fun a => decide (e a < (n : Int)))
      (l.filter (fun a => decide (0 ≤ e a) && decide (e a < ((n + 1 : Nat) : Int))))
    rw [List.filter_filter, List.filter_filter] at hsplit
    have e1 : l.filter (fun a => decide (e a < (n : Int)) &&
        (decide (0 ≤ e a) && decide (e a < ((n + 1 : Nat) : Int)))) =
        l.filter (fun a => decide (0 ≤ e a) && decide (e a < (n : Int))) := by
      apply List.filter_congr
      intro a _
      by_cases h1 : 0 ≤ e a <;> by_cases h2 : e a < (n : Int) <;> simp [h1, h2]
      omega
    have e2 : l.filter (fun a => (!decide (e a < (n : Int))) &&
        (decide (0 ≤ e a) && decide (e a < ((n + 1 : Nat) : Int)))) =
        l.filter (fun a => decide (e a = (n : Int))) := by
      apply List.filter_congr
      intro a _
      by_cases h1 : e a = (n : Int)
      · simp [h1]
      · by_cases h2 : e a < (n : Int)
        · simp [h1, h2]
        · simp only [h1, h2, decide_False, Bool.not_false, Bool.true_and, Bool.and_eq_false_imp,
            decide_eq_true_eq, decide_eq_false_iff_not, not_lt]
          intro _
          push_cast
          omega
    rw [e1, e2] at hsplit
    refine (List.Perm.append ih (List.Perm.refl _)).trans ?_
    rw [← List.map_append]
    exact hsplit.map f

/-- The array of `getdoslist`: bucket by bucket from 0 to
`ZELNODE_DOS_REMOVE_AMOUNT`, the records of each bucket in tracker order. -/
theorem getdoslist_items (env : QueryEnv) (g : ZelnodeCache)
    (hactive : env.IsDZelnodeActive = true) :
    getdoslist env g [] false =
      QueryReturn.array
        ((List.range (env.ZELNODE_DOS_REMOVE_AMOUNT + 1).toNat).flatMap
          (fun (i : Nat) =>
            (g.mapStartTxDosTracker.filter
              (fun item => decide (eligibleIn env item.2 = (i : Int)))).map
              (fun item => dosInfo env item.2))) := by
  unfold getdoslist
  simp only [hactive, List.length_nil, gt_iff_lt, lt_self_iff_false, decide_False,
    Bool.or_self, Bool.false_eq_true, if_false, if_true]
  congr 1
  have hb := fun i => bucketAt_foldl (fun (item : COutPoint × ZelnodeCacheData) =>
    eligibleIn env item.2) (fun item => dosInfo env item.2) g.mapStartTxDosTracker [] i
  cases hm : g.mapStartTxDosTracker.foldl
      (fun m item => bucketPush (eligibleIn env item.2) (dosInfo env item.2) m) [] with
  | nil =>
    simp only [List.length_nil, ne_eq, not_true_eq_false, if_false]
    symm
    rw [List.flatMap_eq_nil_iff]
    intro i _
    have := hb (i : Int)
    rw [hm] at this
    simpa [bucketAt] using this.symm
  | cons a rest =>
    simp only [List.length_cons, ne_eq, Nat.add_one_ne_zero, not_false_eq_true, if_true]
    rw [collectOrdered_eq]
    congr 1
    funext i
    have := hb (i : Int)
    rw [hm] at this
    simpa [bucketAt] using this

theorem inDosRange_iff (env : QueryEnv) (data : ZelnodeCacheData) :
    (decide (0 ≤ eligibleIn env data) &&
      decide (eligibleIn env data < (((env.ZELNODE_DOS_REMOVE_AMOUNT + 1).toNat : Nat) : Int))) =
      inDosRange env data := by
  unfold inDosRange
  by_cases h1 : 0 ≤ eligibleIn env data
  · by_cases h2 : eligibleIn env data ≤ env.ZELNODE_DOS_REMOVE_AMOUNT
    · simp only [h1, h2, decide_True, Bool.true_and, decide_eq_true_eq]
      rw [Int.toNat_of_nonneg (by omega)]
      omega
    · simp only [h1, h2, decide_True, decide_False, Bool.true_and, decide_eq_false_iff_not,
        not_lt]
      by_cases h3 : 0 ≤ env.ZELNODE_DOS_REMOVE_AMOUNT + 1
      · rw [Int.toNat_of_nonneg h3]
        omega
      · rw [Int.toNat_eq_zero.mpr (by omega)]
        simpa using h1
  · simp [h1]

/-- With deterministic nodes active, the array of `getdoslist`
holds, each exactly once, the records of the DoS tracker whose `eligible_in`
lies in the range 0 to `ZELNODE_DOS_REMOVE_AMOUNT`, and nothing else; its
length is the number of those records, and it is the size of the tracker when
every record is in that range. -/
theorem getdoslist_lists_records_in_range (env : QueryEnv) (g : ZelnodeCache)
    (hactive : env.IsDZelnodeActive = true) :
    ∃ items,
      getdoslist env g [] false = QueryReturn.array items ∧
      items.Perm
        ((g.mapStartTxDosTracker.filter (fun item => inDosRange env item.2)).map
          (fun item => dosInfo env item.2)) ∧
      items.length =
        (g.mapStartTxDosTracker.filter (fun item => inDosRange env item.2)).length ∧
      ((∀ item ∈ g.mapStartTxDosTracker, inDosRange env item.2 = true) →
        items.length = g.mapStartTxDosTracker.length) := by
  have hp := range_buckets_perm (fun (item : COutPoint × ZelnodeCacheData) =>
    eligibleIn env item.2) (fun item => dosInfo env item.2) g.mapStartTxDosTracker
    (env.ZELNODE_DOS_REMOVE_AMOUNT + 1).toNat
  have hf : g.mapStartTxDosTracker.filter
      (fun item => decide (0 ≤ eligibleIn env item.2) &&
        decide (eligibleIn env item.2 <
          (((env.ZELNODE_DOS_REMOVE_AMOUNT + 1).toNat : Nat) : Int))) =
      g.mapStartTxDosTracker.filter (fun item => inDosRange env item.2) :=
    List.filter_congr (fun item _ => inDosRange_iff env item.2)
  rw [hf] at hp
  refine ⟨_, getdoslist_items env g hactive, hp, ?_, ?_⟩
  · rw [hp.length_eq, List.length_map]
  · intro hall
    rw [hp.length_eq, List.length_map, List.filter_eq_self.mpr hall]

set_option maxRecDepth 100000 in
/-- At tip height 150 the sample record of the DoS tracker,
added at height 20, is in the range and is the one item of the array. -/
theorem getdoslist_lists_records_in_range_witness :
    (sampleQueryEnv 150).IsDZelnodeActive = true ∧
      ∃ items,
        getdoslist (sampleQueryEnv 150) dosCache [] false = QueryReturn.array items ∧
        items.Perm
          ((dosCache.mapStartTxDosTracker.filter
            (fun item => inDosRange (sampleQueryEnv 150) item.2)).map
            (fun item => dosInfo (sampleQueryEnv 150) item.2)) ∧
        items.length =
          (dosCache.mapStartTxDosTracker.filter
            (fun item => inDosRange (sampleQueryEnv 150) item.2)).length ∧
        ((∀ item ∈ dosCache.mapStartTxDosTracker,
            inDosRange (sampleQueryEnv 150) item.2 = true) →
          items.length = dosCache.mapStartTxDosTracker.length) :=
  ⟨rfl, getdoslist_lists_records_in_range (sampleQueryEnv 150) dosCache rfl⟩

/-- The `eligible_in` that `getdoslist` reports for a record
is `ZELNODE_DOS_REMOVE_AMOUNT - (h - added_height)`, that is
`(added_height + ZELNODE_DOS_REMOVE_AMOUNT) - h` for the tip height `h`: the
Start expiration window is no part of it. Every item of the array is the
object of a record of the DoS tracker and carries this value. -/
theorem eligible_in_value (env : QueryEnv) (g : ZelnodeCache) :
    (∀ data : ZelnodeCacheData,
      valueOf (dosInfo env data) "eligible_in" =
        some (Value.num (data.nAddedBlockHeight + env.ZELNODE_DOS_REMOVE_AMOUNT - env.Height))) ∧
    (∀ info ∈ (getdoslist env g [] false).items,
      ∃ item ∈ g.mapStartTxDosTracker,
        info = dosInfo env item.2 ∧
        valueOf info "eligible_in" =
          some (Value.num
            (item.2.nAddedBlockHeight + env.ZELNODE_DOS_REMOVE_AMOUNT - env.Height))) := by
  have h1 : ∀ data : ZelnodeCacheData,
      valueOf (dosInfo env data) "eligible_in" =
        some (Value.num (data.nAddedBlockHeight + env.ZELNODE_DOS_REMOVE_AMOUNT - env.Height)) := by
    intro data
    unfold dosInfo valueOf eligibleIn
    simp only [List.cons_append, List.nil_append, List.find?]
    simp
    omega
  refine ⟨h1, ?_⟩
  intro info hinfo
  cases ha : env.IsDZelnodeActive with
  | false =>
    unfold getdoslist at hinfo
    simp [ha, QueryReturn.items] at hinfo
  | true =>
    rw [getdoslist_items env g ha] at hinfo
    simp only [QueryReturn.items, List.mem_flatMap, List.mem_range, List.mem_map,
      List.mem_filter] at hinfo
    obtain ⟨_, _, item, ⟨hm, _⟩, rfl⟩ := hinfo
    exact ⟨item, hm, rfl, h1 item.2⟩

theorem mapString_ser_ne_nil (c : Serializers) (hs : c.mapString.RoundTrips)
    (m : StdMap COutPoint String) : c.mapString.ser m ≠ [] := by
  cases m with
  | nil => exact ser_ne_nil_of_roundTrips _ hs [] [(⟨0, 0⟩, "")] (by simp)
  | cons x m => exact ser_ne_nil_of_roundTrips _ hs (x :: m) [] (by simp)

/-- The four original members are read back from any stream that starts with
their encodings. -/
theorem unserialize_four (c : Serializers) (hv : c.vecData.RoundTrips)
    (hm : c.mapInt.RoundTrips) (u target : CZelnodeTxBlockUndo) (rest : Stream) :
    CZelnodeTxBlockUndo.Unserialize c (legacyEncoding c u ++ rest) target =
      (ReadWriteExtraZelnodeUndoBlockData_read c rest target.mapLastIpAddress).map
        (fun p =>
          ({ vecExpiredDosData := u.vecExpiredDosData,
             vecExpiredConfirmedData := u.vecExpiredConfirmedData,
             mapUpdateLastConfirmHeight := u.mapUpdateLastConfirmHeight,
             mapLastPaidHeights := u.mapLastPaidHeights,
             mapLastIpAddress := p.1 }, p.2)) := by
  unfold CZelnodeTxBlockUndo.Unserialize legacyEncoding
  simp only [List.append_assoc]
  rw [hv]
  simp only
  rw [hv]
  simp only
  rw [hm]
  simp only
  rw [hm]
  simp only
  cases ReadWriteExtraZelnodeUndoBlockData_read c rest target.mapLastIpAddress <;> rfl

/-- C23: with element codecs that round-trip, decoding the encoding of an undo
record into a freshly constructed record succeeds, consumes every byte and
gives back the record, all five members; this holds for the record whose five
members are empty as well. -/
theorem undo_round_trip (c : Serializers) (hv : c.vecData.RoundTrips)
    (hm : c.mapInt.RoundTrips) (hs : c.mapString.RoundTrips) (u : CZelnodeTxBlockUndo) :
    CZelnodeTxBlockUndo.Unserialize c (CZelnodeTxBlockUndo.Serialize c [] u)
        CZelnodeTxBlockUndo.new = some (u, []) ∧
      CZelnodeTxBlockUndo.Unserialize c
        (CZelnodeTxBlockUndo.Serialize c [] CZelnodeTxBlockUndo.new)
        CZelnodeTxBlockUndo.new = some (CZelnodeTxBlockUndo.new, []) := by
  have key : ∀ v : CZelnodeTxBlockUndo,
      CZelnodeTxBlockUndo.Unserialize c (CZelnodeTxBlockUndo.Serialize c [] v)
        CZelnodeTxBlockUndo.new = some (v, []) := by
    intro v
    have he : CZelnodeTxBlockUndo.Serialize c [] v =
        legacyEncoding c v ++ c.mapString.ser v.mapLastIpAddress := by
      unfold CZelnodeTxBlockUndo.Serialize ReadWriteExtraZelnodeUndoBlockData_write
        legacyEncoding
      simp only [List.nil_append]
    rw [he, unserialize_four c hv hm]
    unfold ReadWriteExtraZelnodeUndoBlockData_read
    have hne := mapString_ser_ne_nil c hs v.mapLastIpAddress
    have h5 := hs v.mapLastIpAddress []
    rw [List.append_nil] at h5
    cases hb : c.mapString.ser v.mapLastIpAddress with
    | nil => exact absurd hb hne
    | cons b bs =>
      rw [hb] at h5
      simp only [List.isEmpty_cons, Bool.not_false, if_true, h5]
      rfl
  exact ⟨key u, key _⟩

/-- C23 (witness): a record with entries in every member, and the reference
codecs. -/
theorem undo_round_trip_witness :
    CZelnodeTxBlockUndo.Unserialize referenceSerializers
        (CZelnodeTxBlockUndo.Serialize referenceSerializers []
          { vecExpiredDosData := [{ isNull := false, ip := "10.0.0.1", nTier := 1 }],
            vecExpiredConfirmedData := [{ isNull := false, ip := "10.0.0.3", nTier := 2 }],
            mapUpdateLastConfirmHeight := [(⟨7, 0⟩, 100)],
            mapLastPaidHeights := [(⟨9, 1⟩, 90)],
            mapLastIpAddress := [(⟨7, 0⟩, "10.0.0.2")] })
        CZelnodeTxBlockUndo.new =
      some ({ vecExpiredDosData := [{ isNull := false, ip := "10.0.0.1", nTier := 1 }],
              vecExpiredConfirmedData := [{ isNull := false, ip := "10.0.0.3", nTier := 2 }],
              mapUpdateLastConfirmHeight := [(⟨7, 0⟩, 100)],
              mapLastPaidHeights := [(⟨9, 1⟩, 90)],
              mapLastIpAddress := [(⟨7, 0⟩, "10.0.0.2")] }, []) :=
  (undo_round_trip referenceSerializers reference_vecData_roundTrips
    reference_mapInt_roundTrips reference_mapString_roundTrips _).1

/-- C29: decoding a legacy stream (the four original members, nothing after
them) into a record replaces the four members and leaves `mapLastIpAddress`
as it was before the decoding. The map is empty afterwards exactly when it was
empty before; it is empty when `SetNull` was called on the record first. -/
theorem legacy_stream_keeps_ip_map (c : Serializers) (hv : c.vecData.RoundTrips)
    (hm : c.mapInt.RoundTrips) (u target : CZelnodeTxBlockUndo) :
    CZelnodeTxBlockUndo.Unserialize c (legacyEncoding c u) target =
        some ({ vecExpiredDosData := u.vecExpiredDosData,
                vecExpiredConfirmedData := u.vecExpiredConfirmedData,
                mapUpdateLastConfirmHeight := u.mapUpdateLastConfirmHeight,
                mapLastPaidHeights := u.mapLastPaidHeights,
                mapLastIpAddress := target.mapLastIpAddress }, []) ∧
      (∀ r, CZelnodeTxBlockUndo.Unserialize c (legacyEncoding c u) target = some r →
        (r.1.mapLastIpAddress = [] ↔ target.mapLastIpAddress = [])) ∧
      (∀ r, CZelnodeTxBlockUndo.Unserialize c (legacyEncoding c u) target.SetNull = some r →
        r.1.mapLastIpAddress = []) := by
  have key : ∀ t : CZelnodeTxBlockUndo,
      CZelnodeTxBlockUndo.Unserialize c (legacyEncoding c u) t =
        some ({ vecExpiredDosData := u.vecExpiredDosData,
                vecExpiredConfirmedData := u.vecExpiredConfirmedData,
                mapUpdateLastConfirmHeight := u.mapUpdateLastConfirmHeight,
                mapLastPaidHeights := u.mapLastPaidHeights,
                mapLastIpAddress := t.mapLastIpAddress }, []) := by
    intro t
    have h := unserialize_four c hv hm u t []
    rw [List.append_nil] at h
    rw [h]
    rfl
  refine ⟨key target, ?_, ?_⟩
  · intro r hr
    rw [key target] at hr
    injection hr with hr
    subst hr
    exact Iff.rfl
  · intro r hr
    rw [key target.SetNull] at hr
    injection hr with hr
    subst hr
    rfl

/-- C29 (witness): a legacy stream decoded into a record that holds an address
from an earlier block; the address is still there afterwards. -/
theorem legacy_stream_keeps_ip_map_witness :
    CZelnodeTxBlockUndo.Unserialize referenceSerializers
        (legacyEncoding referenceSerializers
          { vecExpiredDosData := [{ isNull := false, ip := "10.0.0.1", nTier := 1 }],
            mapLastPaidHeights := [(⟨9, 1⟩, 90)] })
        { mapUpdateLastConfirmHeight := [(⟨7, 0⟩, 100)],
          mapLastIpAddress := [(⟨7, 0⟩, "10.0.0.2")] } =
      some ({ vecExpiredDosData := [{ isNull := false, ip := "10.0.0.1", nTier := 1 }],
              vecExpiredConfirmedData := [],
              mapUpdateLastConfirmHeight := [],
              mapLastPaidHeights := [(⟨9, 1⟩, 90)],
              mapLastIpAddress := [(⟨7, 0⟩, "10.0.0.2")] }, []) :=
  (legacy_stream_keeps_ip_map referenceSerializers reference_vecData_roundTrips
    reference_mapInt_roundTrips _ _).1

theorem referenceTxInUndo_roundTrips :
    referenceTxInUndoSerializers.varUInt.RoundTrips ∧
      referenceTxInUndoSerializers.varInt.RoundTrips ∧
      referenceTxInUndoSerializers.txOutCompressor.RoundTrips :=
  ⟨varint_roundTrips, int_roundTrips,
    via_roundTrips _ _ _ int_roundTrips (fun _ => rfl)⟩

theorem txInUndo_serialize (c : TxInUndoSerializers) (u : CTxInUndo) (rest : Stream) :
    CTxInUndo.Serialize c [] u ++ rest =
      c.varUInt.ser ((u.nHeight * 2 + (if u.fCoinBase then 1 else 0)) % 4294967296) ++
        ((if u.nHeight > 0 then c.varInt.ser u.nVersion else []) ++
          (c.txOutCompressor.ser u.txout ++ rest)) := by
  by_cases h : u.nHeight > 0 <;> simp [CTxInUndo.Serialize, h]

theorem unserialize_code (c : TxInUndoSerializers) (s s1 : Stream) (code : Nat)
    (target : CTxInUndo) (h : c.varUInt.unser s = some (code, s1)) :
    (CTxInUndo.Unserialize c s target).1.nHeight = code % 4294967296 / 2 ∧
      (CTxInUndo.Unserialize c s target).1.fCoinBase = decide (code % 4294967296 % 2 = 1) := by
  unfold CTxInUndo.Unserialize
  rw [h]
  simp only
  by_cases hp : code % 4294967296 / 2 > 0
  · simp only [hp, if_true]
    cases c.varInt.unser s1 with
    | none => exact ⟨rfl, rfl⟩
    | some p =>
      obtain ⟨v, s2⟩ := p
      simp only
      cases c.txOutCompressor.unser s2 with
      | none => exact ⟨rfl, rfl⟩
      | some q => exact ⟨rfl, rfl⟩
  · simp only [hp, if_false]
    cases c.txOutCompressor.unser s1 with
    | none => exact ⟨rfl, rfl⟩
    | some q => exact ⟨rfl, rfl⟩

/-- The height and the coinbase flag read back, for every height an
`unsigned int` can hold: the code is taken modulo 2^32. -/
theorem txInUndo_code (c : TxInUndoSerializers) (hu : c.varUInt.RoundTrips) (u target : CTxInUndo)
    (rest : Stream) :
    (CTxInUndo.Unserialize c (CTxInUndo.Serialize c [] u ++ rest) target).1.nHeight =
        (u.nHeight * 2 + (if u.fCoinBase then 1 else 0)) % 4294967296 / 2 ∧
      (CTxInUndo.Unserialize c (CTxInUndo.Serialize c [] u ++ rest) target).1.fCoinBase =
        decide ((u.nHeight * 2 + (if u.fCoinBase then 1 else 0)) % 4294967296 % 2 = 1) := by
  rw [txInUndo_serialize]
  have h := unserialize_code c _ _ _ target (hu
    ((u.nHeight * 2 + (if u.fCoinBase then 1 else 0)) % 4294967296)
    ((if u.nHeight > 0 then c.varInt.ser u.nVersion else []) ++
      (c.txOutCompressor.ser u.txout ++ rest)))
  simp only [Nat.mod_mod] at h
  exact h

/-- C28: with codecs that round-trip, a `CTxInUndo` with height from 1 up to
2^31 - 1 is read back, into a default-constructed object, with the same
height, coinbase flag, version and output. With height 0 the version is not
written: the object read back has version 0, and it is the object written
exactly when that had version 0. With height 2^31 or more the code wraps
modulo 2^32 and the height read back is the height less 2^31. -/
theorem txInUndo_round_trip (c : TxInUndoSerializers) (hu : c.varUInt.RoundTrips)
    (hv : c.varInt.RoundTrips) (ht : c.txOutCompressor.RoundTrips) (u : CTxInUndo)
    (rest : Stream) :
    (1 ≤ u.nHeight → u.nHeight < 2147483648 →
      CTxInUndo.Unserialize c (CTxInUndo.Serialize c [] u ++ rest) {} = (u, some rest)) ∧
    (u.nHeight = 0 →
      CTxInUndo.Unserialize c (CTxInUndo.Serialize c [] u ++ rest) {} =
        ({ u with nVersion := 0 }, some rest) ∧
      (CTxInUndo.Unserialize c (CTxInUndo.Serialize c [] u ++ rest) {} = (u, some rest) ↔
        u.nVersion = 0)) ∧
    (2147483648 ≤ u.nHeight → u.nHeight < 4294967296 →
      (CTxInUndo.Unserialize c (CTxInUndo.Serialize c [] u ++ rest) {}).1.nHeight =
        u.nHeight - 2147483648 ∧
      (CTxInUndo.Unserialize c (CTxInUndo.Serialize c [] u ++ rest) {}).1.fCoinBase =
        u.fCoinBase ∧
      (2147483648 < u.nHeight →
        CTxInUndo.Unserialize c (CTxInUndo.Serialize c [] u ++ rest) {} =
          ({ u with nHeight := u.nHeight - 2147483648 }, some rest))) := by
  obtain ⟨txout, fCoinBase, nHeight, nVersion⟩ := u
  have hb : (if fCoinBase = true then 1 else 0 : Nat) ≤ 1 := by split <;> omega
  have hflag : ∀ k : Nat,
      decide ((k * 2 + (if fCoinBase = true then 1 else 0)) % 2 = 1) = fCoinBase := by
    intro k
    cases fCoinBase
    · have : (k * 2 + 0) % 2 = 0 := by omega
      simp [this]
    · have : (k * 2 + 1) % 2 = 1 := by omega
      simp [this]
  refine ⟨?_, ?_, ?_⟩
  · intro h1 h2
    simp only at h1 h2
    have hcode : (nHeight * 2 + (if fCoinBase = true then 1 else 0)) % 4294967296 =
        nHeight * 2 + (if fCoinBase = true then 1 else 0) := Nat.mod_eq_of_lt (by omega)
    have hdiv : (nHeight * 2 + (if fCoinBase = true then 1 else 0)) / 2 = nHeight := by omega
    have hpos : nHeight > 0 := h1
    rw [txInUndo_serialize]
    unfold CTxInUndo.Unserialize
    simp only [hcode, hpos, if_true]
    rw [hu]
    simp only [hcode, hdiv, hflag, hpos, if_true]
    rw [hv]
    simp only
    rw [ht]
  · intro h0
    simp only at h0
    subst h0
    have hres : CTxInUndo.Unserialize c
        (CTxInUndo.Serialize c [] ⟨txout, fCoinBase, 0, nVersion⟩ ++ rest) {} =
        (({ txout := txout, fCoinBase := fCoinBase, nHeight := 0, nVersion := 0 } : CTxInUndo),
          some rest) := by
      have hcode : (0 * 2 + (if fCoinBase = true then 1 else 0)) % 4294967296 =
          0 * 2 + (if fCoinBase = true then 1 else 0) := Nat.mod_eq_of_lt (by omega)
      have hdiv : (0 * 2 + (if fCoinBase = true then 1 else 0)) / 2 = 0 := by omega
      rw [txInUndo_serialize]
      unfold CTxInUndo.Unserialize
      simp only [hcode, gt_iff_lt, lt_self_iff_false, if_false, List.nil_append]
      rw [hu]
      simp only [hcode, hdiv, hflag, gt_iff_lt, lt_self_iff_false, if_false]
      rw [ht]
    refine ⟨hres, ?_⟩
    rw [hres]
    constructor
    · intro h
      simp only [Prod.mk.injEq, CTxInUndo.mk.injEq, true_and, and_true] at h
      exact h.symm
    · intro h
      simp only at h
      rw [h]
  · intro h1 h2
    simp only at h1 h2
    have hcode : (nHeight * 2 + (if fCoinBase = true then 1 else 0)) % 4294967296 =
        (nHeight - 2147483648) * 2 + (if fCoinBase = true then 1 else 0) := by omega
    have hdiv : ((nHeight - 2147483648) * 2 + (if fCoinBase = true then 1 else 0)) / 2 =
        nHeight - 2147483648 := by omega
    obtain ⟨c1, c2⟩ := txInUndo_code c hu ⟨txout, fCoinBase, nHeight, nVersion⟩ {} rest
    simp only at c1 c2
    rw [hcode] at c1 c2
    refine ⟨by rw [c1, hdiv], by rw [c2, hflag], ?_⟩
    intro h3
    simp only at h3
    have hpos0 : nHeight > 0 := by omega
    rw [txInUndo_serialize]
    unfold CTxInUndo.Unserialize
    simp only [hcode, hpos0, if_true]
    rw [hu]
    have hpos : nHeight - 2147483648 > 0 := by omega
    have hmm : ((nHeight - 2147483648) * 2 + (if fCoinBase = true then 1 else 0)) % 4294967296 =
        (nHeight - 2147483648) * 2 + (if fCoinBase = true then 1 else 0) :=
      Nat.mod_eq_of_lt (by omega)
    simp only [hmm, hdiv, hflag, hpos, if_true]
    rw [hv]
    simp only
    rw [ht]

set_option maxRecDepth 100000 in
/-- C28 (witness): with the reference codecs, an entry of height 120 and
version 4 is read back as written; one of height 0 and version 4 is read back
with version 0; one of height 2^31 + 5 is read back with height 5. -/
theorem txInUndo_round_trip_witness :
    CTxInUndo.Unserialize referenceTxInUndoSerializers
        (CTxInUndo.Serialize referenceTxInUndoSerializers []
          { txout := { nValue := 10000 }, fCoinBase := true, nHeight := 120, nVersion := 4 } ++
          []) {} =
      ({ txout := { nValue := 10000 }, fCoinBase := true, nHeight := 120, nVersion := 4 },
        some []) ∧
    (CTxInUndo.Unserialize referenceTxInUndoSerializers
        (CTxInUndo.Serialize referenceTxInUndoSerializers []
          { txout := { nValue := 10000 }, nHeight := 0, nVersion := 4 } ++ []) {}).1.nVersion =
      0 ∧
    (CTxInUndo.Unserialize referenceTxInUndoSerializers
        (CTxInUndo.Serialize referenceTxInUndoSerializers []
          { txout := { nValue := 10000 }, nHeight := 2147483653, nVersion := 4 } ++
          []) {}).1.nHeight = 5 :=
  ⟨(txInUndo_round_trip referenceTxInUndoSerializers referenceTxInUndo_roundTrips.1
      referenceTxInUndo_roundTrips.2.1 referenceTxInUndo_roundTrips.2.2
      { txout := { nValue := 10000 }, fCoinBase := true, nHeight := 120, nVersion := 4 }
      []).1 (by decide) (by decide),
    by
      rw [((txInUndo_round_trip referenceTxInUndoSerializers referenceTxInUndo_roundTrips.1
        referenceTxInUndo_roundTrips.2.1 referenceTxInUndo_roundTrips.2.2
        { txout := { nValue := 10000 }, nHeight := 0, nVersion := 4 } []).2.1 rfl).1],
    ((txInUndo_round_trip referenceTxInUndoSerializers referenceTxInUndo_roundTrips.1
      referenceTxInUndo_roundTrips.2.1 referenceTxInUndo_roundTrips.2.2
      { txout := { nValue := 10000 }, nHeight := 2147483653, nVersion := 4 } []).2.2
      (by decide) (by decide)).1.trans (by decide)⟩

/-! ## The keys of the two confirm maps -/

theorem find_isSome_of_keys {V1 V2 : Type} (k : COutPoint) (m1 : StdMap COutPoint V1)
    (m2 : StdMap COutPoint V2) (h : StdMap.keys m1 = StdMap.keys m2) :
    (StdMap.find k m1).isSome = (StdMap.find k m2).isSome := by
  induction m1 generalizing m2 with
  | nil =>
    cases m2 with
    | nil => rfl
    | cons b m2 => simp [StdMap.keys] at h
  | cons a m1 ih =>
    cases m2 with
    | nil => simp [StdMap.keys] at h
    | cons b m2 =>
      obtain ⟨k1, v1⟩ := a
      obtain ⟨k2, v2⟩ := b
      simp only [StdMap.keys, List.map_cons, List.cons.injEq] at h
      obtain ⟨e, h⟩ := h
      subst e
      unfold StdMap.find
      by_cases hk : k = k1
      · simp [hk]
      · simp only [hk, if_false]
        exact ih m2 h

theorem keys_place {V1 V2 : Type} (k : COutPoint) (v1 : V1) (v2 : V2)
    (m1 : StdMap COutPoint V1) (m2 : StdMap COutPoint V2)
    (h : StdMap.keys m1 = StdMap.keys m2) :
    StdMap.keys (StdMap.place k v1 m1) = StdMap.keys (StdMap.place k v2 m2) := by
  induction m1 generalizing m2 with
  | nil =>
    cases m2 with
    | nil => rfl
    | cons b m2 => simp [StdMap.keys] at h
  | cons a m1 ih =>
    cases m2 with
    | nil => simp [StdMap.keys] at h
    | cons b m2 =>
      obtain ⟨k1, w1⟩ := a
      obtain ⟨k2, w2⟩ := b
      simp only [StdMap.keys, List.map_cons, List.cons.injEq] at h
      obtain ⟨e, h⟩ := h
      subst e
      unfold StdMap.place
      cases hk : k.lt k1
      · simp only [Bool.false_eq_true, if_false, StdMap.keys, List.map_cons, List.cons.injEq,
          true_and]
        exact ih m2 h
      · simp only [if_true, StdMap.keys, List.map_cons]
        rw [show List.map Prod.fst m1 = List.map Prod.fst m2 from h]

/-- Inserting one key into two maps with the same keys leaves them with the
same keys. -/
theorem keys_insert {V1 V2 : Type} (k : COutPoint) (v1 : V1) (v2 : V2)
    (m1 : StdMap COutPoint V1) (m2 : StdMap COutPoint V2)
    (h : StdMap.keys m1 = StdMap.keys m2) :
    StdMap.keys (StdMap.insert k v1 m1) = StdMap.keys (StdMap.insert k v2 m2) := by
  have hf := find_isSome_of_keys k m1 m2 h
  unfold StdMap.insert
  cases h1 : StdMap.find k m1 with
  | none =>
    rw [h1] at hf
    cases h2 : StdMap.find k m2 with
    | none => exact keys_place k v1 v2 m1 m2 h
    | some w => rw [h2] at hf; exact Bool.noConfusion hf
  | some w1 =>
    rw [h1] at hf
    cases h2 : StdMap.find k m2 with
    | none => rw [h2] at hf; exact Bool.noConfusion hf
    | some w => exact h

theorem scanTx_keys (env : Env Cache DB) (h : Int) (st : State Cache DB) (tx : CTransaction)
    (hk : StdMap.keys st.zelnodeTxBlockUndo.mapUpdateLastConfirmHeight =
      StdMap.keys st.zelnodeTxBlockUndo.mapLastIpAddress) :
    StdMap.keys (scanTx env h st tx).state.zelnodeTxBlockUndo.mapUpdateLastConfirmHeight =
      StdMap.keys (scanTx env h st tx).state.zelnodeTxBlockUndo.mapLastIpAddress := by
  rcases scanTx_undo env h st tx with ⟨e, _⟩ | ⟨_, _, _, e⟩
  · rw [e]; exact hk
  · rw [e]
    unfold undoWithUpdate
    exact keys_insert _ _ _ _ _ hk

theorem scanTxs_keys (env : Env Cache DB) (h : Int) (txs : List CTransaction)
    (st : State Cache DB)
    (hk : StdMap.keys st.zelnodeTxBlockUndo.mapUpdateLastConfirmHeight =
      StdMap.keys st.zelnodeTxBlockUndo.mapLastIpAddress) :
    StdMap.keys (scanTxs env h st txs).state.zelnodeTxBlockUndo.mapUpdateLastConfirmHeight =
      StdMap.keys (scanTxs env h st txs).state.zelnodeTxBlockUndo.mapLastIpAddress := by
  induction txs generalizing st with
  | nil => exact hk
  | cons tx rest ih =>
    have h1 := scanTx_keys env h st tx hk
    simp only [scanTxs]
    cases hs : scanTx env h st tx with
    | stop why st1 =>
      rw [hs] at h1
      exact h1
    | ok st1 =>
      rw [hs] at h1
      exact ih st1 h1

/-- The undo record a block ends with has the same keys in
`mapUpdateLastConfirmHeight` and in `mapLastIpAddress`, when the undo helpers
leave the two maps alone. -/
theorem processBlock_keys (env : Env Cache DB) (hk : env.KeepsConfirmMaps)
    (st : State Cache DB) (h : Int) (block : CBlock) :
    StdMap.keys (processBlock env st h block).state.zelnodeTxBlockUndo.mapUpdateLastConfirmHeight =
      StdMap.keys (processBlock env st h block).state.zelnodeTxBlockUndo.mapLastIpAddress := by
  obtain ⟨_, _, _, b4, _⟩ := scanStart_frame env h st
  have hs : StdMap.keys (blockScan env st h block).state.zelnodeTxBlockUndo.mapUpdateLastConfirmHeight =
      StdMap.keys (blockScan env st h block).state.zelnodeTxBlockUndo.mapLastIpAddress := by
    unfold blockScan
    apply scanTxs_keys
    rw [b4]
    rfl
  obtain ⟨c1, c2⟩ := collectUndoData_maps env hk h (blockScan env st h block).state
  obtain ⟨_, w2, _, _⟩ :=
    writeUndo_frame env block.hash (collectUndoData env h (blockScan env st h block).state)
  rcases processBlock_cases env st h block with ⟨_, hp⟩ | ⟨_, _, hp⟩ | ⟨_, _, hp⟩
  · rw [hp]; exact hs
  · rw [hp, w2, c1, c2]; exact hs
  · obtain ⟨_, f2, _⟩ := flushBlock_frame env
      (writeUndo env block.hash (collectUndoData env h (blockScan env st h block).state)).state
    rw [hp, f2, w2, c1, c2]; exact hs

theorem allEmpty_iff (u : CZelnodeTxBlockUndo)
    (hk : StdMap.keys u.mapUpdateLastConfirmHeight = StdMap.keys u.mapLastIpAddress) :
    hasUndoData u = false ↔ u.allEmpty = true := by
  obtain ⟨a, b, c, d, e⟩ := u
  simp only at hk
  unfold hasUndoData CZelnodeTxBlockUndo.allEmpty
  cases a <;> cases b <;> cases c <;> cases d <;> cases e <;>
    simp [StdMap.keys] at hk ⊢

/-- C24: with undo helpers that leave `mapUpdateLastConfirmHeight` and
`mapLastIpAddress` alone, the undo record of every block of the rescan has the
same keys in the two maps, in the same order. So the condition of the undo
write, which tests the four other members, is false exactly when all five
members of the record are empty: a skipped write never drops an address. -/
theorem skipped_write_loses_nothing (env : Env Cache DB) (hk : env.KeepsConfirmMaps)
    (st : State Cache DB) (h : Int) (block : CBlock) :
    StdMap.keys (processBlock env st h block).state.zelnodeTxBlockUndo.mapUpdateLastConfirmHeight =
        StdMap.keys (processBlock env st h block).state.zelnodeTxBlockUndo.mapLastIpAddress ∧
      (∀ k, (StdMap.find k
          (processBlock env st h block).state.zelnodeTxBlockUndo.mapUpdateLastConfirmHeight).isSome =
        (StdMap.find k
          (processBlock env st h block).state.zelnodeTxBlockUndo.mapLastIpAddress).isSome) ∧
      (hasUndoData (processBlock env st h block).state.zelnodeTxBlockUndo = false ↔
        (processBlock env st h block).state.zelnodeTxBlockUndo.allEmpty = true) :=
  ⟨processBlock_keys env hk st h block,
    fun k => find_isSome_of_keys k _ _ (processBlock_keys env hk st h block),
    allEmpty_iff _ (processBlock_keys env hk st h block)⟩

set_option maxRecDepth 100000 in
/-- C24 (witness): the block of the sample chain with an UpdateConfirm of the
confirmed sample node: both maps of its undo record have the key of the node,
and the record is written. -/
theorem skipped_write_loses_nothing_witness :
    StdMap.keys (processBlock (sampleEnv [sampleUpdateTx]) (stateOver confirmedCache) 100
        { hash := 1001, vtx := [sampleUpdateTx] }).state.zelnodeTxBlockUndo.mapLastIpAddress =
      [sampleOut] ∧
    StdMap.keys (processBlock (sampleEnv [sampleUpdateTx]) (stateOver confirmedCache) 100
        { hash := 1001, vtx := [sampleUpdateTx] }).state.zelnodeTxBlockUndo.mapUpdateLastConfirmHeight =
      StdMap.keys (processBlock (sampleEnv [sampleUpdateTx]) (stateOver confirmedCache) 100
        { hash := 1001, vtx := [sampleUpdateTx] }).state.zelnodeTxBlockUndo.mapLastIpAddress :=
  ⟨by decide,
    (skipped_write_loses_nothing (sampleEnv [sampleUpdateTx])
      (specEnv_keepsConfirmMaps {} [(⟨1, 1001⟩, { hash := 1001, vtx := [sampleUpdateTx] })]
        [sampleCollateralTx])
      (stateOver confirmedCache) 100 { hash := 1001, vtx := [sampleUpdateTx] }).1⟩

/-! ## The arrays of getstartlist and getdoslist in order -/

/-- The array of `getstartlist`: bucket by bucket from 0 to
`ZELNODE_START_TX_EXPIRATION_HEIGHT`, the records of each bucket in tracker
order. -/
theorem getstartlist_items (env : QueryEnv) (g : ZelnodeCache)
    (hactive : env.IsDZelnodeActive = true) :
    getstartlist env g [] false =
      QueryReturn.array
        ((List.range (env.ZELNODE_START_TX_EXPIRATION_HEIGHT + 1).toNat).flatMap
          (fun (i : Nat) =>
            (g.mapStartTxTracker.filter
              (fun item => decide (expiresIn env item.2 = (i : Int)))).map
              (fun item => startInfo env item.2))) := by
  unfold getstartlist
  simp only [hactive, List.length_nil, gt_iff_lt, lt_self_iff_false, decide_False,
    Bool.or_self, Bool.false_eq_true, if_false, if_true]
  congr 1
  have hb := fun i => bucketAt_foldl (fun (item : COutPoint × ZelnodeCacheData) =>
    expiresIn env item.2) (fun item => startInfo env item.2) g.mapStartTxTracker [] i
  cases hm : g.mapStartTxTracker.foldl
      (fun m item => bucketPush (expiresIn env item.2) (startInfo env item.2) m) [] with
  | nil =>
    simp only [List.length_nil, ne_eq, not_true_eq_false, if_false]
    symm
    rw [List.flatMap_eq_nil_iff]
    intro i _
    have := hb (i : Int)
    rw [hm] at this
    simpa [bucketAt] using this.symm
  | cons a rest =>
    simp only [List.length_cons, ne_eq, Nat.add_one_ne_zero, not_false_eq_true, if_true]
    rw [collectOrdered_eq]
    congr 1
    funext i
    have := hb (i : Int)
    rw [hm] at this
    simpa [bucketAt] using this

/-- C21: the `expires_in` that `getstartlist` reports for a record is
`ZELNODE_START_TX_EXPIRATION_HEIGHT - (h - added_height)`, that is
`(added_height + ZELNODE_START_TX_EXPIRATION_HEIGHT) - h` for the tip height
`h`; it is the number of blocks after which the condition
`added_height + ZELNODE_START_TX_EXPIRATION_HEIGHT ≤ height` holds: `k` blocks
above the tip the condition holds exactly when `expires_in ≤ k`. Every item of
the array is the object of a record of the Start tracker and carries this
value. -/
theorem expires_in_value (env : QueryEnv) (g : ZelnodeCache) :
    (∀ data : ZelnodeCacheData,
      valueOf (startInfo env data) "expires_in" =
        some (Value.num
          (data.nAddedBlockHeight + env.ZELNODE_START_TX_EXPIRATION_HEIGHT - env.Height))) ∧
    (∀ (data : ZelnodeCacheData) (k : Int),
      data.nAddedBlockHeight + env.ZELNODE_START_TX_EXPIRATION_HEIGHT ≤ env.Height + k ↔
        data.nAddedBlockHeight + env.ZELNODE_START_TX_EXPIRATION_HEIGHT - env.Height ≤ k) ∧
    (∀ info ∈ (getstartlist env g [] false).items,
      ∃ item ∈ g.mapStartTxTracker,
        info = startInfo env item.2 ∧
        valueOf info "expires_in" =
          some (Value.num
            (item.2.nAddedBlockHeight + env.ZELNODE_START_TX_EXPIRATION_HEIGHT -
              env.Height))) := by
  have h1 : ∀ data : ZelnodeCacheData,
      valueOf (startInfo env data) "expires_in" =
        some (Value.num
          (data.nAddedBlockHeight + env.ZELNODE_START_TX_EXPIRATION_HEIGHT - env.Height)) := by
    intro data
    unfold startInfo valueOf expiresIn
    simp only [List.cons_append, List.nil_append, List.find?]
    simp
    omega
  refine ⟨h1, fun data k => by omega, ?_⟩
  intro info hinfo
  cases ha : env.IsDZelnodeActive with
  | false =>
    unfold getstartlist at hinfo
    simp [ha, QueryReturn.items] at hinfo
  | true =>
    rw [getstartlist_items env g ha] at hinfo
    simp only [QueryReturn.items, List.mem_flatMap, List.mem_range, List.mem_map,
      List.mem_filter] at hinfo
    obtain ⟨_, _, item, ⟨hm, _⟩, rfl⟩ := hinfo
    exact ⟨item, hm, rfl, h1 item.2⟩

set_option maxRecDepth 100000 in
/-- The sample record of the Start tracker, added at height 20, at tip height
50 with the window 80: `getstartlist` reports `expires_in` 50. -/
theorem sample_getstartlist :
    (getstartlist (sampleQueryEnv 50) startedCache [] false).items.map
        (fun info => valueOf info "expires_in") = [some (Value.num 50)] := by
  decide

theorem range_pick {α : Type} (X : List α) (v : Int) (n : Nat) :
    (List.range n).flatMap (fun (i : Nat) => if (i : Int) = v then X else []) =
      if 0 ≤ v ∧ v < (n : Int) then X else [] := by
  induction n with
  | zero =>
    have : ¬ (0 ≤ v ∧ v < ((0 : Nat) : Int)) := by
      simp only [Nat.cast_zero, not_and, not_lt]
      exact fun h => h
    simp [this]
  | succ n ih =>
    rw [List.range_succ, List.flatMap_append, ih]
    simp only [List.flatMap_cons, List.flatMap_nil, List.append_nil]
    by_cases h1 : (n : Int) = v
    · have a : ¬ (0 ≤ v ∧ v < (n : Int)) := by omega
      have b : 0 ≤ v ∧ v < ((n + 1 : Nat) : Int) := by
        push_cast
        omega
      rw [if_neg a, if_pos h1, if_pos b, List.nil_append]
    · by_cases h2 : 0 ≤ v ∧ v < (n : Int)
      · have b : 0 ≤ v ∧ v < ((n + 1 : Nat) : Int) := by
          push_cast
          omega
        rw [if_pos h2, if_neg h1, if_pos b, List.append_nil]
      · have b : ¬ (0 ≤ v ∧ v < ((n + 1 : Nat) : Int)) := by
          push_cast
          omega
        rw [if_neg h2, if_neg h1, if_neg b, List.append_nil]

/-- The records taken bucket by bucket are in non-decreasing order of their
value, and those with one value are the records of the list with that value,
in the order of the list, when the value is one of the buckets. -/
theorem buckets_sorted {α : Type} (e : α → Int) (l : List α) (n : Nat) :
    ((List.range n).flatMap
        (fun (i : Nat) => l.filter (fun a => decide (e a = (i : Int))))).Pairwise
      (fun a b => e a ≤ e b) ∧
    ∀ v : Int,
      ((List.range n).flatMap
          (fun (i : Nat) => l.filter (fun a => decide (e a = (i : Int))))).filter
        (fun a => decide (e a = v)) =
        if 0 ≤ v ∧ v < (n : Int) then l.filter (fun a => decide (e a = v)) else [] := by
  constructor
  · rw [List.pairwise_flatMap]
    constructor
    · intro i _
      apply List.pairwise_of_forall_mem_list
      intro a ha b hb
      simp only [List.mem_filter, decide_eq_true_eq] at ha hb
      omega
    · refine (List.pairwise_lt_range n).imp ?_
      intro i j hij a ha b hb
      simp only [List.mem_filter, decide_eq_true_eq] at ha hb
      omega
  · intro v
    rw [List.filter_flatMap, ← range_pick (l.filter (fun a => decide (e a = v))) v n]
    congr 1
    funext i
    rw [List.filter_filter]
    by_cases h : (i : Int) = v
    · simp only [h, if_true]
      apply List.filter_congr
      intro a _
      by_cases h2 : e a = v <;> simp [h2]
    · simp only [h, if_false]
      rw [List.filter_eq_nil_iff]
      intro a _
      simp only [Bool.and_eq_true, decide_eq_true_eq, not_and]
      intro h1 h2
      exact h (h2.symm.trans h1)

theorem bound_iff (R v : Int) : (0 ≤ v ∧ v < (((R + 1).toNat : Nat) : Int)) ↔ (0 ≤ v ∧ v ≤ R) := by
  by_cases h : 0 ≤ R + 1
  · rw [Int.toNat_of_nonneg h]
    omega
  · rw [Int.toNat_eq_zero.mpr (by omega)]
    constructor
    · intro ⟨a, b⟩
      simp only [Nat.cast_zero] at b
      omega
    · intro ⟨a, b⟩
      omega

/-- C27: with deterministic nodes active, the array of `getdoslist` is the
objects of a list of records of the DoS tracker that is in non-decreasing
order of `eligible_in`; the records of the array with one value are the
records of the tracker with that value, in the iteration order of the tracker,
when the value lies in 0 to `ZELNODE_DOS_REMOVE_AMOUNT`, and there are none
for a negative or larger value. The same holds for `getstartlist` with the
Start tracker, `expires_in` and `ZELNODE_START_TX_EXPIRATION_HEIGHT`. -/
theorem lists_sorted_and_in_range (env : QueryEnv) (g : ZelnodeCache)
    (hactive : env.IsDZelnodeActive = true) :
    (∃ recs : List (COutPoint × ZelnodeCacheData),
      getdoslist env g [] false = QueryReturn.array (recs.map (fun item => dosInfo env item.2)) ∧
      recs.Pairwise (fun a b => eligibleIn env a.2 ≤ eligibleIn env b.2) ∧
      ∀ v : Int,
        recs.filter (fun item => decide (eligibleIn env item.2 = v)) =
          if 0 ≤ v ∧ v ≤ env.ZELNODE_DOS_REMOVE_AMOUNT then
            g.mapStartTxDosTracker.filter (fun item => decide (eligibleIn env item.2 = v))
          else []) ∧
    (∃ recs : List (COutPoint × ZelnodeCacheData),
      getstartlist env g [] false =
        QueryReturn.array (recs.map (fun item => startInfo env item.2)) ∧
      recs.Pairwise (fun a b => expiresIn env a.2 ≤ expiresIn env b.2) ∧
      ∀ v : Int,
        recs.filter (fun item => decide (expiresIn env item.2 = v)) =
          if 0 ≤ v ∧ v ≤ env.ZELNODE_START_TX_EXPIRATION_HEIGHT then
            g.mapStartTxTracker.filter (fun item => decide (expiresIn env item.2 = v))
          else []) := by
  constructor
  · obtain ⟨s1, s2⟩ := buckets_sorted (fun (item : COutPoint × ZelnodeCacheData) =>
      eligibleIn env item.2) g.mapStartTxDosTracker (env.ZELNODE_DOS_REMOVE_AMOUNT + 1).toNat
    refine ⟨_, ?_, s1, ?_⟩
    · rw [getdoslist_items env g hactive, List.map_flatMap]
    · intro v
      rw [s2 v]
      by_cases h : 0 ≤ v ∧ v ≤ env.ZELNODE_DOS_REMOVE_AMOUNT
      · rw [if_pos h, if_pos ((bound_iff _ v).mpr h)]
      · rw [if_neg h, if_neg (fun hh => h ((bound_iff _ v).mp hh))]
  · obtain ⟨s1, s2⟩ := buckets_sorted (fun (item : COutPoint × ZelnodeCacheData) =>
      expiresIn env item.2) g.mapStartTxTracker
      (env.ZELNODE_START_TX_EXPIRATION_HEIGHT + 1).toNat
    refine ⟨_, ?_, s1, ?_⟩
    · rw [getstartlist_items env g hactive, List.map_flatMap]
    · intro v
      rw [s2 v]
      by_cases h : 0 ≤ v ∧ v ≤ env.ZELNODE_START_TX_EXPIRATION_HEIGHT
      · rw [if_pos h, if_pos ((bound_iff _ v).mpr h)]
      · rw [if_neg h, if_neg (fun hh => h ((bound_iff _ v).mp hh))]

set_option maxRecDepth 100000 in
/-- C27 (witness): at tip height 150 and with the window 180, the DoS tracker
holds records with `eligible_in` 190, 50 and 35 in this order; the array has
the two records in range, the one with 35 first. -/
theorem lists_sorted_and_in_range_witness :
    (sampleQueryEnv 150).IsDZelnodeActive = true ∧
      mixedDosCache.mapStartTxDosTracker.map (fun item => eligibleIn (sampleQueryEnv 150) item.2) =
        [190, 50, 35] ∧
      (getdoslist (sampleQueryEnv 150) mixedDosCache [] false).items.map
        (fun info => valueOf info "eligible_in") =
        [some (Value.num 35), some (Value.num 50)] ∧
      ∃ recs : List (COutPoint × ZelnodeCacheData),
        getdoslist (sampleQueryEnv 150) mixedDosCache [] false =
          QueryReturn.array (recs.map (fun item => dosInfo (sampleQueryEnv 150) item.2)) ∧
        recs.Pairwise
          (fun a b => eligibleIn (sampleQueryEnv 150) a.2 ≤ eligibleIn (sampleQueryEnv 150) b.2) ∧
        ∀ v : Int,
          recs.filter (fun item => decide (eligibleIn (sampleQueryEnv 150) item.2 = v)) =
            if 0 ≤ v ∧ v ≤ (sampleQueryEnv 150).ZELNODE_DOS_REMOVE_AMOUNT then
              mixedDosCache.mapStartTxDosTracker.filter
                (fun item => decide (eligibleIn (sampleQueryEnv 150) item.2 = v))
            else [] :=
  ⟨rfl, by decide, by decide,
    (lists_sorted_and_in_range (sampleQueryEnv 150) mixedDosCache rfl).1⟩

/-! ## The payment address on the query RPCs -/

/-- The payment address of `getdoslist`, `getstartlist` and
`viewdeterministiczelnodelist` is the encoded payment destination of lines
652-657: resolved from the collateral outpoint for a P2SH marker. -/
theorem list_payment_address (env : QueryEnv) (data : ZelnodeCacheData) (count : Int) :
    paymentAddress (dosInfo env data) = env.EncodeDestination (paymentDestination env data) ∧
    paymentAddress (startInfo env data) = env.EncodeDestination (paymentDestination env data) ∧
    (∀ info, deterministicInfo env data count = some info →
      paymentAddress info = env.EncodeDestination (paymentDestination env data)) := by
  refine ⟨?_, ?_, ?_⟩
  · simp [paymentAddress, textOf, valueOf, dosInfo, List.find?]
  · simp [paymentAddress, textOf, valueOf, startInfo, List.find?]
  · intro info hinfo
    unfold deterministicInfo at hinfo
    simp only at hinfo
    cases ha : blockTimeValue env data.nAddedBlockHeight with
    | none => rw [ha] at hinfo; simp at hinfo
    | some a =>
      cases hl : blockTimeValue env data.nLastPaidHeight with
      | none => rw [ha, hl] at hinfo; simp at hinfo
      | some l =>
        rw [ha, hl] at hinfo
        simp only [Option.some.injEq] at hinfo
        subst hinfo
        simp [paymentAddress, textOf, valueOf, List.find?]

/-- The payment address of `getzelnodestatus` and of `listzelnodeconf` is the
encoded key id of the collateral key, P2SH marker or not. -/
theorem status_payment_address (env : QueryEnv) (g : ZelnodeCache) (zelnode : ZelnodeEntry)
    (nIndex : Int) :
    (∀ info, getzelnodestatus env g [] false = StatusReturn.object info →
      (env.GetZelnodeData g env.deterministicOutPoint env.ZELNODE_TX_ERROR).1.IsNull = false →
      paymentAddress info =
        env.EncodeDestination (CTxDestination.CKeyID (env.GetID
          (env.GetZelnodeData g env.deterministicOutPoint
            env.ZELNODE_TX_ERROR).1.collateralPubkey))) ∧
    (∀ info, confInfo env g zelnode nIndex = some info →
      (env.GetZelnodeData g ⟨env.uint256S zelnode.getTxHash, (nIndex % 4294967296).toNat⟩
        env.ZELNODE_TX_ERROR).1.IsNull = false →
      paymentAddress info =
        env.EncodeDestination (CTxDestination.CKeyID (env.GetID
          (env.GetZelnodeData g ⟨env.uint256S zelnode.getTxHash, (nIndex % 4294967296).toNat⟩
            env.ZELNODE_TX_ERROR).1.collateralPubkey))) := by
  constructor
  · intro info hinfo hnn
    unfold getzelnodestatus at hinfo
    simp only [List.length_nil, ne_eq, not_true_eq_false, decide_False, Bool.or_self,
      Bool.false_eq_true, if_false, hnn] at hinfo
    split at hinfo
    · cases hinfo
    · split at hinfo
      · split at hinfo
        · injection hinfo with hinfo
          subst hinfo
          simp [paymentAddress, textOf, valueOf, List.find?]
        · cases hinfo
      · cases hinfo
  · intro info hinfo hnn
    unfold confInfo at hinfo
    simp only [hnn, Bool.false_eq_true, if_false] at hinfo
    split at hinfo
    · injection hinfo with hinfo
      subst hinfo
      simp [paymentAddress, textOf, valueOf, List.find?]
    · cases hinfo

set_option maxRecDepth 100000 in
/-- C22 (failing input): the sample node has the P2SH marker as collateral
key and its collateral resolves to a script destination. In the Confirmed
tracker `viewdeterministiczelnodelist` reports the script address for it, in
the Start tracker `getstartlist` does, in the DoS tracker `getdoslist` does;
`getzelnodestatus` and `listzelnodeconf` report the address of the key id of
the marker for the same confirmed record. -/
theorem status_ignores_p2sh_collateral :
    (viewdeterministiczelnodelist (sampleP2SHEnv 100) p2shConfirmedCache [] false).items.map
        paymentAddress = ["t3script"] ∧
      (getstartlist (sampleP2SHEnv 50) p2shStartedCache [] false).items.map paymentAddress =
        ["t3script"] ∧
      (getdoslist (sampleP2SHEnv 150) p2shDosCache [] false).items.map paymentAddress =
        ["t3script"] ∧
      paymentAddress (getzelnodestatus (sampleP2SHEnv 100) p2shConfirmedCache [] false).info =
        "t1key" ∧
      (listzelnodeconf (sampleP2SHEnv 100) p2shConfirmedCache [] false).items.map
        paymentAddress = ["t1key"] := by
  decide

/-! ## The filter of viewdeterministiczelnodelist -/

theorem findFrom_ge (needle : List Char) (hay : List Char) (pos p : Nat)
    (h : findFrom needle hay pos = some p) : pos ≤ p := by
  induction hay generalizing pos with
  | nil =>
    unfold findFrom at h
    split at h
    · injection h with h; omega
    · cases h
  | cons c rest ih =>
    unfold findFrom at h
    split at h
    · injection h with h; omega
    · have := ih (pos + 1) h
      omega

/-- The search finds nothing exactly when the needle does not occur. -/
theorem findFrom_none (needle : List Char) (hay : List Char) (pos : Nat) :
    findFrom needle hay pos = none ↔ ¬ needle <:+: hay := by
  induction hay generalizing pos with
  | nil =>
    unfold findFrom
    by_cases h : needle = [] <;> simp [h]
  | cons c rest ih =>
    unfold findFrom
    rw [List.infix_cons_iff]
    by_cases h : needle <+: c :: rest
    · simp [h]
    · simp only [h, if_false, false_or]
      exact ih (pos + 1)

/-- The search answers the start position exactly when the text begins with
the needle. -/
theorem findFrom_start (needle : List Char) (hay : List Char) (pos : Nat) :
    findFrom needle hay pos = some pos ↔ needle <+: hay := by
  cases hay with
  | nil =>
    unfold findFrom
    by_cases h : needle = [] <;> simp [h]
  | cons c rest =>
    unfold findFrom
    by_cases h : needle <+: c :: rest
    · simp [h]
    · simp only [h, if_false, iff_false]
      intro hf
      have := findFrom_ge needle rest (pos + 1) pos hf
      omega

theorem stdFind_none (hay needle : String) :
    stdFind hay needle = none ↔ ¬ containsText hay needle :=
  findFrom_none needle.data hay.data 0

theorem stdFindTruth_false (hay needle : String) :
    stdFindTruth hay needle = false ↔ beginsWith hay needle := by
  unfold stdFindTruth beginsWith stdFind
  rw [← findFrom_start needle.data hay.data 0]
  simp

/-- The test of lines 660-661 lets a record through exactly when the filter
rule in words holds. -/
theorem filteredOut_iff (env : QueryEnv) (strFilter : String) (data : ZelnodeCacheData) :
    filteredOut env strFilter data = false ↔ listedByFilter env strFilter data := by
  unfold filteredOut listedByFilter
  have h1 := stdFind_none (env.GetTxHash data.collateralIn) strFilter
  have h2 := stdFind_none (env.EncodeDestination (paymentDestination env data)) strFilter
  have h3 := stdFindTruth_false (env.HexStr data.pubKey) strFilter
  have h4 := stdFindTruth_false data.ip strFilter
  by_cases a : strFilter = ""
  · simp [a]
  · by_cases b : containsText (env.GetTxHash data.collateralIn) strFilter
    · have : ¬ stdFind (env.GetTxHash data.collateralIn) strFilter = none :=
        fun hh => (h1.mp hh) b
      simp [a, b, this]
    · have b1 := h1.mpr b
      by_cases c : containsText (env.EncodeDestination (paymentDestination env data)) strFilter
      · have : ¬ stdFind (env.EncodeDestination (paymentDestination env data)) strFilter = none :=
          fun hh => (h2.mp hh) c
        simp [a, b, c, this]
      · have c1 := h2.mpr c
        by_cases d : beginsWith (env.HexStr data.pubKey) strFilter
        · have d1 := h3.mpr d
          simp [a, b, c, d, d1]
        · have d1 : stdFindTruth (env.HexStr data.pubKey) strFilter = true := by
            cases hx : stdFindTruth (env.HexStr data.pubKey) strFilter
            · exact absurd (h3.mp hx) d
            · rfl
          by_cases e : beginsWith data.ip strFilter
          · have e1 := h4.mpr e
            simp [a, b, c, d, e, e1]
          · have e1 : stdFindTruth data.ip strFilter = true := by
              cases hx : stdFindTruth data.ip strFilter
              · exact absurd (h4.mp hx) e
              · rfl
            simp [a, b, c, d, e, b1, c1, d1, e1]

/-- C25: for an outpoint of a tier list whose record is not null, and with the
block indexes of the record's heights present, the loop body of
`GetDeterministicListData` pushes the record exactly when the filter is
empty, or occurs in the collateral transaction hash, or occurs in the encoded
payment address, or the hex of the operator key begins with it, or the ip
begins with it; otherwise the record is skipped. A filter that `find` meets in
the ip and in the key hex only after position 0, and that is in neither of the
two other fields, leaves the record out. -/
theorem view_filter_semantics (env : QueryEnv) (g : ZelnodeCache) (strFilter : String)
    (count : Int) (out : COutPoint)
    (hnn : (env.GetZelnodeData g out env.ZELNODE_TX_ERROR).1.IsNull = false)
    (htime : (deterministicInfo env (env.GetZelnodeData g out env.ZELNODE_TX_ERROR).1
      count).isSome = true) :
    ((∃ info, listDataItem env g strFilter count out = ItemStep.push info) ↔
      listedByFilter env strFilter (env.GetZelnodeData g out env.ZELNODE_TX_ERROR).1) ∧
    (listDataItem env g strFilter count out = ItemStep.skip ↔
      ¬ listedByFilter env strFilter (env.GetZelnodeData g out env.ZELNODE_TX_ERROR).1) ∧
    (∀ p q : Nat, strFilter ≠ "" →
      stdFind (env.GetZelnodeData g out env.ZELNODE_TX_ERROR).1.ip strFilter = some (p + 1) →
      stdFind (env.HexStr (env.GetZelnodeData g out env.ZELNODE_TX_ERROR).1.pubKey) strFilter =
        some (q + 1) →
      ¬ containsText (env.GetTxHash
        (env.GetZelnodeData g out env.ZELNODE_TX_ERROR).1.collateralIn) strFilter →
      ¬ containsText (env.EncodeDestination (paymentDestination env
        (env.GetZelnodeData g out env.ZELNODE_TX_ERROR).1)) strFilter →
      listDataItem env g strFilter count out = ItemStep.skip) := by
  have hf := filteredOut_iff env strFilter (env.GetZelnodeData g out env.ZELNODE_TX_ERROR).1
  obtain ⟨info0, hinfo0⟩ := Option.isSome_iff_exists.mp htime
  have hitem : listDataItem env g strFilter count out =
      if filteredOut env strFilter (env.GetZelnodeData g out env.ZELNODE_TX_ERROR).1 then
        ItemStep.skip
      else ItemStep.push info0 := by
    unfold listDataItem
    simp only [hnn, Bool.not_false, if_true, hinfo0]
  have hskip : listDataItem env g strFilter count out = ItemStep.skip ↔
      ¬ listedByFilter env strFilter (env.GetZelnodeData g out env.ZELNODE_TX_ERROR).1 := by
    rw [hitem, ← hf]
    cases filteredOut env strFilter (env.GetZelnodeData g out env.ZELNODE_TX_ERROR).1 <;> simp
  refine ⟨?_, hskip, ?_⟩
  · rw [hitem, ← hf]
    cases filteredOut env strFilter (env.GetZelnodeData g out env.ZELNODE_TX_ERROR).1 <;> simp
  · intro p q hne hip hhex htx haddr
    rw [hskip]
    unfold listedByFilter
    have nip : ¬ beginsWith (env.GetZelnodeData g out env.ZELNODE_TX_ERROR).1.ip strFilter := by
      rw [← stdFindTruth_false]
      unfold stdFindTruth
      rw [hip]
      simp
    have nhex : ¬ beginsWith
        (env.HexStr (env.GetZelnodeData g out env.ZELNODE_TX_ERROR).1.pubKey) strFilter := by
      rw [← stdFindTruth_false]
      unfold stdFindTruth
      rw [hhex]
      simp
    intro hl
    rcases hl with h | h | h | h | h
    · exact hne h
    · exact htx h
    · exact haddr h
    · exact nhex h
    · exact nip h

set_option maxRecDepth 100000 in
/-- C25 (witness): the confirmed sample node has the ip `10.0.0.1`. With the
filter `10.` the list has the node; with the filter `0.0`, which the ip
contains from position 1 on only, the list is empty. -/
theorem view_filter_semantics_witness :
    ((∃ info, listDataItem (sampleQueryEnv 100) confirmedCache "10." 0 sampleOut =
        ItemStep.push info) ↔
      listedByFilter (sampleQueryEnv 100) "10."
        ((sampleQueryEnv 100).GetZelnodeData confirmedCache sampleOut
          (sampleQueryEnv 100).ZELNODE_TX_ERROR).1) ∧
    (viewdeterministiczelnodelist (sampleQueryEnv 100) confirmedCache ["10."] false).items.map
        (fun info => textOf info "ip") = ["10.0.0.1"] ∧
    stdFind "10.0.0.1" "0.0" = some 1 ∧
    viewdeterministiczelnodelist (sampleQueryEnv 100) confirmedCache ["0.0"] false =
      QueryReturn.array [] :=
  ⟨(view_filter_semantics (sampleQueryEnv 100) confirmedCache "10." 0 sampleOut
      (by decide) (by decide)).1,
    by decide, by decide, by decide⟩

/-! ## The counters of startzelnode -/

section CounterTheorems

variable {W : Type}

/-- One pass of the loop of `startzelnode` in the mode `all`: the loop goes
on, one entry is pushed, `successful` grows by one exactly when the node was
started, and `successful + failed` grows by one exactly when the entry passed
the checks. -/
theorem startzelnodeEntry_all (env : StartEnv W) (st : StartState W) (zne : ZelnodeEntry) :
    ∃ st1 entry,
      startzelnodeEntry env false "" st zne = LoopStep.next st1 ∧
      st1.resultsObj = st.resultsObj ++ [entry] ∧
      st1.successful = st.successful + (if startsNode env st zne then 1 else 0) ∧
      st1.successful + st1.failed =
        st.successful + st.failed + (if passesPrecheck env st zne then 1 else 0) ∧
      (passesPrecheck env st zne = false →
        st1.successful = st.successful ∧ st1.failed = st.failed ∧ st1.calls = st.calls ∧
          st1.world = st.world) := by
  unfold startzelnodeEntry
  simp only [Bool.false_and, Bool.false_eq_true, if_false]
  cases hk : knownOutpoint env st.world (outpointOf env zne)
  · have hp : passesPrecheck env st zne = true := by
      unfold passesPrecheck
      rw [hk]
      rfl
    unfold knownOutpoint at hk
    simp only [Bool.or_eq_false_iff] at hk
    obtain ⟨⟨⟨k1, k2⟩, k3⟩, k4⟩ := hk
    unfold startsNode
    rw [hp]
    unfold startzelnodeSelected
    simp only [k1, k2, k3, k4, Bool.false_eq_true, if_false, Bool.false_and, Bool.true_and]
    cases hb : (env.BuildDeterministicStartTx st.world zne).result
    · simp only [Bool.false_eq_true, if_false, Bool.false_and]
      refine ⟨_, _, rfl, rfl, ?_, ?_, fun hh => Bool.noConfusion hh⟩
      · simp
      · simp only [if_true]
        omega
    · simp only [if_true, Bool.true_and]
      cases hs : (env.SignDeterministicStartTx (env.BuildDeterministicStartTx st.world zne).world
          (env.BuildDeterministicStartTx st.world zne).mutTransaction).result
      · simp only [Bool.false_eq_true, if_false, Bool.false_and]
        refine ⟨_, _, rfl, rfl, ?_, ?_, fun hh => Bool.noConfusion hh⟩
        · simp
        · simp only [if_true]
          omega
      · simp only [if_true, Bool.true_and]
        cases hc : (env.CommitTransaction
            (env.SignDeterministicStartTx (env.BuildDeterministicStartTx st.world zne).world
              (env.BuildDeterministicStartTx st.world zne).mutTransaction).world
            (env.SignDeterministicStartTx (env.BuildDeterministicStartTx st.world zne).world
              (env.BuildDeterministicStartTx st.world zne).mutTransaction).mutTransaction).fCommited
        · simp only [Bool.false_eq_true, if_false]
          refine ⟨_, _, rfl, rfl, ?_, ?_, fun hh => Bool.noConfusion hh⟩
          · simp
          · simp only [if_true]
            omega
        · simp only [if_true]
          refine ⟨_, _, rfl, rfl, ?_, ?_, fun hh => Bool.noConfusion hh⟩
          · rfl
          · simp only
            omega
  · have hp : passesPrecheck env st zne = false := by
      unfold passesPrecheck
      rw [hk]
      rfl
    have hs : startsNode env st zne = false := by
      unfold startsNode
      rw [hp]
      rfl
    rw [startzelnodeSelected_known env false st zne hk, hp, hs]
    simp only [Bool.false_eq_true, if_false]
    exact ⟨_, _, rfl, rfl, by simp, by simp, fun _ => ⟨rfl, rfl, rfl, rfl⟩⟩

/-- The loop of `startzelnode` in the mode `all` runs to the end of the list:
one entry of the detail array per configured node, and the counters count as
`countAlong` does. -/
theorem startzelnode_all_loop (env : StartEnv W) (entries : List ZelnodeEntry)
    (st : StartState W) :
    ∃ st1,
      runLoop (startzelnodeEntry env false "") st entries = LoopStep.next st1 ∧
      st1.resultsObj.length = st.resultsObj.length + entries.length ∧
      st1.successful = st.successful + countAlong env (startsNode env) st entries ∧
      st1.successful + st1.failed =
        st.successful + st.failed + countAlong env (passesPrecheck env) st entries ∧
      st1.found = st.found := by
  induction entries generalizing st with
  | nil => exact ⟨st, rfl, by simp, by simp [countAlong], by simp [countAlong], rfl⟩
  | cons zne rest ih =>
    obtain ⟨s1, entry, h1, h2, h3, h4, _⟩ := startzelnodeEntry_all env st zne
    obtain ⟨s2, i1, i2, i3, i4, i5⟩ := ih s1
    have hfound : s1.found = st.found := by
      have := h1
      unfold startzelnodeEntry at this
      simp only [Bool.false_and, Bool.false_eq_true, if_false] at this
      unfold startzelnodeSelected at this
      simp only [Bool.false_and, Bool.false_eq_true, if_false] at this
      split at this
      · injection this with this; rw [← this]
      · split at this
        · injection this with this; rw [← this]
        · split at this
          · injection this with this; rw [← this]
          · split at this
            · injection this with this; rw [← this]
            · injection this with this
              rw [← this]
              simp only
              split
              · split
                · split <;> rfl
                · rfl
              · rfl
    refine ⟨s2, ?_, ?_, ?_, ?_, i5.trans hfound⟩
    · simp only [runLoop]
      rw [h1]
      exact i1
    · rw [i2, h2]
      simp only [List.length_append, List.length_cons, List.length_nil]
      omega
    · rw [i3, h3]
      simp only [countAlong]
      rw [h1]
      simp only [LoopStep.state]
      omega
    · rw [i4, h4]
      simp only [countAlong]
      rw [h1]
      simp only [LoopStep.state]
      omega

/-- C26: in the mode `all` the detail array of `startzelnode` has one entry
per configured node. `successful + failed`, the total of the overall message,
is the number of nodes that passed the mempool and tracker checks, and
`successful` is the number of nodes whose transaction was built, signed and
committed. A node that the checks reject leaves both counters, the wallet and
the log of wallet calls as they were. -/
theorem all_mode_counters (env : StartEnv W) (w : W) (lockwallet : String)
    (hactive : env.IsZelnodeTransactionsActive = true)
    (hsync : env.IsInitialBlockDownload = false)
    (hunlocked : env.EnsureWalletIsUnlocked w = true) :
    (∃ successful failed detail,
      (startzelnode env w ["all", lockwallet] false).value =
        StartReturn.summary (overallMessage successful failed) detail ∧
      detail.length = env.getEntries.length ∧
      successful + failed = countAlong env (passesPrecheck env) { world := w } env.getEntries ∧
      successful = countAlong env (startsNode env) { world := w } env.getEntries) ∧
    (∀ (st : StartState W) (zne : ZelnodeEntry), passesPrecheck env st zne = false →
      (startzelnodeEntry env false "" st zne).state.successful = st.successful ∧
      (startzelnodeEntry env false "" st zne).state.failed = st.failed ∧
      (startzelnodeEntry env false "" st zne).state.calls = st.calls) := by
  constructor
  · obtain ⟨st1, h1, h2, h3, h4, h5⟩ := startzelnode_all_loop env env.getEntries { world := w }
    refine ⟨st1.successful, st1.failed, st1.resultsObj, ?_, ?_, ?_, ?_⟩
    · unfold startzelnode
      simp only [hactive, hsync, hunlocked, if_true, List.length_cons, List.length_nil]
      simp only [List.getD_cons_zero, List.getD_cons_succ]
      have e1 : (decide (0 + 1 + 1 = 3)) = false := by decide
      simp only [e1, Bool.false_eq_true, if_false, h1]
      simp only [startzelnodeEnd, Bool.and_false, Bool.false_eq_true, if_false, LoopStep.state]
      by_cases hl : lockwallet = "true" <;> simp [hl]
    · rw [h2]
      simp
    · rw [h4]
      simp
    · rw [h3]
      simp
  · intro st zne hp
    obtain ⟨s1, entry, h1, _, _, _, h5⟩ := startzelnodeEntry_all env st zne
    rw [h1]
    simp only [LoopStep.state]
    obtain ⟨a, b, c, _⟩ := h5 hp
    exact ⟨a, b, c⟩

set_option maxRecDepth 100000 in
/-- C26 (witness): two configured nodes, `zn1` in the Start tracker and `zn2`
unknown to the registry. The detail array has two entries, one node passed the
checks and was started: successful 1, failed 0. -/
theorem all_mode_counters_witness :
    (sampleStartEnv2 startedCache).getEntries.length = 2 ∧
      countAlong (sampleStartEnv2 startedCache) (passesPrecheck (sampleStartEnv2 startedCache)) { world := {} }
        (sampleStartEnv2 startedCache).getEntries = 1 ∧
      countAlong (sampleStartEnv2 startedCache) (startsNode (sampleStartEnv2 startedCache)) { world := {} }
        (sampleStartEnv2 startedCache).getEntries = 1 ∧
      ∃ successful failed detail,
        (startzelnode (sampleStartEnv2 startedCache) {} ["all", "false"] false).value =
          StartReturn.summary (overallMessage successful failed) detail ∧
        detail.length = (sampleStartEnv2 startedCache).getEntries.length ∧
        successful + failed =
          countAlong (sampleStartEnv2 startedCache) (passesPrecheck (sampleStartEnv2 startedCache)) { world := {} }
            (sampleStartEnv2 startedCache).getEntries ∧
        successful =
          countAlong (sampleStartEnv2 startedCache) (startsNode (sampleStartEnv2 startedCache)) { world := {} }
            (sampleStartEnv2 startedCache).getEntries :=
  ⟨by decide, by decide, by decide,
    (all_mode_counters (sampleStartEnv2 startedCache) {} "false" rfl rfl rfl).1⟩

end CounterTheorems

end Fluxd
